import Mathlib

/-! Nibiru perp: liquidation, funding, swaps and square roots.

A shallow embedding of `x/perp/keeper/v2/liquidate.go` and
`x/perp/keeper/v2/hooks.go`, and a model of the square roots of `x/common` and
of the swap engine of `x/perp/amm/keeper`, taken from the specification and
checked against the cases of their tests.

* `sdk.Dec` is the 18-digit fixed-point decimal of the Cosmos SDK: a value is
  stored as the integer `value * 10^18`, so `Dec` is `Int` counted in units of
  `10^-18`.  `Mul` and `RoundInt` round half to even, `QuoInt64` truncates.
  The overflow panic of a decimal wider than the SDK's bit limit is outside
  the model.
* `sdk.Context` is a record of the key-value stores and of the event manager.
  A function that receives a context and may write to it returns the context
  it leaves behind, also when it returns an error.  Gas is not modelled.
* A Go panic is the outcome `Outcome.panicked`.  The panics modelled are the
  ones the two files can raise themselves: `sdk.MustAccAddressFromBech32` on a
  malformed address, `sdk.NewCoin` on a negative amount, and the two divisions
  of `AfterEpochEnd` on a zero divisor.
* Functions of the keeper whose code is in other files of the module, and the
  bank, address, oracle and epoch collaborators, are the fields of `Keeper`
  and of `FundingKeeper`; they are total functions here.
* In the models of the square roots and of the swap engine a panic is `none`.
-/

namespace Nibiru

/-! ## sdk.Dec and sdk.Int -/

/-- An `sdk.Dec`: the integer `value * 10^18`. -/
abbrev Dec := Int

/-- An `sdk.Int`: an arbitrary-precision integer. -/
abbrev SdkInt := Int

/-- The scale of `sdk.Dec`, `10^18`. -/
def precisionReuse : Int := 1000000000000000000

/-- Half of the scale, `5 * 10^17`. -/
def fivePrecision : Int := 500000000000000000

/-- Removes 18 digits from a non-negative integer, rounding half to even. -/
def chopNonNeg (d : Int) : Int :=
  let quo := d / precisionReuse
  let rem := d % precisionReuse
  if rem = 0 then quo
  else if rem < fivePrecision then quo
  else if rem > fivePrecision then quo + 1
  else if quo % 2 = 0 then quo
  else quo + 1

/-- The SDK's `chopPrecisionAndRound`: the sign is taken off, the magnitude
is chopped with banker's rounding, and the sign is put back. -/
def chopPrecisionAndRound (d : Int) : Int :=
  if d < 0 then -(chopNonNeg (-d)) else chopNonNeg d

/-- `sdk.ZeroDec()`. -/
def Dec.Zero : Dec := 0

/-- `sdk.NewDec(n)`: the decimal of the integer `n`. -/
def Dec.New (n : Int) : Dec := n * precisionReuse

/-- `d.Add(d2)`. -/
def Dec.Add (d d2 : Dec) : Dec := d + d2

/-- `d.Sub(d2)`. -/
def Dec.Sub (d d2 : Dec) : Dec := d - d2

/-- `d.Mul(d2)`: the product of the two stored integers, chopped back to 18
digits with banker's rounding. -/
def Dec.Mul (d d2 : Dec) : Dec := chopPrecisionAndRound (d * d2)

/-- `d.QuoInt64(i)`: `big.Int.Quo`, which truncates towards zero.  The
callers modelled here pass the literal `2`. -/
def Dec.QuoInt64 (d : Dec) (i : Int) : Dec := Int.tdiv d i

/-- `d.Quo(d2)`: the stored integer scaled by `10^36`, divided with
truncation and chopped back to 18 digits.  Go panics on a zero divisor. -/
def Dec.Quo (d d2 : Dec) : Dec :=
  chopPrecisionAndRound (Int.tdiv (d * precisionReuse * precisionReuse) d2)

/-- `d.Abs()`. -/
def Dec.Abs (d : Dec) : Dec := if d < 0 then -d else d

/-- `d.GT(d2)`. -/
def Dec.GT (d d2 : Dec) : Bool := decide (d > d2)

/-- `d.GTE(d2)`. -/
def Dec.GTE (d d2 : Dec) : Bool := decide (d ≥ d2)

/-- `d.IsZero()`. -/
def Dec.IsZero (d : Dec) : Bool := decide (d = 0)

/-- `d.IsPositive()`. -/
def Dec.IsPositive (d : Dec) : Bool := decide (d > 0)

/-- `d.RoundInt()`: the nearest integer, ties to even. -/
def Dec.RoundInt (d : Dec) : SdkInt := chopPrecisionAndRound d

/-- `sdk.MaxDec(d1, d2)`: `d2` when `d1 < d2`, else `d1`. -/
def MaxDec (d1 d2 : Dec) : Dec := if d1 < d2 then d2 else d1

/-- `i.IsPositive()` of an `sdk.Int`. -/
def SdkInt.IsPositive (i : SdkInt) : Bool := decide (i > 0)

/-! ## Records -/

/-- An `asset.Pair`, `base:quote`. -/
structure Pair where
  BaseDenom : String
  QuoteDenom : String
deriving DecidableEq, Repr

/-- An `sdk.AccAddress`: the raw bytes of an account address. -/
structure AccAddress where
  bytes : List Nat
deriving DecidableEq, Repr

/-- An `sdk.Coin`.  The zero value `sdk.Coin{}` has the empty denom and a nil
amount. -/
structure Coin where
  Denom : String
  Amount : Option SdkInt
deriving DecidableEq, Repr

/-- The zero value `sdk.Coin{}`. -/
def Coin.empty : Coin := ⟨"", none⟩

/-- `sdk.NewCoin(denom, amount)`: panics (`none`) on a negative amount.  The
denoms passed here are the quote denoms of registered pairs, which are valid. -/
def NewCoin (denom : String) (amount : SdkInt) : Option Coin :=
  if amount < 0 then none else some ⟨denom, some amount⟩

/-- Trade direction. -/
inductive Direction where
  | DIRECTION_UNSPECIFIED
  | LONG
  | SHORT
deriving DecidableEq, Repr

/-- The fields of `v2types.Market` the keeper code reads or writes. -/
structure Market where
  Pair : Pair
  Enabled : Bool
  MaintenanceMarginRatio : Dec
  MaxLeverage : Dec
  LiquidationFeeRatio : Dec
  PartialLiquidationRatio : Dec
  FundingRateEpochId : String
  TwapLookbackWindow : Nat
  LatestCumulativePremiumFraction : Dec
deriving DecidableEq, Repr

/-- A `v2types.AMM`: the virtual reserves of a pair. -/
structure AMM where
  Pair : Pair
  BaseReserve : Dec
  QuoteReserve : Dec
  SqrtDepth : Dec
  PriceMultiplier : Dec
  TotalLong : Dec
  TotalShort : Dec
deriving DecidableEq, Repr

/-- A `v2types.Position`. -/
structure Position where
  TraderAddress : String
  Pair : Pair
  Size_ : Dec
  Margin : Dec
  OpenNotional : Dec
  LatestCumulativePremiumFraction : Dec
  LastUpdatedBlockNumber : Int
deriving DecidableEq, Repr

/-- A `v2types.PositionResp`, what closing or decreasing a position reports.
`Position` is the position after the operation. -/
structure PositionResp where
  Position : Position
  ExchangedNotionalValue : Dec
  ExchangedPositionSize : Dec
  BadDebt : Dec
  FundingPayment : Dec
  RealizedPnl : Dec
  UnrealizedPnlAfter : Dec
  MarginToVault : Dec
  PositionNotional : Dec
deriving DecidableEq, Repr

/-- A `v2types.LiquidateResp`. -/
structure LiquidateResp where
  BadDebt : SdkInt
  FeeToLiquidator : SdkInt
  FeeToPerpEcosystemFund : SdkInt
  Liquidator : String
  PositionResp : PositionResp
deriving DecidableEq, Repr

/-- One entry of `MsgMultiLiquidate.Liquidations`. -/
structure MsgMultiLiquidate_Liquidation where
  Pair : Pair
  Trader : String
deriving DecidableEq, Repr

/-- One entry of `MsgMultiLiquidateResponse.Liquidations`.  Fields the code
does not set keep their zero value. -/
structure MsgMultiLiquidateResponse_LiquidationResponse where
  Success : Bool
  Error : String
  LiquidatorFee : Coin
  PerpEfFee : Coin
deriving DecidableEq, Repr

/-! ## Errors and events -/

/-- The errors the liquidation code returns.  `ErrAllLiquidationsFailed n` is
`types.ErrAllLiquidationsFailed.Wrapf("%d liquidations failed", n)`,
`ErrNotFound` is what a `collections` lookup returns for an absent key, and
`external` is an error raised by a collaborator. -/
inductive Err where
  | ErrPairNotFound
  | ErrPositionHealthy
  | ErrAllLiquidationsFailed (n : Nat)
  | ErrNotFound
  | external (msg : String)
deriving DecidableEq, Repr

/-- The reason carried by a `LiquidationFailedEvent`. -/
inductive LiquidationFailedEvent_LiquidationFailedReason where
  | UNSPECIFIED
  | POSITION_HEALTHY
  | NONEXISTENT_POSITION
  | NONEXISTENT_PAIR
deriving DecidableEq, Repr

/-- The fields of `types.PositionLiquidatedEvent`. -/
structure PositionLiquidatedEvent where
  Pair : Pair
  TraderAddress : String
  ExchangedQuoteAmount : Dec
  ExchangedPositionSize : Dec
  LiquidatorAddress : String
  FeeToLiquidator : Coin
  FeeToEcosystemFund : Coin
  BadDebt : Coin
  Margin : Coin
  PositionNotional : Dec
  PositionSize : Dec
  UnrealizedPnl : Dec
  MarkPrice : Dec
  BlockHeight : Int
  BlockTimeMs : Int
deriving DecidableEq, Repr

/-- The fields of `types.FundingRateChangedEvent`. -/
structure FundingRateChangedEvent where
  Pair : Pair
  MarkPrice : Dec
  IndexPrice : Dec
  LatestFundingRate : Dec
  LatestPremiumFraction : Dec
  CumulativePremiumFraction : Dec
  BlockHeight : Int
  BlockTimeMs : Int
deriving DecidableEq, Repr

/-- A typed event held by an event manager. -/
inductive Event where
  | LiquidationFailed (pair : Pair) (trader liquidator : String)
      (reason : LiquidationFailedEvent_LiquidationFailedReason)
  | PositionLiquidated (e : PositionLiquidatedEvent)
  | other (name : String)
  | FundingRateChanged (e : FundingRateChangedEvent)
deriving DecidableEq, Repr

/-! ## Context -/

/-- The keyed stores: `Markets`, `AMMs` and `Positions` of the keeper, and the
balances the bank keeper holds per (account or module, denom). -/
structure Store where
  Markets : List (Pair × Market)
  AMMs : List (Pair × AMM)
  Positions : List ((Pair × AccAddress) × Position)
  Balances : List ((String × String) × Int)
deriving DecidableEq, Repr

/-- An `sdk.Context`: the stores, the events of its event manager, and the
block header fields the code reads. -/
structure Context where
  store : Store
  events : List Event
  BlockHeight : Int
  BlockTimeMs : Int
deriving DecidableEq, Repr

/-- `collections.Map.Get`: the value stored under `key`, if any. -/
def mapGet {κ α : Type} [DecidableEq κ] : List (κ × α) → κ → Option α
  | [], _ => none
  | (k, v) :: rest, key => if k = key then some v else mapGet rest key

/-- `collections.Map.Insert`: sets the value stored under `key`. -/
def mapInsert {κ α : Type} [DecidableEq κ] : List (κ × α) → κ → α → List (κ × α)
  | [], key, val => [(key, val)]
  | (k, v) :: rest, key, val =>
    if k = key then (key, val) :: rest else (k, v) :: mapInsert rest key val

/-- `ctx.CacheContext()`: a branch of the stores with an event manager of its
own, which starts empty.  The `commit` it returns is `Context.commit`. -/
def Context.CacheContext (ctx : Context) : Context :=
  { ctx with events := [] }

/-- The `commit` of `CacheContext`: writes the branch's stores to the parent. -/
def Context.commit (ctx cachedCtx : Context) : Context :=
  { ctx with store := cachedCtx.store }

/-- `ctx.EventManager().EmitEvents(evs)` and `EmitTypedEvent`: appends. -/
def Context.EmitEvents (ctx : Context) (evs : List Event) : Context :=
  { ctx with events := ctx.events ++ evs }

/-- What a call leaves behind: a Go panic, or a returned value and the
context as the call left it. -/
inductive Outcome (α : Type) where
  | panicked
  | done (val : α) (ctx : Context)
deriving DecidableEq, Repr

/-! ## Collaborators -/

/-- What `liquidate.go` calls and does not define: the bech32 codec of the
SDK, the text of an error, the position calculus and the position-changing
operations of the keeper (other files of `x/perp/keeper/v2`), the reserve
conversions of the AMM type, the validation of a `LiquidateResp`, and the
bank keeper.  A function that is given the context may write to it and
returns the context it leaves; `PositionNotionalTWAP` only reads snapshots. -/
structure Keeper where
  AccAddressFromBech32 : String → Except Err AccAddress
  AccAddressString : AccAddress → String
  ErrorString : Err → String
  PositionNotionalSpot : AMM → Position → Except Err Dec
  PositionNotionalTWAP : Context → Position → Nat → Except Err Dec
  MarginRatio : Position → Dec → Dec → Dec
  closePositionEntirely :
    Context → Market → AMM → Position → Dec → Except Err PositionResp × Context
  decreasePosition :
    Context → Market → AMM → Position → Dec → Dec → Bool → Except Err PositionResp × Context
  realizeBadDebt : Context → Market → SdkInt → Option Err × Context
  Withdraw : Context → Market → AccAddress → SdkInt → Option Err × Context
  SendCoinsFromModuleToModule :
    Context → String → String → List Coin → Option Err × Context
  Validate : LiquidateResp → Option Err
  GetQuoteReserveAmt : AMM → Dec → Direction → Except Err Dec
  FromQuoteReserveToAsset : AMM → Dec → Dec
  MarkPrice : AMM → Dec

/-- `v2types.VaultModuleAccount`. -/
def VaultModuleAccount : String := "vault"

/-- `v2types.PerpEFModuleAccount`. -/
def PerpEFModuleAccount : String := "perp_ef"

/-! ## liquidate.go -/

/-- `Keeper.distributeLiquidateRewards` (lines 323-369). -/
def distributeLiquidateRewards (k : Keeper) (ctx : Context) (market : Market)
    (liquidateResp : LiquidateResp) : Option Err × Context :=
  match k.Validate liquidateResp with
  | some err => (some err, ctx)
  | none =>
  match k.AccAddressFromBech32 liquidateResp.Liquidator with
  | .error err => (some err, ctx)
  | .ok liquidator =>
    let feeToPerpEF := liquidateResp.FeeToPerpEcosystemFund
    let sent : Option Err × Context :=
      if SdkInt.IsPositive feeToPerpEF then
        k.SendCoinsFromModuleToModule ctx VaultModuleAccount PerpEFModuleAccount
          [⟨market.Pair.QuoteDenom, some feeToPerpEF⟩]
      else (none, ctx)
    match sent with
    | (some err, ctx) => (some err, ctx)
    | (none, ctx) =>
      let feeToLiquidator := liquidateResp.FeeToLiquidator
      if SdkInt.IsPositive feeToLiquidator then
        match k.Withdraw ctx market liquidator feeToLiquidator with
        | (some err, ctx) => (some err, ctx)
        | (none, ctx) => (none, ctx)
      else (none, ctx)

/-- The decimal amounts of a full liquidation (lines 181-211), before any
rounding: the liquidator fee, the total bad debt, the margin left after the
fee, and the ecosystem-fund fee. -/
structure FullLiquidationAmounts where
  feeToLiquidator : Dec
  totalBadDebt : Dec
  remainMargin : Dec
  feeToPerpEcosystemFund : Dec
deriving DecidableEq, Repr

/-- Lines 181-195 and 208-211 of `executeFullLiquidation`. -/
def fullLiquidationAmounts (market : Market) (positionResp : PositionResp) :
    FullLiquidationAmounts :=
  let remainMargin := Dec.Abs positionResp.MarginToVault
  let feeToLiquidator :=
    Dec.QuoInt64 (Dec.Mul market.LiquidationFeeRatio positionResp.ExchangedNotionalValue) 2
  let totalBadDebt := positionResp.BadDebt
  let adjusted : Dec × Dec :=
    if Dec.GT feeToLiquidator remainMargin then
      (Dec.Add totalBadDebt (Dec.Sub feeToLiquidator remainMargin), Dec.Zero)
    else
      (totalBadDebt, Dec.Sub remainMargin feeToLiquidator)
  let feeToPerpEcosystemFund :=
    if Dec.IsPositive adjusted.2 then adjusted.2 else Dec.Zero
  { feeToLiquidator := feeToLiquidator
    totalBadDebt := adjusted.1
    remainMargin := adjusted.2
    feeToPerpEcosystemFund := feeToPerpEcosystemFund }

/-- The `PositionLiquidatedEvent` both liquidation paths emit last; each
`sdk.NewCoin` in it panics on a negative amount. -/
def positionLiquidatedEvent (k : Keeper) (ctx : Context) (amm : AMM) (pair : Pair)
    (traderAddr liquidator : AccAddress) (positionResp : PositionResp)
    (feeToLiquidator feeToPerpEcosystemFund badDebt : SdkInt) : Option Event :=
  match NewCoin pair.QuoteDenom feeToLiquidator,
        NewCoin pair.QuoteDenom feeToPerpEcosystemFund,
        NewCoin pair.QuoteDenom badDebt,
        NewCoin pair.QuoteDenom (Dec.RoundInt positionResp.Position.Margin) with
  | some feeCoin, some efCoin, some debtCoin, some marginCoin =>
    some (Event.PositionLiquidated
      { Pair := pair
        TraderAddress := k.AccAddressString traderAddr
        ExchangedQuoteAmount := positionResp.ExchangedNotionalValue
        ExchangedPositionSize := positionResp.ExchangedPositionSize
        LiquidatorAddress := k.AccAddressString liquidator
        FeeToLiquidator := feeCoin
        FeeToEcosystemFund := efCoin
        BadDebt := debtCoin
        Margin := marginCoin
        PositionNotional := positionResp.PositionNotional
        PositionSize := positionResp.Position.Size_
        UnrealizedPnl := positionResp.UnrealizedPnlAfter
        MarkPrice := k.MarkPrice amm
        BlockHeight := ctx.BlockHeight
        BlockTimeMs := ctx.BlockTimeMs })
  | _, _, _, _ => none

/-- `Keeper.executeFullLiquidation` (lines 162-244). -/
def executeFullLiquidation (k : Keeper) (ctx : Context) (market : Market) (amm : AMM)
    (liquidator : AccAddress) (position : Position) : Outcome (Except Err LiquidateResp) :=
  match k.AccAddressFromBech32 position.TraderAddress with
  | .error err => .done (.error err) ctx
  | .ok traderAddr =>
  match k.closePositionEntirely ctx market amm position Dec.Zero with
  | (.error err, ctx) => .done (.error err) ctx
  | (.ok positionResp, ctx) =>
    let amounts := fullLiquidationAmounts market positionResp
    let realized : Option Err × Context :=
      if Dec.IsPositive amounts.totalBadDebt then
        k.realizeBadDebt ctx market (Dec.RoundInt amounts.totalBadDebt)
      else (none, ctx)
    match realized with
    | (some err, ctx) => .done (.error err) ctx
    | (none, ctx) =>
      let liquidationResp : LiquidateResp :=
        { BadDebt := Dec.RoundInt amounts.totalBadDebt
          FeeToLiquidator := Dec.RoundInt amounts.feeToLiquidator
          FeeToPerpEcosystemFund := Dec.RoundInt amounts.feeToPerpEcosystemFund
          Liquidator := k.AccAddressString liquidator
          PositionResp := positionResp }
      match distributeLiquidateRewards k ctx market liquidationResp with
      | (some err, ctx) => .done (.error err) ctx
      | (none, ctx) =>
        match positionLiquidatedEvent k ctx amm position.Pair traderAddr liquidator
            positionResp (Dec.RoundInt amounts.feeToLiquidator)
            (Dec.RoundInt amounts.feeToPerpEcosystemFund)
            (Dec.RoundInt amounts.totalBadDebt) with
        | none => .panicked
        | some ev => .done (.ok liquidationResp) (ctx.EmitEvents [ev])

/-- `Keeper.executePartialLiquidation` (lines 247-321). -/
def executePartialLiquidation (k : Keeper) (ctx : Context) (market : Market) (amm : AMM)
    (liquidator : AccAddress) (currentPosition : Position) :
    Outcome (Except Err LiquidateResp) :=
  match k.AccAddressFromBech32 currentPosition.TraderAddress with
  | .error err => .done (.error err) ctx
  | .ok traderAddr =>
    let dir : Direction :=
      if Dec.IsPositive currentPosition.Size_ then Direction.SHORT else Direction.LONG
    match k.GetQuoteReserveAmt amm
        (Dec.Mul currentPosition.Size_ market.PartialLiquidationRatio) dir with
    | .error err => .done (.error err) ctx
    | .ok quoteReserveDelta =>
      let quoteAssetDelta := k.FromQuoteReserveToAsset amm quoteReserveDelta
      match k.decreasePosition ctx market amm currentPosition quoteAssetDelta Dec.Zero true with
      | (.error err, ctx) => .done (.error err) ctx
      | (.ok decreased, ctx) =>
        let liquidationFeeAmount := Dec.Mul quoteAssetDelta market.LiquidationFeeRatio
        let positionResp : PositionResp :=
          { decreased with
            Position :=
              { decreased.Position with
                Margin := Dec.Sub decreased.Position.Margin liquidationFeeAmount } }
        let ctx : Context :=
          { ctx with
            store :=
              { ctx.store with
                Positions :=
                  mapInsert ctx.store.Positions (positionResp.Position.Pair, traderAddr)
                    positionResp.Position } }
        let feeToLiquidator := Dec.QuoInt64 liquidationFeeAmount 2
        let feeToPerpEcosystemFund := Dec.Sub liquidationFeeAmount feeToLiquidator
        let liquidationResponse : LiquidateResp :=
          { BadDebt := 0
            FeeToLiquidator := Dec.RoundInt feeToLiquidator
            FeeToPerpEcosystemFund := Dec.RoundInt feeToPerpEcosystemFund
            Liquidator := k.AccAddressString liquidator
            PositionResp := positionResp }
        match distributeLiquidateRewards k ctx market liquidationResponse with
        | (some err, ctx) => .done (.error err) ctx
        | (none, ctx) =>
          match positionLiquidatedEvent k ctx amm currentPosition.Pair traderAddr liquidator
              positionResp (Dec.RoundInt feeToLiquidator)
              (Dec.RoundInt feeToPerpEcosystemFund) liquidationResponse.BadDebt with
          | none => .panicked
          | some ev => .done (.ok liquidationResponse) (ctx.EmitEvents [ev])

/-- The `LiquidationFailedEvent` of `liquidate`. -/
def liquidationFailedEvent (k : Keeper) (pair : Pair) (trader liquidator : AccAddress)
    (reason : LiquidationFailedEvent_LiquidationFailedReason) : Event :=
  Event.LiquidationFailed pair (k.AccAddressString trader) (k.AccAddressString liquidator)
    reason

/-- Lines 132-146 of `liquidate`: what it returns from the outcome of the
liquidation path it ran.  An error leaves the named results at their zero
value; on success each fee becomes an `sdk.NewCoin` of the quote denom. -/
def liquidateReturn (pair : Pair) :
    Outcome (Except Err LiquidateResp) → Outcome (Coin × Coin × Option Err)
  | .panicked => .panicked
  | .done (.error err) ctx => .done (Coin.empty, Coin.empty, some err) ctx
  | .done (.ok liquidationResponse) ctx =>
    match NewCoin pair.QuoteDenom liquidationResponse.FeeToLiquidator,
          NewCoin pair.QuoteDenom liquidationResponse.FeeToPerpEcosystemFund with
    | some liquidatorFee, some ecosystemFundFee =>
      .done (liquidatorFee, ecosystemFundFee, none) ctx
    | _, _ => .panicked

/-- `Keeper.liquidate` (lines 65-147).  The result is
`(liquidatorFee, ecosystemFundFee, err)`. -/
def liquidate (k : Keeper) (ctx : Context) (liquidator : AccAddress) (pair : Pair)
    (trader : AccAddress) : Outcome (Coin × Coin × Option Err) :=
  match mapGet ctx.store.Markets pair with
  | none =>
    .done (Coin.empty, Coin.empty, some Err.ErrPairNotFound)
      (ctx.EmitEvents [liquidationFailedEvent k pair trader liquidator .NONEXISTENT_PAIR])
  | some market =>
  match mapGet ctx.store.AMMs pair with
  | none =>
    .done (Coin.empty, Coin.empty, some Err.ErrPairNotFound)
      (ctx.EmitEvents [liquidationFailedEvent k pair trader liquidator .NONEXISTENT_PAIR])
  | some amm =>
  match mapGet ctx.store.Positions (pair, trader) with
  | none =>
    .done (Coin.empty, Coin.empty, some Err.ErrNotFound)
      (ctx.EmitEvents [liquidationFailedEvent k pair trader liquidator .NONEXISTENT_POSITION])
  | some position =>
  match k.PositionNotionalSpot amm position with
  | .error err => .done (Coin.empty, Coin.empty, some err) ctx
  | .ok spotNotional =>
  match k.PositionNotionalTWAP ctx position market.TwapLookbackWindow with
  | .error err => .done (Coin.empty, Coin.empty, some err) ctx
  | .ok twapNotional =>
    let maxPositionNotional := MaxDec spotNotional twapNotional
    let marginRatio :=
      k.MarginRatio position maxPositionNotional market.LatestCumulativePremiumFraction
    if Dec.GTE marginRatio market.MaintenanceMarginRatio then
      .done (Coin.empty, Coin.empty, some Err.ErrPositionHealthy)
        (ctx.EmitEvents [liquidationFailedEvent k pair trader liquidator .POSITION_HEALTHY])
    else
      let spotMarginRatio :=
        k.MarginRatio position spotNotional market.LatestCumulativePremiumFraction
      if Dec.GTE spotMarginRatio market.LiquidationFeeRatio then
        liquidateReturn pair (executePartialLiquidation k ctx market amm liquidator position)
      else
        liquidateReturn pair (executeFullLiquidation k ctx market amm liquidator position)

/-- Lines 21-23 of `MultiLiquidate`: the attempt at one request.
`sdk.MustAccAddressFromBech32` panics on a malformed address; otherwise
`liquidate` runs on a cache context, and the context in the outcome is that
cache context as `liquidate` left it. -/
def MultiLiquidate.attempt (k : Keeper) (ctx : Context) (liquidator : AccAddress)
    (req : MsgMultiLiquidate_Liquidation) : Outcome (Coin × Coin × Option Err) :=
  match k.AccAddressFromBech32 req.Trader with
  | .error _ => .panicked
  | .ok traderAddr => liquidate k ctx.CacheContext liquidator req.Pair traderAddr

/-- The loop of `MultiLiquidate` (lines 20-41) over the requests still to
process, from the outer context, the responses filled in so far and the
`allFailed` flag.  The source assigns `resp[i]` in a slice of the length of
the request list; the entries are assigned in order, so the model appends. -/
def MultiLiquidate.loop (k : Keeper) (liquidator : AccAddress) :
    List MsgMultiLiquidate_Liquidation → Context →
    List MsgMultiLiquidateResponse_LiquidationResponse → Bool →
    Outcome (List MsgMultiLiquidateResponse_LiquidationResponse × Bool)
  | [], ctx, resp, allFailed => .done (resp, allFailed) ctx
  | req :: rest, ctx, resp, allFailed =>
    match MultiLiquidate.attempt k ctx liquidator req with
    | .panicked => .panicked
    | .done (_, _, some err) _ =>
      MultiLiquidate.loop k liquidator rest ctx
        (resp ++ [{ Success := false, Error := k.ErrorString err,
                    LiquidatorFee := Coin.empty, PerpEfFee := Coin.empty }])
        allFailed
    | .done (liquidatorFee, perpEfFee, none) cachedCtx =>
      MultiLiquidate.loop k liquidator rest
        ((ctx.EmitEvents cachedCtx.events).commit cachedCtx)
        (resp ++ [{ Success := true, Error := "",
                    LiquidatorFee := liquidatorFee, PerpEfFee := perpEfFee }])
        false

/-- `Keeper.MultiLiquidate` (lines 13-48).  The result is `(resp, err)`. -/
def MultiLiquidate (k : Keeper) (ctx : Context) (liquidator : AccAddress)
    (liquidationRequests : List MsgMultiLiquidate_Liquidation) :
    Outcome (List MsgMultiLiquidateResponse_LiquidationResponse × Option Err) :=
  match MultiLiquidate.loop k liquidator liquidationRequests ctx [] true with
  | .panicked => .panicked
  | .done (resp, allFailed) ctx =>
    if allFailed then
      .done (resp, some (Err.ErrAllLiquidationsFailed liquidationRequests.length)) ctx
    else
      .done (resp, none) ctx

/-! ## Attempts of a batch -/

/-- The context an outcome carries, if the call returned. -/
def Outcome.ctx? {α : Type} : Outcome α → Option Context
  | .panicked => none
  | .done _ ctx => some ctx

/-- The outer context in which `MultiLiquidate` starts request `i`: what its
loop leaves after the first `i` requests, if none of them panicked. -/
def MultiLiquidate.ctxBefore (k : Keeper) (ctx : Context) (liquidator : AccAddress)
    (reqs : List MsgMultiLiquidate_Liquidation) (i : Nat) : Option Context :=
  (MultiLiquidate.loop k liquidator (reqs.take i) ctx [] true).ctx?

/-- The attempt `MultiLiquidate` makes at request `i`, if it gets that far. -/
def MultiLiquidate.attemptAt (k : Keeper) (ctx : Context) (liquidator : AccAddress)
    (reqs : List MsgMultiLiquidate_Liquidation) (i : Nat) :
    Option (Outcome (Coin × Coin × Option Err)) :=
  match MultiLiquidate.ctxBefore k ctx liquidator reqs i, reqs[i]? with
  | some c, some req => some (MultiLiquidate.attempt k c liquidator req)
  | _, _ => none

/-- The response entry lines 26-36 build from what `liquidate` returned. -/
def MultiLiquidate.response (k : Keeper) :
    Coin × Coin × Option Err → MsgMultiLiquidateResponse_LiquidationResponse
  | (_, _, some err) =>
    { Success := false, Error := k.ErrorString err,
      LiquidatorFee := Coin.empty, PerpEfFee := Coin.empty }
  | (liquidatorFee, perpEfFee, none) =>
    { Success := true, Error := "", LiquidatorFee := liquidatorFee, PerpEfFee := perpEfFee }

/-- The outer context after an attempt that returned: unchanged when
`liquidate` returned an error; otherwise the events of the cache context are
emitted on the outer event manager and the cache is committed (lines 38-39). -/
def MultiLiquidate.merge (ctx : Context) :
    Coin × Coin × Option Err → Context → Context
  | (_, _, some _), _ => ctx
  | (_, _, none), cachedCtx => (ctx.EmitEvents cachedCtx.events).commit cachedCtx

/-- Whether what `liquidate` returned carries an error. -/
def MultiLiquidate.failed : Coin × Coin × Option Err → Bool
  | (_, _, some _) => true
  | (_, _, none) => false

/-! ## hooks.go

`AfterEpochEnd` iterates over the values of the `Markets` map, collected
before the loop starts, in the order of the keys; the `Markets` list of the
store is in that order.  The calls to the logger leave no state and are left
out. -/

/-- The `v2.TwapCalcOption` enumeration. -/
inductive TwapCalcOption where
  | TWAP_CALC_OPTION_UNSPECIFIED
  | SPOT
  | QUOTE_ASSET_SWAP
  | BASE_ASSET_SWAP
deriving DecidableEq, Repr

/-- The field of `epochstypes.EpochInfo` the hook reads: the duration of the
epoch, a `time.Duration` counted in nanoseconds. -/
structure EpochInfo where
  Duration : Int
deriving DecidableEq, Repr

/-- What `hooks.go` calls and does not define: the oracle keeper's index
TWAP, the keeper's `CalcTwap` over the reserve snapshots, and the epoch
keeper's `GetEpochInfo`.  All three only read the context. -/
structure FundingKeeper where
  GetExchangeRateTwap : Context → Pair → Except Err Dec
  CalcTwap : Context → Pair → TwapCalcOption → Direction → Dec → Nat → Except Err Dec
  GetEpochInfo : Context → String → EpochInfo

/-- `24 * time.Hour`, in nanoseconds. -/
def Hour24 : Int := 86400000000000

/-- What one turn of the loop of `AfterEpochEnd` does: `stop` is the `return`
of line 22, `next` is a `continue` or the end of the loop body, with the
context the turn leaves, and `panicked` is a division by zero. -/
inductive AfterEpochEnd.Step where
  | stop
  | next (ctx : Context)
  | panicked
deriving DecidableEq, Repr

/-- The body of the loop of `AfterEpochEnd` (lines 21-62) for one market.
The integer division of line 46 panics on a zero duration, and `QuoInt64` of
line 48 panics on a zero `intervalsPerDay`. -/
def AfterEpochEnd.body (k : FundingKeeper) (epochIdentifier : String) (market : Market)
    (ctx : Context) : AfterEpochEnd.Step :=
  if !market.Enabled || decide (epochIdentifier ≠ market.FundingRateEpochId) then .stop
  else
  match k.GetExchangeRateTwap ctx market.Pair with
  | .error _ => .next ctx
  | .ok indexTWAP =>
  if Dec.IsZero indexTWAP then .next ctx
  else
  match k.CalcTwap ctx market.Pair TwapCalcOption.SPOT Direction.DIRECTION_UNSPECIFIED
      Dec.Zero market.TwapLookbackWindow with
  | .error _ => .next ctx
  | .ok markTwap =>
  if Dec.IsZero markTwap then .next ctx
  else
    let epochInfo := k.GetEpochInfo ctx epochIdentifier
    if epochInfo.Duration = 0 then .panicked
    else
      let intervalsPerDay := Int.tdiv Hour24 epochInfo.Duration
      if intervalsPerDay = 0 then .panicked
      else
        let premiumFraction := Dec.QuoInt64 (Dec.Sub markTwap indexTWAP) intervalsPerDay
        let market : Market :=
          { market with
            LatestCumulativePremiumFraction :=
              Dec.Add market.LatestCumulativePremiumFraction premiumFraction }
        let ctx : Context :=
          { ctx with
            store :=
              { ctx.store with
                Markets := mapInsert ctx.store.Markets market.Pair market } }
        .next
          (ctx.EmitEvents
            [Event.FundingRateChanged
              { Pair := market.Pair
                MarkPrice := markTwap
                IndexPrice := indexTWAP
                LatestFundingRate := Dec.Quo premiumFraction indexTWAP
                LatestPremiumFraction := premiumFraction
                CumulativePremiumFraction := market.LatestCumulativePremiumFraction
                BlockHeight := ctx.BlockHeight
                BlockTimeMs := ctx.BlockTimeMs }])

/-- The loop of `AfterEpochEnd` over the markets still to visit. -/
def AfterEpochEnd.loop (k : FundingKeeper) (epochIdentifier : String) :
    List Market → Context → Outcome Unit
  | [], ctx => .done () ctx
  | market :: rest, ctx =>
    match AfterEpochEnd.body k epochIdentifier market ctx with
    | .stop => .done () ctx
    | .panicked => .panicked
    | .next ctx => AfterEpochEnd.loop k epochIdentifier rest ctx

/-- `Keeper.AfterEpochEnd` (lines 19-64). -/
def AfterEpochEnd (k : FundingKeeper) (ctx : Context) (epochIdentifier : String)
    (_epochNumber : Nat) : Outcome Unit :=
  AfterEpochEnd.loop k epochIdentifier (ctx.store.Markets.map (fun e => e.2)) ctx

/-- `Keeper.BeforeEpochStart` (lines 16-17): does nothing. -/
def BeforeEpochStart (ctx : Context) (_epochIdentifier : String) (_epochNumber : Nat) :
    Outcome Unit :=
  .done () ctx

/-- The index TWAP or the mark TWAP of a market, read in context `ctx`,
cannot be retrieved or is zero. -/
def AfterEpochEnd.TwapUnavailable (k : FundingKeeper) (ctx : Context) (market : Market) :
    Prop :=
  (∃ err, k.GetExchangeRateTwap ctx market.Pair = .error err) ∨
  k.GetExchangeRateTwap ctx market.Pair = .ok 0 ∨
  (∃ err, k.CalcTwap ctx market.Pair TwapCalcOption.SPOT Direction.DIRECTION_UNSPECIFIED
      Dec.Zero market.TwapLookbackWindow = .error err) ∨
  k.CalcTwap ctx market.Pair TwapCalcOption.SPOT Direction.DIRECTION_UNSPECIFIED
      Dec.Zero market.TwapLookbackWindow = .ok 0

/-! ## Margin ratio -/

/-- Modelled from the spec: `unrealizedPnL = notional − openNotional` signed
by position direction (the function is in another file of the keeper): the
gain of a long is the notional over the open notional, the gain of a short
the open notional over the notional. -/
def UnrealizedPnl (position : Position) (positionNotional : Dec) : Dec :=
  if Dec.IsPositive position.Size_ then Dec.Sub positionNotional position.OpenNotional
  else Dec.Sub position.OpenNotional positionNotional

/-- Modelled from the spec: `fundingPayment = size × (cumulativePremiumFraction
− position.latestCumulativePremiumFraction)` (the function is in another file
of the keeper). -/
def FundingPayment (position : Position) (cumulativePremiumFraction : Dec) : Dec :=
  Dec.Mul position.Size_
    (Dec.Sub cumulativePremiumFraction position.LatestCumulativePremiumFraction)

/-- Modelled from the spec: `marginRatio(position, notional,
cumulativePremiumFraction) = (margin + unrealizedPnL − fundingPayment) /
notional` (the function `MarginRatio` is in another file of the keeper), in
`sdk.Dec` arithmetic. -/
def MarginRatio (position : Position) (positionNotional cumulativePremiumFraction : Dec) :
    Dec :=
  Dec.Quo
    (Dec.Sub (Dec.Add position.Margin (UnrealizedPnl position positionNotional))
      (FundingPayment position cumulativePremiumFraction))
    positionNotional

/-! ## Square roots (x/common)

The file that defines `MustSqrtBigInt` and `MustSqrtDec` is not among the
sources; their tests (`x/common/dec_test.go`) are. -/

/-- Modelled from the spec: `common.MustSqrtBigInt`, the exact integer square
root (floor), which fails (panics) if the input is negative.  `none` is the
panic. -/
def MustSqrtBigInt (i : Int) : Option Int :=
  if i < 0 then none else some (Nat.sqrt i.toNat)

/-- Modelled from the spec: `common.MustSqrtDec`, the square root of a
fixed-point decimal at the same scale: the value is scaled up by
`10^(2×18)`, which makes the stored integer times `10^18`, the integer
square root of that is taken, and the root is read at the scale `10^18`
again.  It fails (panics, `none`) on a negative input. -/
def MustSqrtDec (dec : Dec) : Option Dec :=
  MustSqrtBigInt (dec * precisionReuse)

/-! ## The swap engine (x/perp/amm/keeper)

The keeper of the AMM is not among the sources; its tests
(`x/perp/amm/keeper/keeper_test.go`) are.  The records below have the fields
the tests set and read, and the operations are modelled from the
specification.  `none` is a Go panic: a division by zero or the square root
of a negative number. -/

/-- Modelled from the spec: the configuration of a market (section 3), with
the fields of the `types.MarketConfig` that the tests build. -/
structure Amm.MarketConfig where
  TradeLimitRatio : Dec
  FluctuationLimitRatio : Dec
  MaxOracleSpreadRatio : Dec
  MaintenanceMarginRatio : Dec
  MaxLeverage : Dec
deriving DecidableEq, Repr

/-- Modelled from the spec: the pool of a pair (section 3), with the fields
of the `types.Market` that the tests build and read. -/
structure Amm.Market where
  Pair : Pair
  BaseReserve : Dec
  QuoteReserve : Dec
  SqrtDepth : Dec
  Config : Amm.MarketConfig
  PegMultiplier : Dec
  TotalLong : Dec
  TotalShort : Dec
deriving DecidableEq, Repr

/-- Modelled from the spec: a reserve snapshot (section 3), with the fields
of the `types.ReserveSnapshot` that the tests build. -/
structure Amm.ReserveSnapshot where
  Pair : Pair
  BaseReserve : Dec
  QuoteReserve : Dec
  PegMultiplier : Dec
  TimestampMs : Int
deriving DecidableEq, Repr

/-- Modelled from the spec: the limit violations of section 7, under the
names of the `types` errors that the tests expect. -/
inductive Amm.Err where
  | ErrOverTradingLimit
  | ErrAssetFailsUserLimit
  | ErrOverFluctuationLimit
  | ErrQuoteReserveAtZero
  | ErrBaseReserveAtZero
deriving DecidableEq, Repr

/-- Modelled from the spec: the state of the AMM keeper, that is the pools
under their pair, the reserve snapshots under `(pair, time in milliseconds)`,
and the block time. -/
structure Amm.Context where
  Pools : List (Pair × Amm.Market)
  ReserveSnapshots : List ((Pair × Int) × Amm.ReserveSnapshot)
  BlockTimeMs : Int
deriving DecidableEq, Repr

/-- Modelled from the spec: `market.GetBias()`, which the swap tests read:
the long exposure minus the short exposure. -/
def Amm.Market.GetBias (market : Amm.Market) : Dec :=
  Dec.Sub market.TotalLong market.TotalShort

/-- Modelled from the spec: the price of a pool or of a snapshot,
`quoteReserve / baseReserve`, peg-adjusted.  The division panics on a zero
base reserve. -/
def Amm.GetMarkPrice (quoteReserve baseReserve pegMultiplier : Dec) : Option Dec :=
  if baseReserve = 0 then none
  else some (Dec.Mul (Dec.Quo quoteReserve baseReserve) pegMultiplier)

/-- Modelled from the spec: the single most recent snapshot of a pair, by
timestamp, ignoring the snapshots of other pairs. -/
def Amm.latestSnapshot :
    List ((Pair × Int) × Amm.ReserveSnapshot) → Pair → Option ((Pair × Int) × Amm.ReserveSnapshot)
  | [], _ => none
  | e :: rest, pair =>
    if e.1.1 = pair then
      match Amm.latestSnapshot rest pair with
      | some b => if e.1.2 < b.1.2 then some b else some e
      | none => some e
    else Amm.latestSnapshot rest pair

/-- Modelled from the spec: `checkFluctuationLimitRatio` (section 4.2.1).  If
`FluctuationLimitRatio` is zero, or fewer than one prior snapshot of the pair
exists, the check passes.  Otherwise the price of the pool is compared with
the price of the most recent snapshot of the pair, and a relative deviation
above the ratio fails with `ErrOverFluctuationLimit`.  A pair with a single
snapshot is compared with that snapshot: the swap tests expect
`ErrOverFluctuationLimit` from the first swap on a pool that was just created,
and snapshots are keyed by pair and block time, so that pair has one snapshot
at most.  The result is `some none` when the check passes and
`some (some err)` when it fails. -/
def Amm.checkFluctuationLimitRatio (ctx : Amm.Context) (market : Amm.Market) :
    Option (Option Amm.Err) :=
  if Dec.IsZero market.Config.FluctuationLimitRatio then some none
  else
    match Amm.latestSnapshot ctx.ReserveSnapshots market.Pair with
    | none => some none
    | some (_, snapshot) =>
      match Amm.GetMarkPrice market.QuoteReserve market.BaseReserve market.PegMultiplier,
            Amm.GetMarkPrice snapshot.QuoteReserve snapshot.BaseReserve
              snapshot.PegMultiplier with
      | some price, some snapshotPrice =>
        if snapshotPrice = 0 then none
        else if Dec.GT (Dec.Quo (Dec.Abs (Dec.Sub price snapshotPrice)) snapshotPrice)
            market.Config.FluctuationLimitRatio then
          some (some Amm.Err.ErrOverFluctuationLimit)
        else some none
      | _, _ => none

/-- Modelled from the spec: the user limit of a swap.  The output must be at
least the limit on `LONG` and at most the limit on `SHORT`; a zero limit is
no limit (section 4.4: with a zero output limit a close never reverts on
price-limit grounds). -/
def Amm.failsUserLimit (dir : Direction) (amountOut limit : Dec) : Bool :=
  if Dec.IsZero limit then false
  else if dir = Direction.LONG then decide (amountOut < limit)
  else decide (amountOut > limit)

/-- Modelled from the spec: the last steps of both swaps on the pool with the
new reserves.  `SqrtDepth` is recomputed, the fluctuation limit is enforced
unless the check is skipped, and then the pool is stored and a new snapshot
is written under the block time. -/
def Amm.storeSwap (ctx : Amm.Context) (market : Amm.Market) (amountOut : Dec)
    (skipFluctuationLimitCheck : Bool) :
    Option (Except Amm.Err (Amm.Market × Dec) × Amm.Context) :=
  match MustSqrtDec (Dec.Mul market.QuoteReserve market.BaseReserve) with
  | none => none
  | some sqrtDepth =>
    let market : Amm.Market := { market with SqrtDepth := sqrtDepth }
    match (if skipFluctuationLimitCheck then some none
           else Amm.checkFluctuationLimitRatio ctx market) with
    | none => none
    | some (some err) => some (.error err, ctx)
    | some none =>
      some (.ok (market, amountOut),
        { ctx with
          Pools := mapInsert ctx.Pools market.Pair market
          ReserveSnapshots :=
            mapInsert ctx.ReserveSnapshots (market.Pair, ctx.BlockTimeMs)
              { Pair := market.Pair
                BaseReserve := market.BaseReserve
                QuoteReserve := market.QuoteReserve
                PegMultiplier := market.PegMultiplier
                TimestampMs := ctx.BlockTimeMs } })

/-- Modelled from the spec: `SwapQuoteForBase` (section 4.2).  A zero amount
returns zero and leaves everything as it is.  Otherwise the quote amount is
adjusted for the peg multiplier and added to the quote reserve on `LONG`,
subtracted otherwise; the base reserve follows the constant-product curve and
the output is the distance of the base reserves.  A removal that drives the
quote reserve to zero or below fails with `ErrQuoteReserveAtZero`, a quote
delta above `TradeLimitRatio` of the reserve with `ErrOverTradingLimit`, a
base reserve that would reach zero with `ErrBaseReserveAtZero`, an output
that misses the user limit with `ErrAssetFailsUserLimit`.  The bias moves by
the output, up on `LONG`. -/
def Amm.SwapQuoteForBase (ctx : Amm.Context) (market : Amm.Market) (dir : Direction)
    (quoteAmount baseLimit : Dec) (skipFluctuationLimitCheck : Bool) :
    Option (Except Amm.Err (Amm.Market × Dec) × Amm.Context) :=
  if Dec.IsZero quoteAmount then some (.ok (market, Dec.Zero), ctx)
  else if market.PegMultiplier = 0 then none
  else
    let quoteReserveDelta := Dec.Quo quoteAmount market.PegMultiplier
    let quoteReserveAfter :=
      if dir = Direction.LONG then Dec.Add market.QuoteReserve quoteReserveDelta
      else Dec.Sub market.QuoteReserve quoteReserveDelta
    if quoteReserveAfter ≤ 0 then some (.error Amm.Err.ErrQuoteReserveAtZero, ctx)
    else if market.QuoteReserve = 0 then none
    else if Dec.GT (Dec.Quo quoteReserveDelta market.QuoteReserve)
        market.Config.TradeLimitRatio then
      some (.error Amm.Err.ErrOverTradingLimit, ctx)
    else
      let baseReserveAfter :=
        Dec.Quo (Dec.Mul market.QuoteReserve market.BaseReserve) quoteReserveAfter
      let baseAmountOut := Dec.Abs (Dec.Sub market.BaseReserve baseReserveAfter)
      if baseReserveAfter ≤ 0 then some (.error Amm.Err.ErrBaseReserveAtZero, ctx)
      else if Amm.failsUserLimit dir baseAmountOut baseLimit then
        some (.error Amm.Err.ErrAssetFailsUserLimit, ctx)
      else
        Amm.storeSwap ctx
          { market with
            QuoteReserve := quoteReserveAfter
            BaseReserve := baseReserveAfter
            TotalLong :=
              if dir = Direction.LONG then Dec.Add market.TotalLong baseAmountOut
              else market.TotalLong
            TotalShort :=
              if dir = Direction.LONG then market.TotalShort
              else Dec.Add market.TotalShort baseAmountOut }
          baseAmountOut skipFluctuationLimitCheck

/-- Modelled from the spec: `SwapBaseForQuote`, the counterpart of
`SwapQuoteForBase` with the roles of base and quote swapped.  The base amount
is added to the base reserve on `LONG`, subtracted otherwise; the quote
reserve follows the curve, and the output is the distance of the quote
reserves, adjusted for the peg multiplier.  The bias moves by the base
amount, down on `LONG`. -/
def Amm.SwapBaseForQuote (ctx : Amm.Context) (market : Amm.Market) (dir : Direction)
    (baseAmt quoteLimit : Dec) (skipFluctuationLimitCheck : Bool) :
    Option (Except Amm.Err (Amm.Market × Dec) × Amm.Context) :=
  if Dec.IsZero baseAmt then some (.ok (market, Dec.Zero), ctx)
  else
    let baseReserveAfter :=
      if dir = Direction.LONG then Dec.Add market.BaseReserve baseAmt
      else Dec.Sub market.BaseReserve baseAmt
    if baseReserveAfter ≤ 0 then some (.error Amm.Err.ErrBaseReserveAtZero, ctx)
    else if market.BaseReserve = 0 then none
    else if Dec.GT (Dec.Quo baseAmt market.BaseReserve) market.Config.TradeLimitRatio then
      some (.error Amm.Err.ErrOverTradingLimit, ctx)
    else
      let quoteReserveAfter :=
        Dec.Quo (Dec.Mul market.QuoteReserve market.BaseReserve) baseReserveAfter
      let quoteAmountOut :=
        Dec.Mul (Dec.Abs (Dec.Sub market.QuoteReserve quoteReserveAfter)) market.PegMultiplier
      if quoteReserveAfter ≤ 0 then some (.error Amm.Err.ErrQuoteReserveAtZero, ctx)
      else if Amm.failsUserLimit dir quoteAmountOut quoteLimit then
        some (.error Amm.Err.ErrAssetFailsUserLimit, ctx)
      else
        Amm.storeSwap ctx
          { market with
            QuoteReserve := quoteReserveAfter
            BaseReserve := baseReserveAfter
            TotalLong :=
              if dir = Direction.LONG then market.TotalLong
              else Dec.Add market.TotalLong baseAmt
            TotalShort :=
              if dir = Direction.LONG then Dec.Add market.TotalShort baseAmt
              else market.TotalShort }
          quoteAmountOut skipFluctuationLimitCheck

/-! ## A concrete keeper

A small instance of the collaborators, used to evaluate the code on concrete
inputs: one price per AMM (`PriceMultiplier`), no funding, and a bank that
moves balances between named accounts. -/

namespace Demo

/-- The pair of the examples. -/
def pair : Pair := ⟨"ubtc", "unusd"⟩

/-- The address table of the examples. -/
def addressBook : List (String × AccAddress) :=
  [("nibi1trader", ⟨[1]⟩), ("nibi1whale", ⟨[2]⟩), ("nibi1liquidator", ⟨[9]⟩)]

/-- Decodes an address of the table; any other text is malformed. -/
def accAddressFromBech32 (s : String) : Except Err AccAddress :=
  match mapGet addressBook s with
  | some a => .ok a
  | none => .error (Err.external "decoding bech32 failed")

/-- Encodes an address of the table. -/
def accAddressString (a : AccAddress) : String :=
  match addressBook.find? (fun e => e.2 = a) with
  | some e => e.1
  | none => ""

/-- The text of an error. -/
def errorString : Err → String
  | .ErrPairNotFound => "pair not found"
  | .ErrPositionHealthy => "position is healthy"
  | .ErrAllLiquidationsFailed _ => "all liquidations failed"
  | .ErrNotFound => "collections: not found"
  | .external msg => msg

/-- The notional of a position at the AMM's price. -/
def notional (amm : AMM) (position : Position) : Dec :=
  Dec.Mul (Dec.Abs position.Size_) amm.PriceMultiplier

/-- Profit of a position at a notional: positive when a long gained value or
a short lost value. -/
def unrealizedPnl (position : Position) (positionNotional : Dec) : Dec :=
  if position.Size_ > 0 then positionNotional - position.OpenNotional
  else position.OpenNotional - positionNotional

/-- Margin plus profit minus funding payment, over the notional. -/
def marginRatio (position : Position) (positionNotional cumulativePremiumFraction : Dec) :
    Dec :=
  if position.Size_ = 0 ∨ positionNotional = 0 then 0
  else
    Dec.Quo
      (position.Margin + unrealizedPnl position positionNotional
        - Dec.Mul position.Size_
            (cumulativePremiumFraction - position.LatestCumulativePremiumFraction))
      positionNotional

/-- Sets the balance of an account in a denom. -/
def setBalance (store : Store) (account denom : String) (amount : Int) : Store :=
  { store with Balances := mapInsert store.Balances (account, denom) amount }

/-- The balance of an account in a denom. -/
def balance (store : Store) (account denom : String) : Int :=
  (mapGet store.Balances (account, denom)).getD 0

/-- Moves an amount between two accounts, failing on insufficient funds. -/
def transfer (ctx : Context) (sender recipient denom : String) (amount : Int) :
    Option Err × Context :=
  if balance ctx.store sender denom < amount then
    (some (Err.external "insufficient funds"), ctx)
  else
    let debited := setBalance ctx.store sender denom (balance ctx.store sender denom - amount)
    (none,
      { ctx with
        store := setBalance debited recipient denom (balance debited recipient denom + amount) })

/-- Closes the whole position at the AMM's price and removes it from the
store; a negative remaining margin is reported as bad debt. -/
def closePositionEntirely (ctx : Context) (_market : Market) (amm : AMM)
    (position : Position) (_quoteAssetAmountLimit : Dec) :
    Except Err PositionResp × Context :=
  let positionNotional := notional amm position
  let pnl := unrealizedPnl position positionNotional
  let remaining := position.Margin + pnl
  (.ok
    { Position := { position with Size_ := 0, Margin := 0, OpenNotional := 0 }
      ExchangedNotionalValue := positionNotional
      ExchangedPositionSize := -position.Size_
      BadDebt := if remaining < 0 then -remaining else 0
      FundingPayment := 0
      RealizedPnl := pnl
      UnrealizedPnlAfter := 0
      MarginToVault := if remaining < 0 then 0 else -remaining
      PositionNotional := 0 },
    { ctx with
      store :=
        { ctx.store with
          Positions :=
            ctx.store.Positions.filter
              (fun e => !(decide (e.1.1 = position.Pair)
                && decide (some e.1.2 = (accAddressFromBech32 position.TraderAddress).toOption))) } })

/-- Sells or buys back the base amount worth `quoteAssetAmount`, keeping the
margin. -/
def decreasePosition (ctx : Context) (_market : Market) (amm : AMM) (position : Position)
    (quoteAssetAmount _baseAmtLimit : Dec) (_skipFluctuationLimitCheck : Bool) :
    Except Err PositionResp × Context :=
  if amm.PriceMultiplier = 0 then (.error (Err.external "price is zero"), ctx)
  else
    let baseAmt := Dec.Quo quoteAssetAmount amm.PriceMultiplier
    let newSize := if position.Size_ > 0 then position.Size_ - baseAmt else position.Size_ + baseAmt
    let positionNotional := notional amm position
    (.ok
      { Position :=
          { position with Size_ := newSize, OpenNotional := position.OpenNotional - quoteAssetAmount }
        ExchangedNotionalValue := quoteAssetAmount
        ExchangedPositionSize := newSize - position.Size_
        BadDebt := 0
        FundingPayment := 0
        RealizedPnl := 0
        UnrealizedPnlAfter := unrealizedPnl position positionNotional
        MarginToVault := 0
        PositionNotional := positionNotional - quoteAssetAmount },
      ctx)

/-- The keeper of the examples. -/
def keeper : Keeper where
  AccAddressFromBech32 := accAddressFromBech32
  AccAddressString := accAddressString
  ErrorString := errorString
  PositionNotionalSpot := fun amm position => .ok (notional amm position)
  PositionNotionalTWAP := fun ctx position _ =>
    match mapGet ctx.store.AMMs position.Pair with
    | some amm => .ok (notional amm position)
    | none => .error Err.ErrPairNotFound
  MarginRatio := marginRatio
  closePositionEntirely := closePositionEntirely
  decreasePosition := decreasePosition
  realizeBadDebt := fun ctx market amount =>
    transfer ctx PerpEFModuleAccount VaultModuleAccount market.Pair.QuoteDenom amount
  Withdraw := fun ctx market receiver amount =>
    transfer ctx VaultModuleAccount (accAddressString receiver) market.Pair.QuoteDenom amount
  SendCoinsFromModuleToModule := fun ctx sender recipient coins =>
    match coins with
    | [coin] => transfer ctx sender recipient coin.Denom (coin.Amount.getD 0)
    | _ => (some (Err.external "unsupported coins"), ctx)
  Validate := fun _ => none
  GetQuoteReserveAmt := fun _ baseAmt _ => .ok (Dec.Abs baseAmt)
  FromQuoteReserveToAsset := fun amm quoteReserve => Dec.Mul quoteReserve amm.PriceMultiplier
  MarkPrice := fun amm => amm.PriceMultiplier

/-- The market of the examples: maintenance margin 6.25%, liquidation fee
5%, partial liquidation 50%. -/
def market : Market :=
  { Pair := pair
    Enabled := true
    MaintenanceMarginRatio := 62500000000000000
    MaxLeverage := Dec.New 10
    LiquidationFeeRatio := 50000000000000000
    PartialLiquidationRatio := 500000000000000000
    FundingRateEpochId := "30 min"
    TwapLookbackWindow := 1800
    LatestCumulativePremiumFraction := 0 }

/-- An AMM at price `price`. -/
def ammAt (price : Dec) : AMM :=
  { Pair := pair
    BaseReserve := Dec.New 1000000
    QuoteReserve := Dec.New 1000000
    SqrtDepth := Dec.New 1000000
    PriceMultiplier := price
    TotalLong := 0
    TotalShort := 0 }

/-- A long position of `size` base units opened at price 1 with `margin`. -/
def longPosition (trader : String) (size margin : Int) : Position :=
  { TraderAddress := trader
    Pair := pair
    Size_ := Dec.New size
    Margin := Dec.New margin
    OpenNotional := Dec.New size
    LatestCumulativePremiumFraction := 0
    LastUpdatedBlockNumber := 1 }

/-- A context with the market, an AMM at `price`, the given positions, and
funded vault and ecosystem fund. -/
def ctxAt (price : Dec) (positions : List ((Pair × AccAddress) × Position)) : Context :=
  { store :=
      { Markets := [(pair, market)]
        AMMs := [(pair, ammAt price)]
        Positions := positions
        Balances := [((VaultModuleAccount, "unusd"), 1000), ((PerpEFModuleAccount, "unusd"), 1000)] }
    events := [Event.other "begin_block"]
    BlockHeight := 7
    BlockTimeMs := 7000 }

/-- The liquidator of the examples. -/
def liquidator : AccAddress := ⟨[9]⟩

/-- The trader of the examples. -/
def trader : AccAddress := ⟨[1]⟩

/-- The context of the batch examples: price 0.85, the trader's long of 100
with margin 10 is under water; the whale has no position. -/
def batchCtx : Context :=
  ctxAt 850000000000000000 [((pair, trader), longPosition "nibi1trader" 100 10)]

/-- A batch whose first request fails (no position) and whose second succeeds. -/
def batch : List MsgMultiLiquidate_Liquidation :=
  [⟨pair, "nibi1whale"⟩, ⟨pair, "nibi1trader"⟩]

/-- A batch in which every request fails. -/
def failingBatch : List MsgMultiLiquidate_Liquidation :=
  [⟨pair, "nibi1whale"⟩, ⟨pair, "nibi1whale"⟩]

/-- The batch `batch` with a malformed trader address in the middle. -/
def malformedBatch : List MsgMultiLiquidate_Liquidation :=
  [⟨pair, "nibi1whale"⟩, ⟨pair, "not-bech32"⟩, ⟨pair, "nibi1trader"⟩]

/-- The context of the full-liquidation examples: price 0.91, so the
trader's long of 100 with margin 10 has remaining margin 1. -/
def fullCtx : Context :=
  ctxAt 910000000000000000 [((pair, trader), longPosition "nibi1trader" 100 10)]

/-- The context `ctx` with the given balances of the vault and of the
ecosystem fund. -/
def withBalances (ctx : Context) (vault ecosystemFund : Int) : Context :=
  { ctx with
    store :=
      { ctx.store with
        Balances :=
          [((VaultModuleAccount, "unusd"), vault),
           ((PerpEFModuleAccount, "unusd"), ecosystemFund)] } }

/-- The context of the partial-liquidation examples: price 0.95, so the
trader's long of 100 with margin 10 has margin ratio 5.26%. -/
def partialCtx : Context :=
  ctxAt 950000000000000000 [((pair, trader), longPosition "nibi1trader" 100 10)]

/-- The full-liquidation context with an empty ecosystem fund: the bad debt
cannot be realized. -/
def brokeFundCtx : Context := withBalances fullCtx 1000 0

/-- The partial-liquidation context with an empty vault: no reward can be
paid. -/
def emptyVaultCtx : Context := withBalances partialCtx 0 1000

/-- A long of 40.00000000000000004 base units opened at price 1 with margin
2.2: half of it is worth 20.00000000000000002, and 5% of that is
1.000000000000000001, an odd number of units of `10^-18`. -/
def oddFeePosition : Position :=
  { TraderAddress := "nibi1trader"
    Pair := pair
    Size_ := 40000000000000000040
    Margin := 2200000000000000000
    OpenNotional := 40000000000000000040
    LatestCumulativePremiumFraction := 0
    LastUpdatedBlockNumber := 1 }

/-- The context of the odd-fee example, at price 1. -/
def oddFeeCtx : Context :=
  ctxAt 1000000000000000000 [((pair, trader), oddFeePosition)]

/-- Decreases a position as a clearing house does: the part of the
unrealized profit that belongs to the base amount sold is realized into the
margin, the funding payment due since the position was last updated is taken
from it, and what is left of the margin is floored at zero, the rest being bad
debt. -/
def decreasePositionSettling (ctx : Context) (market : Market) (amm : AMM)
    (position : Position) (quoteAssetAmount _baseAmtLimit : Dec)
    (_skipFluctuationLimitCheck : Bool) : Except Err PositionResp × Context :=
  if amm.PriceMultiplier = 0 ∨ position.Size_ = 0 then
    (.error (Err.external "nothing to decrease"), ctx)
  else
    let baseAmt := Dec.Quo quoteAssetAmount amm.PriceMultiplier
    let newSize := if position.Size_ > 0 then position.Size_ - baseAmt else position.Size_ + baseAmt
    let positionNotional := notional amm position
    let pnl := unrealizedPnl position positionNotional
    let realizedPnl := Dec.Mul pnl (Dec.Quo baseAmt (Dec.Abs position.Size_))
    let fundingPayment :=
      Dec.Mul position.Size_
        (market.LatestCumulativePremiumFraction - position.LatestCumulativePremiumFraction)
    let remaining := position.Margin + realizedPnl - fundingPayment
    (.ok
      { Position :=
          { position with
            Size_ := newSize
            Margin := if remaining < 0 then 0 else remaining
            OpenNotional := position.OpenNotional - (quoteAssetAmount - realizedPnl)
            LatestCumulativePremiumFraction := market.LatestCumulativePremiumFraction }
        ExchangedNotionalValue := quoteAssetAmount
        ExchangedPositionSize := newSize - position.Size_
        BadDebt := if remaining < 0 then -remaining else 0
        FundingPayment := fundingPayment
        RealizedPnl := realizedPnl
        UnrealizedPnlAfter := pnl - realizedPnl
        MarginToVault := 0
        PositionNotional := positionNotional - quoteAssetAmount },
      ctx)

/-- The keeper of the examples with the settling `decreasePosition`. -/
def settlingKeeper : Keeper :=
  { keeper with decreasePosition := decreasePositionSettling }

/-- The example market after funding has accrued: cumulative premium
fraction 0.014. -/
def fundedMarket : Market :=
  { market with LatestCumulativePremiumFraction := 14000000000000000 }

/-- A long of 100 opened at notional 104 with margin 1, last updated when the
cumulative premium fraction was 0: it owes a funding payment of 1.4. -/
def indebtedPosition : Position :=
  { TraderAddress := "nibi1trader"
    Pair := pair
    Size_ := Dec.New 100
    Margin := Dec.New 1
    OpenNotional := Dec.New 104
    LatestCumulativePremiumFraction := 0
    LastUpdatedBlockNumber := 1 }

/-- The context of the funding example, at price 1.1: the position is worth
110, its profit is 6, and its margin ratio is `(1 + 6 − 1.4) / 110 = 5.09%`. -/
def fundingCtx : Context :=
  { ctxAt 1100000000000000000 [((pair, trader), indebtedPosition)] with
    store :=
      { (ctxAt 1100000000000000000 [((pair, trader), indebtedPosition)]).store with
        Markets := [(pair, fundedMarket)] } }

/-- A short of 100 base units opened at price 1 with margin 10. -/
def shortPosition : Position :=
  { TraderAddress := "nibi1trader"
    Pair := pair
    Size_ := Dec.New (-100)
    Margin := Dec.New 10
    OpenNotional := Dec.New 100
    LatestCumulativePremiumFraction := 0
    LastUpdatedBlockNumber := 1 }

/-- The context of the short example, at price 1.04: the short has lost 4
and its margin ratio is `6 / 104 = 5.77%`. -/
def shortCtx : Context :=
  ctxAt 1040000000000000000 [((pair, trader), shortPosition)]

/-- The keeper of the examples with an AMM that prices magnitudes only: a
negative base amount is refused. -/
def strictKeeper : Keeper :=
  { keeper with
    GetQuoteReserveAmt := fun _ baseAmt _ =>
      if baseAmt < 0 then .error (Err.external "base amount is negative")
      else .ok baseAmt }

/-- A second pair; its key comes after `ubtc:unusd` in the market store. -/
def ethPair : Pair := ⟨"ueth", "unusd"⟩

/-- The market of the second pair, on the same funding epoch. -/
def ethMarket : Market := { market with Pair := ethPair }

/-- The example market, disabled. -/
def disabledMarket : Market := { market with Enabled := false }

/-- Thirty minutes, in nanoseconds. -/
def thirtyMinutes : Int := 1800000000000

/-- The funding collaborators of the examples: index prices 1 and 2000, mark
prices 1.01 and 2048, no price for any other pair, and epochs of thirty
minutes, except the epoch `week`, which lasts seven days. -/
def fundingKeeper : FundingKeeper where
  GetExchangeRateTwap := fun _ p =>
    if p = pair then .ok (Dec.New 1)
    else if p = ethPair then .ok (Dec.New 2000)
    else .error (Err.external "no exchange rate")
  CalcTwap := fun _ p _ _ _ _ =>
    if p = pair then .ok 1010000000000000000
    else if p = ethPair then .ok (Dec.New 2048)
    else .error (Err.external "no snapshots")
  GetEpochInfo := fun _ identifier =>
    if identifier = "week" then ⟨7 * Hour24⟩ else ⟨thirtyMinutes⟩

/-- A context whose market store holds the given markets, each under its
pair. -/
def epochCtx (markets : List Market) : Context :=
  { store :=
      { Markets := markets.map (fun m => (m.Pair, m))
        AMMs := []
        Positions := []
        Balances := [] }
    events := []
    BlockHeight := 7
    BlockTimeMs := 7000 }

/-- A market of a pair the oracle has no price for; its key comes first in
the market store. -/
def unpricedMarket : Market := { market with Pair := ⟨"uatom", "unusd"⟩ }

/-- The example market, configured on the weekly funding epoch. -/
def weeklyMarket : Market := { market with FundingRateEpochId := "week" }

/-- The keeper of the examples with the margin ratio of the specification
and a TWAP notional of 105 for every position. -/
def twapKeeper : Keeper :=
  { keeper with
    MarginRatio := MarginRatio
    PositionNotionalTWAP := fun _ _ _ => .ok (Dec.New 105) }

/-- The context of the TWAP example, at price 1: the short of 100 with margin
10 has spot notional 100. -/
def twapCtx : Context :=
  ctxAt 1000000000000000000 [((pair, trader), shortPosition)]

/-- The keeper of the examples with a bad-debt realization that refuses
every amount: a liquidation that calls it fails. -/
def refusingKeeper : Keeper :=
  { keeper with
    realizeBadDebt := fun ctx _ _ => (some (Err.external "bad debt refused"), ctx) }

/-- The context of the small-debt example: price 0.92, so the trader's long
of 100 with margin 10 has remaining margin 2, the liquidator fee is 2.3 and
the total bad debt is 0.3. -/
def smallDebtCtx : Context :=
  ctxAt 920000000000000000 [((pair, trader), longPosition "nibi1trader" 100 10)]

/-- A response with the given two fees for the liquidator of the examples. -/
def feeResp (feeToLiquidator feeToPerpEcosystemFund : SdkInt) : LiquidateResp :=
  { BadDebt := 0
    FeeToLiquidator := feeToLiquidator
    FeeToPerpEcosystemFund := feeToPerpEcosystemFund
    Liquidator := "nibi1liquidator"
    PositionResp :=
      { Position := longPosition "nibi1trader" 0 0
        ExchangedNotionalValue := 0
        ExchangedPositionSize := 0
        BadDebt := 0
        FundingPayment := 0
        RealizedPnl := 0
        UnrealizedPnlAfter := 0
        MarginToVault := 0
        PositionNotional := 0 } }

/-- The pool of the swap tests: reserves of ten million each, peg multiplier
2, trade limit 0.9 and fluctuation limit 0.1. -/
def pool : Amm.Market :=
  { Pair := pair
    BaseReserve := Dec.New 10000000
    QuoteReserve := Dec.New 10000000
    SqrtDepth := Dec.New 10000000
    Config :=
      { TradeLimitRatio := 900000000000000000
        FluctuationLimitRatio := 100000000000000000
        MaxOracleSpreadRatio := 100000000000000000
        MaintenanceMarginRatio := 62500000000000000
        MaxLeverage := Dec.New 15 }
    PegMultiplier := Dec.New 2
    TotalLong := 0
    TotalShort := 0 }

/-- The snapshot of a pool at a time. -/
def snapshotOf (market : Amm.Market) (timestampMs : Int) :
    (Pair × Int) × Amm.ReserveSnapshot :=
  ((market.Pair, timestampMs),
    { Pair := market.Pair
      BaseReserve := market.BaseReserve
      QuoteReserve := market.QuoteReserve
      PegMultiplier := market.PegMultiplier
      TimestampMs := timestampMs })

/-- The state of the swap tests after the pool was created: the pool and the
snapshot of its creation, at the block time. -/
def poolCtx : Amm.Context :=
  { Pools := [(pair, pool)]
    ReserveSnapshots := [snapshotOf pool 7000]
    BlockTimeMs := 7000 }

/-- A pool of the fluctuation tests: the given reserves, peg multiplier 1 and
the given fluctuation limit. -/
def plainPool (p : Pair) (quoteReserve baseReserve : Int) (fluctuationLimitRatio : Dec) :
    Amm.Market :=
  { Pair := p
    BaseReserve := Dec.New baseReserve
    QuoteReserve := Dec.New quoteReserve
    SqrtDepth := 0
    Config :=
      { TradeLimitRatio := 0
        FluctuationLimitRatio := fluctuationLimitRatio
        MaxOracleSpreadRatio := 0
        MaintenanceMarginRatio := 0
        MaxLeverage := 0 }
    PegMultiplier := Dec.New 1
    TotalLong := 0
    TotalShort := 0 }

/-- A state that holds the given snapshots only. -/
def snapshotCtx (snapshots : List ((Pair × Int) × Amm.ReserveSnapshot)) : Amm.Context :=
  { Pools := []
    ReserveSnapshots := snapshots
    BlockTimeMs := 2 }

/-- What the swap tests look at in the result of a swap: the error, or the
quote reserve, the base reserve and the bias of the pool that is stored, and
the amount returned. -/
def swapSummary (result : Option (Except Amm.Err (Amm.Market × Dec) × Amm.Context)) :
    Option (Except Amm.Err (Dec × Dec × Dec × Dec)) :=
  match result with
  | none => none
  | some (.error err, _) => some (.error err)
  | some (.ok (_, amountOut), ctxOut) =>
    match mapGet ctxOut.Pools pair with
    | none => none
    | some stored =>
      some (.ok (stored.QuoteReserve, stored.BaseReserve, stored.GetBias, amountOut))

/-- A batch whose first request succeeds and whose second has a malformed
trader address. -/
def successThenMalformedBatch : List MsgMultiLiquidate_Liquidation :=
  [⟨pair, "nibi1trader"⟩, ⟨pair, "not-bech32"⟩]

/-- A batch whose first request fails (no position) and whose second has a
malformed trader address. -/
def failedThenMalformedBatch : List MsgMultiLiquidate_Liquidation :=
  [⟨pair, "nibi1whale"⟩, ⟨pair, "not-bech32"⟩]

/-- The market without a price, disabled; its key comes first in the market
store. -/
def disabledUnpricedMarket : Market := { unpricedMarket with Enabled := false }

/-- The market of the second pair, configured on the weekly funding epoch. -/
def weeklyEthMarket : Market := { ethMarket with FundingRateEpochId := "week" }

end Demo

end Nibiru

namespace Nibiru

/-! ## Basic facts -/

theorem MaxDec_eq_max (d1 d2 : Dec) : MaxDec d1 d2 = max d1 d2 := by
  unfold MaxDec
  rcases lt_or_le d1 d2 with h | h
  · rw [if_pos h, max_eq_right h.le]
  · rw [if_neg (not_lt.mpr h), max_eq_left h]

theorem Dec.GTE_iff (d d2 : Dec) : Dec.GTE d d2 = true ↔ d ≥ d2 := by
  simp [Dec.GTE]

theorem Dec.GTE_eq_false_iff (d d2 : Dec) : Dec.GTE d d2 = false ↔ d < d2 := by
  simp [Dec.GTE]

/-! ## liquidate: rejections and the choice of path -/

/-- C1: a position whose margin ratio at `max(spotNotional, twapNotional)` is at
least the maintenance margin ratio is rejected: `liquidate` returns
`ErrPositionHealthy` with both fee coins empty, emits one
`LiquidationFailedEvent` with reason `POSITION_HEALTHY`, and leaves the stores
(positions, markets, balances) as they were, so neither liquidation path ran. -/
theorem liquidate_position_healthy (k : Keeper) (ctx : Context) (liquidator trader : AccAddress)
    (pair : Pair) (market : Market) (amm : AMM) (position : Position)
    (spotNotional twapNotional : Dec)
    (hmarket : mapGet ctx.store.Markets pair = some market)
    (hamm : mapGet ctx.store.AMMs pair = some amm)
    (hposition : mapGet ctx.store.Positions (pair, trader) = some position)
    (hspot : k.PositionNotionalSpot amm position = .ok spotNotional)
    (htwap : k.PositionNotionalTWAP ctx position market.TwapLookbackWindow = .ok twapNotional)
    (hhealthy :
      k.MarginRatio position (max spotNotional twapNotional)
        market.LatestCumulativePremiumFraction ≥ market.MaintenanceMarginRatio) :
    liquidate k ctx liquidator pair trader =
      Outcome.done (Coin.empty, Coin.empty, some Err.ErrPositionHealthy)
        { store := ctx.store
          events := ctx.events ++
            [Event.LiquidationFailed pair (k.AccAddressString trader)
              (k.AccAddressString liquidator)
              LiquidationFailedEvent_LiquidationFailedReason.POSITION_HEALTHY]
          BlockHeight := ctx.BlockHeight
          BlockTimeMs := ctx.BlockTimeMs } := by
  rw [← MaxDec_eq_max] at hhealthy
  have hgte := (Dec.GTE_iff _ _).mpr hhealthy
  simp only [liquidate, hmarket, hamm, hposition, hspot, htwap, hgte, if_true,
    Context.EmitEvents, liquidationFailedEvent]

/-- The healthy position of the example: price 0.96, margin ratio 6.25%. -/
theorem liquidate_position_healthy_witness :
    liquidate Demo.keeper
        (Demo.ctxAt 960000000000000000
          [((Demo.pair, Demo.trader), Demo.longPosition "nibi1trader" 100 10)])
        Demo.liquidator Demo.pair Demo.trader =
      Outcome.done (Coin.empty, Coin.empty, some Err.ErrPositionHealthy)
        { store :=
            (Demo.ctxAt 960000000000000000
              [((Demo.pair, Demo.trader), Demo.longPosition "nibi1trader" 100 10)]).store
          events :=
            [Event.other "begin_block",
             Event.LiquidationFailed Demo.pair "nibi1trader" "nibi1liquidator"
               LiquidationFailedEvent_LiquidationFailedReason.POSITION_HEALTHY]
          BlockHeight := 7
          BlockTimeMs := 7000 } :=
  liquidate_position_healthy Demo.keeper
    (Demo.ctxAt 960000000000000000
      [((Demo.pair, Demo.trader), Demo.longPosition "nibi1trader" 100 10)])
    Demo.liquidator Demo.trader Demo.pair Demo.market (Demo.ammAt 960000000000000000)
    (Demo.longPosition "nibi1trader" 100 10) 96000000000000000000 96000000000000000000
    (by decide) (by decide) (by decide) rfl rfl (by decide)

/-- C2: for a position that passed the eligibility check (margin ratio at the
larger notional below the maintenance margin ratio), `liquidate` returns what
the partial liquidation produces when the margin ratio at the spot notional is
at least the liquidation fee ratio, and what the full liquidation produces
otherwise; the outcome of the other path plays no part. -/
theorem liquidate_selects_path (k : Keeper) (ctx : Context) (liquidator trader : AccAddress)
    (pair : Pair) (market : Market) (amm : AMM) (position : Position)
    (spotNotional twapNotional : Dec)
    (hmarket : mapGet ctx.store.Markets pair = some market)
    (hamm : mapGet ctx.store.AMMs pair = some amm)
    (hposition : mapGet ctx.store.Positions (pair, trader) = some position)
    (hspot : k.PositionNotionalSpot amm position = .ok spotNotional)
    (htwap : k.PositionNotionalTWAP ctx position market.TwapLookbackWindow = .ok twapNotional)
    (heligible :
      k.MarginRatio position (max spotNotional twapNotional)
        market.LatestCumulativePremiumFraction < market.MaintenanceMarginRatio) :
    (k.MarginRatio position spotNotional market.LatestCumulativePremiumFraction
          ≥ market.LiquidationFeeRatio →
        liquidate k ctx liquidator pair trader =
          liquidateReturn pair
            (executePartialLiquidation k ctx market amm liquidator position)) ∧
    (k.MarginRatio position spotNotional market.LatestCumulativePremiumFraction
          < market.LiquidationFeeRatio →
        liquidate k ctx liquidator pair trader =
          liquidateReturn pair
            (executeFullLiquidation k ctx market amm liquidator position)) := by
  rw [← MaxDec_eq_max] at heligible
  have hlt := (Dec.GTE_eq_false_iff _ _).mpr heligible
  constructor
  · intro hge
    have hgte := (Dec.GTE_iff _ _).mpr hge
    simp only [liquidate, hmarket, hamm, hposition, hspot, htwap, hlt, hgte, if_true]
    simp
  · intro hfee
    have hfalse := (Dec.GTE_eq_false_iff _ _).mpr hfee
    simp only [liquidate, hmarket, hamm, hposition, hspot, htwap, hlt, hfalse]
    simp

/-- At price 0.95 the example position has spot margin ratio 5.26%, above
the 5% fee ratio (partial path); at price 0.90 it has ratio 0 (full path). -/
theorem liquidate_selects_path_witness :
    liquidate Demo.keeper
        (Demo.ctxAt 950000000000000000
          [((Demo.pair, Demo.trader), Demo.longPosition "nibi1trader" 100 10)])
        Demo.liquidator Demo.pair Demo.trader =
      liquidateReturn Demo.pair
        (executePartialLiquidation Demo.keeper
          (Demo.ctxAt 950000000000000000
            [((Demo.pair, Demo.trader), Demo.longPosition "nibi1trader" 100 10)])
          Demo.market (Demo.ammAt 950000000000000000) Demo.liquidator
          (Demo.longPosition "nibi1trader" 100 10)) ∧
    liquidate Demo.keeper
        (Demo.ctxAt 900000000000000000
          [((Demo.pair, Demo.trader), Demo.longPosition "nibi1trader" 100 10)])
        Demo.liquidator Demo.pair Demo.trader =
      liquidateReturn Demo.pair
        (executeFullLiquidation Demo.keeper
          (Demo.ctxAt 900000000000000000
            [((Demo.pair, Demo.trader), Demo.longPosition "nibi1trader" 100 10)])
          Demo.market (Demo.ammAt 900000000000000000) Demo.liquidator
          (Demo.longPosition "nibi1trader" 100 10)) :=
  ⟨(liquidate_selects_path Demo.keeper
      (Demo.ctxAt 950000000000000000
        [((Demo.pair, Demo.trader), Demo.longPosition "nibi1trader" 100 10)])
      Demo.liquidator Demo.trader Demo.pair Demo.market (Demo.ammAt 950000000000000000)
      (Demo.longPosition "nibi1trader" 100 10) 95000000000000000000 95000000000000000000
      (by decide) (by decide) (by decide) rfl rfl (by decide)).1 (by decide),
   (liquidate_selects_path Demo.keeper
      (Demo.ctxAt 900000000000000000
        [((Demo.pair, Demo.trader), Demo.longPosition "nibi1trader" 100 10)])
      Demo.liquidator Demo.trader Demo.pair Demo.market (Demo.ammAt 900000000000000000)
      (Demo.longPosition "nibi1trader" 100 10) 90000000000000000000 90000000000000000000
      (by decide) (by decide) (by decide) rfl rfl (by decide)).2 (by decide)⟩

/-- C7: when the market or the AMM of the pair is absent, `liquidate` returns
`ErrPairNotFound` and emits a failure event with reason `NONEXISTENT_PAIR`;
when both exist and the position of (pair, trader) is absent, it returns the
lookup error and emits a failure event with reason `NONEXISTENT_POSITION`.
In each case both fee coins are empty and the stores are unchanged. -/
theorem liquidate_lookup_failure (k : Keeper) (ctx : Context)
    (liquidator trader : AccAddress) (pair : Pair) :
    (mapGet ctx.store.Markets pair = none ∨ mapGet ctx.store.AMMs pair = none →
      liquidate k ctx liquidator pair trader =
        Outcome.done (Coin.empty, Coin.empty, some Err.ErrPairNotFound)
          { store := ctx.store
            events := ctx.events ++
              [Event.LiquidationFailed pair (k.AccAddressString trader)
                (k.AccAddressString liquidator)
                LiquidationFailedEvent_LiquidationFailedReason.NONEXISTENT_PAIR]
            BlockHeight := ctx.BlockHeight
            BlockTimeMs := ctx.BlockTimeMs }) ∧
    (mapGet ctx.store.Markets pair ≠ none → mapGet ctx.store.AMMs pair ≠ none →
      mapGet ctx.store.Positions (pair, trader) = none →
      ∃ err,
        liquidate k ctx liquidator pair trader =
          Outcome.done (Coin.empty, Coin.empty, some err)
            { store := ctx.store
              events := ctx.events ++
                [Event.LiquidationFailed pair (k.AccAddressString trader)
                  (k.AccAddressString liquidator)
                  LiquidationFailedEvent_LiquidationFailedReason.NONEXISTENT_POSITION]
              BlockHeight := ctx.BlockHeight
              BlockTimeMs := ctx.BlockTimeMs }) := by
  constructor
  · intro h
    cases hm : mapGet ctx.store.Markets pair with
    | none => simp only [liquidate, hm, Context.EmitEvents, liquidationFailedEvent]
    | some market =>
      rcases h with h | h
      · rw [hm] at h; cases h
      · simp only [liquidate, hm, h, Context.EmitEvents, liquidationFailedEvent]
  · intro hm ha hp
    obtain ⟨market, hm⟩ := Option.ne_none_iff_exists'.mp hm
    obtain ⟨amm, ha⟩ := Option.ne_none_iff_exists'.mp ha
    exact ⟨Err.ErrNotFound, by
      simp only [liquidate, hm, ha, hp, Context.EmitEvents, liquidationFailedEvent]⟩

/-- The three lookup failures on concrete stores: no market, a market without
its AMM, and a pair without the trader's position. -/
theorem liquidate_lookup_failure_witness :
    (liquidate Demo.keeper
        { Demo.ctxAt 900000000000000000 [] with
          store := { (Demo.ctxAt 900000000000000000 []).store with Markets := [] } }
        Demo.liquidator Demo.pair Demo.trader).ctx?.map (fun c => c.events) =
      some [Event.other "begin_block",
        Event.LiquidationFailed Demo.pair "nibi1trader" "nibi1liquidator"
          LiquidationFailedEvent_LiquidationFailedReason.NONEXISTENT_PAIR] ∧
    (liquidate Demo.keeper
        { Demo.ctxAt 900000000000000000 [] with
          store := { (Demo.ctxAt 900000000000000000 []).store with AMMs := [] } }
        Demo.liquidator Demo.pair Demo.trader).ctx?.map (fun c => c.events) =
      some [Event.other "begin_block",
        Event.LiquidationFailed Demo.pair "nibi1trader" "nibi1liquidator"
          LiquidationFailedEvent_LiquidationFailedReason.NONEXISTENT_PAIR] ∧
    ∃ err,
      liquidate Demo.keeper (Demo.ctxAt 900000000000000000 [])
          Demo.liquidator Demo.pair Demo.trader =
        Outcome.done (Coin.empty, Coin.empty, some err)
          { store := (Demo.ctxAt 900000000000000000 []).store
            events := [Event.other "begin_block",
              Event.LiquidationFailed Demo.pair "nibi1trader" "nibi1liquidator"
                LiquidationFailedEvent_LiquidationFailedReason.NONEXISTENT_POSITION]
            BlockHeight := 7
            BlockTimeMs := 7000 } :=
  ⟨by
      rw [(liquidate_lookup_failure Demo.keeper _ Demo.liquidator Demo.trader Demo.pair).1
        (Or.inl (by decide))]
      rfl,
   by
      rw [(liquidate_lookup_failure Demo.keeper _ Demo.liquidator Demo.trader Demo.pair).1
        (Or.inr (by decide))]
      rfl,
   (liquidate_lookup_failure Demo.keeper (Demo.ctxAt 900000000000000000 [])
      Demo.liquidator Demo.trader Demo.pair).2 (by decide) (by decide) (by decide)⟩

/-! ## The loop of MultiLiquidate -/

/-- The loop started with responses `resp` and flag `allFailed` does what the
loop started afresh does, with its responses appended and its flag conjoined. -/
theorem MultiLiquidate.loop_acc (k : Keeper) (liquidator : AccAddress)
    (reqs : List MsgMultiLiquidate_Liquidation) :
    ∀ (ctx : Context) (resp : List MsgMultiLiquidateResponse_LiquidationResponse)
      (allFailed : Bool),
      MultiLiquidate.loop k liquidator reqs ctx resp allFailed =
        match MultiLiquidate.loop k liquidator reqs ctx [] true with
        | .panicked => .panicked
        | .done (r, a) c => .done (resp ++ r, allFailed && a) c := by
  induction reqs with
  | nil => intro ctx resp allFailed; simp [MultiLiquidate.loop]
  | cons req rest ih =>
    intro ctx resp allFailed
    simp only [MultiLiquidate.loop]
    cases h : MultiLiquidate.attempt k ctx liquidator req with
    | panicked => rfl
    | done o c =>
      obtain ⟨lf, ef, err⟩ := o
      cases err with
      | some e =>
        simp only []
        rw [ih ctx (resp ++ _) allFailed, ih ctx ([] ++ _) true]
        cases MultiLiquidate.loop k liquidator rest ctx [] true with
        | panicked => rfl
        | done v c2 => obtain ⟨r, a⟩ := v; simp
      | none =>
        simp only []
        rw [ih _ (resp ++ _) false, ih _ ([] ++ _) false]
        cases MultiLiquidate.loop k liquidator rest
            ((ctx.EmitEvents c.events).commit c) [] true with
        | panicked => rfl
        | done v c2 => obtain ⟨r, a⟩ := v; simp

/-- One turn of the loop, started afresh: the attempt at the first request,
then the loop over the rest from the merged context. -/
theorem MultiLiquidate.loop_cons (k : Keeper) (liquidator : AccAddress)
    (req : MsgMultiLiquidate_Liquidation) (rest : List MsgMultiLiquidate_Liquidation)
    (ctx : Context) :
    MultiLiquidate.loop k liquidator (req :: rest) ctx [] true =
      match MultiLiquidate.attempt k ctx liquidator req with
      | .panicked => .panicked
      | .done o c =>
        match MultiLiquidate.loop k liquidator rest (MultiLiquidate.merge ctx o c) [] true with
        | .panicked => .panicked
        | .done (r, a) c2 =>
          .done (MultiLiquidate.response k o :: r, MultiLiquidate.failed o && a) c2 := by
  simp only [MultiLiquidate.loop]
  cases h : MultiLiquidate.attempt k ctx liquidator req with
  | panicked => rfl
  | done o c =>
    obtain ⟨lf, ef, err⟩ := o
    cases err with
    | some e =>
      simp only [MultiLiquidate.merge, MultiLiquidate.response, MultiLiquidate.failed]
      rw [MultiLiquidate.loop_acc]
      cases MultiLiquidate.loop k liquidator rest ctx [] true with
      | panicked => rfl
      | done v c2 => obtain ⟨r, a⟩ := v; simp
    | none =>
      simp only [MultiLiquidate.merge, MultiLiquidate.response, MultiLiquidate.failed]
      rw [MultiLiquidate.loop_acc]
      cases MultiLiquidate.loop k liquidator rest
          ((ctx.EmitEvents c.events).commit c) [] true with
      | panicked => rfl
      | done v c2 => obtain ⟨r, a⟩ := v; simp

theorem MultiLiquidate.ctxBefore_zero (k : Keeper) (ctx : Context) (liquidator : AccAddress)
    (reqs : List MsgMultiLiquidate_Liquidation) :
    MultiLiquidate.ctxBefore k ctx liquidator reqs 0 = some ctx := by
  simp [MultiLiquidate.ctxBefore, MultiLiquidate.loop, Outcome.ctx?]

theorem MultiLiquidate.ctxBefore_succ (k : Keeper) (ctx : Context) (liquidator : AccAddress)
    (req : MsgMultiLiquidate_Liquidation) (rest : List MsgMultiLiquidate_Liquidation)
    (i : Nat) :
    MultiLiquidate.ctxBefore k ctx liquidator (req :: rest) (i + 1) =
      match MultiLiquidate.attempt k ctx liquidator req with
      | .panicked => none
      | .done o c =>
        MultiLiquidate.ctxBefore k (MultiLiquidate.merge ctx o c) liquidator rest i := by
  simp only [MultiLiquidate.ctxBefore, List.take_succ_cons, MultiLiquidate.loop_cons]
  cases MultiLiquidate.attempt k ctx liquidator req with
  | panicked => rfl
  | done o c =>
    simp only []
    cases MultiLiquidate.loop k liquidator (List.take i rest)
        (MultiLiquidate.merge ctx o c) [] true with
    | panicked => rfl
    | done v c2 => rfl

theorem MultiLiquidate.attemptAt_zero (k : Keeper) (ctx : Context) (liquidator : AccAddress)
    (req : MsgMultiLiquidate_Liquidation) (rest : List MsgMultiLiquidate_Liquidation) :
    MultiLiquidate.attemptAt k ctx liquidator (req :: rest) 0 =
      some (MultiLiquidate.attempt k ctx liquidator req) := by
  simp [MultiLiquidate.attemptAt, MultiLiquidate.ctxBefore_zero]

theorem MultiLiquidate.attemptAt_succ (k : Keeper) (ctx : Context) (liquidator : AccAddress)
    (req : MsgMultiLiquidate_Liquidation) (rest : List MsgMultiLiquidate_Liquidation)
    (i : Nat) :
    MultiLiquidate.attemptAt k ctx liquidator (req :: rest) (i + 1) =
      match MultiLiquidate.attempt k ctx liquidator req with
      | .panicked => none
      | .done o c =>
        MultiLiquidate.attemptAt k (MultiLiquidate.merge ctx o c) liquidator rest i := by
  simp only [MultiLiquidate.attemptAt, MultiLiquidate.ctxBefore_succ, List.getElem?_cons_succ]
  cases MultiLiquidate.attempt k ctx liquidator req with
  | panicked => rfl
  | done o c => rfl

/-- The loop panics exactly when one of the attempts it reaches panics. -/
theorem MultiLiquidate.loop_panicked_iff (k : Keeper) (liquidator : AccAddress)
    (reqs : List MsgMultiLiquidate_Liquidation) :
    ∀ ctx : Context,
      MultiLiquidate.loop k liquidator reqs ctx [] true = .panicked ↔
        ∃ i, i < reqs.length ∧
          MultiLiquidate.attemptAt k ctx liquidator reqs i = some .panicked := by
  induction reqs with
  | nil => intro ctx; simp [MultiLiquidate.loop]
  | cons req rest ih =>
    intro ctx
    rw [MultiLiquidate.loop_cons]
    cases h : MultiLiquidate.attempt k ctx liquidator req with
    | panicked =>
      simp only [true_iff]
      exact ⟨0, by simp, by rw [MultiLiquidate.attemptAt_zero, h]⟩
    | done o c =>
      simp only []
      constructor
      · intro hp
        have hrest : MultiLiquidate.loop k liquidator rest (MultiLiquidate.merge ctx o c) [] true
            = .panicked := by
          cases hl : MultiLiquidate.loop k liquidator rest (MultiLiquidate.merge ctx o c) [] true with
          | panicked => rfl
          | done v c2 => rw [hl] at hp; cases hp
        obtain ⟨i, hi, hat⟩ := (ih _).mp hrest
        refine ⟨i + 1, by simpa using hi, ?_⟩
        rw [MultiLiquidate.attemptAt_succ, h]
        exact hat
      · rintro ⟨i, hi, hat⟩
        cases i with
        | zero =>
          rw [MultiLiquidate.attemptAt_zero, h] at hat
          cases hat
        | succ j =>
          rw [MultiLiquidate.attemptAt_succ, h] at hat
          have hrest := (ih (MultiLiquidate.merge ctx o c)).mpr
            ⟨j, by simpa using hi, hat⟩
          rw [hrest]

/-- What the loop returns: one response per request, built from what the
attempt at that request returned; the flag is still set exactly when every
attempt returned an error; and the context is the one after all requests. -/
theorem MultiLiquidate.loop_done_spec (k : Keeper) (liquidator : AccAddress)
    (reqs : List MsgMultiLiquidate_Liquidation) :
    ∀ (ctx : Context) (r : List MsgMultiLiquidateResponse_LiquidationResponse) (a : Bool)
      (cf : Context),
      MultiLiquidate.loop k liquidator reqs ctx [] true = .done (r, a) cf →
        r.length = reqs.length ∧
        (∀ i, i < reqs.length → ∃ o c,
          MultiLiquidate.attemptAt k ctx liquidator reqs i = some (.done o c) ∧
          r[i]? = some (MultiLiquidate.response k o)) ∧
        (a = true ↔ ∀ i, i < reqs.length → ∃ o c,
          MultiLiquidate.attemptAt k ctx liquidator reqs i = some (.done o c) ∧
          MultiLiquidate.failed o = true) ∧
        MultiLiquidate.ctxBefore k ctx liquidator reqs reqs.length = some cf := by
  induction reqs with
  | nil =>
    intro ctx r a cf h
    simp only [MultiLiquidate.loop, Outcome.done.injEq, Prod.mk.injEq] at h
    obtain ⟨⟨rfl, rfl⟩, rfl⟩ := h
    simp [MultiLiquidate.ctxBefore_zero]
  | cons req rest ih =>
    intro ctx r a cf h
    rw [MultiLiquidate.loop_cons] at h
    cases hat : MultiLiquidate.attempt k ctx liquidator req with
    | panicked => rw [hat] at h; cases h
    | done o c =>
      rw [hat] at h
      simp only [] at h
      cases hl : MultiLiquidate.loop k liquidator rest (MultiLiquidate.merge ctx o c) [] true with
      | panicked => rw [hl] at h; cases h
      | done v c2 =>
        obtain ⟨r2, a2⟩ := v
        rw [hl] at h
        simp only [Outcome.done.injEq, Prod.mk.injEq] at h
        obtain ⟨⟨rfl, rfl⟩, rfl⟩ := h
        obtain ⟨hlen, hresp, hflag, hctx⟩ := ih _ _ _ _ hl
        refine ⟨by simp [hlen], ?_, ?_, ?_⟩
        · intro i hi
          cases i with
          | zero => exact ⟨o, c, by rw [MultiLiquidate.attemptAt_zero, hat], by simp⟩
          | succ j =>
            obtain ⟨o2, c3, h1, h2⟩ := hresp j (by simpa using hi)
            exact ⟨o2, c3, by rw [MultiLiquidate.attemptAt_succ, hat]; exact h1, by simpa using h2⟩
        · constructor
          · intro hand
            rw [Bool.and_eq_true] at hand
            intro i hi
            cases i with
            | zero => exact ⟨o, c, by rw [MultiLiquidate.attemptAt_zero, hat], hand.1⟩
            | succ j =>
              obtain ⟨o2, c3, h1, h2⟩ := hflag.mp hand.2 j (by simpa using hi)
              exact ⟨o2, c3, by rw [MultiLiquidate.attemptAt_succ, hat]; exact h1, h2⟩
          · intro hall
            rw [Bool.and_eq_true]
            constructor
            · obtain ⟨o2, c3, h1, h2⟩ := hall 0 (by simp)
              rw [MultiLiquidate.attemptAt_zero, hat] at h1
              simp only [Option.some.injEq, Outcome.done.injEq] at h1
              rw [h1.1]; exact h2
            · apply hflag.mpr
              intro j hj
              obtain ⟨o2, c3, h1, h2⟩ := hall (j + 1) (by simpa using hj)
              rw [MultiLiquidate.attemptAt_succ, hat] at h1
              exact ⟨o2, c3, h1, h2⟩
        · simp only [List.length_cons]
          rw [MultiLiquidate.ctxBefore_succ, hat]
          exact hctx

/-- The loop returns when none of the attempts it reaches panics. -/
theorem MultiLiquidate.loop_returns (k : Keeper) (liquidator : AccAddress)
    (reqs : List MsgMultiLiquidate_Liquidation) (ctx : Context)
    (hnp : ∀ i, i < reqs.length →
      MultiLiquidate.attemptAt k ctx liquidator reqs i ≠ some .panicked) :
    ∃ r a cf, MultiLiquidate.loop k liquidator reqs ctx [] true = .done (r, a) cf := by
  cases h : MultiLiquidate.loop k liquidator reqs ctx [] true with
  | panicked =>
    obtain ⟨i, hi, hat⟩ := (MultiLiquidate.loop_panicked_iff k liquidator reqs ctx).mp h
    exact absurd hat (hnp i hi)
  | done v cf => exact ⟨v.1, v.2, cf, rfl⟩

/-- The result of `MultiLiquidate` in terms of its loop. -/
theorem MultiLiquidate_eq_of_loop (k : Keeper) (ctx : Context) (liquidator : AccAddress)
    (reqs : List MsgMultiLiquidate_Liquidation)
    (r : List MsgMultiLiquidateResponse_LiquidationResponse) (a : Bool) (cf : Context)
    (h : MultiLiquidate.loop k liquidator reqs ctx [] true = .done (r, a) cf) :
    MultiLiquidate k ctx liquidator reqs =
      .done (r, if a then some (Err.ErrAllLiquidationsFailed reqs.length) else none) cf := by
  unfold MultiLiquidate
  rw [h]
  cases a <;> simp

/-- The attempt at request `i`, when the loop gets there with outer context
`c` and the trader address decodes: `liquidate` on a cache context of `c`. -/
theorem MultiLiquidate.attemptAt_eq_liquidate (k : Keeper) (ctx : Context)
    (liquidator : AccAddress) (reqs : List MsgMultiLiquidate_Liquidation) (i : Nat)
    (c : Context) (req : MsgMultiLiquidate_Liquidation) (a : AccAddress)
    (hc : MultiLiquidate.ctxBefore k ctx liquidator reqs i = some c)
    (hreq : reqs[i]? = some req)
    (haddr : k.AccAddressFromBech32 req.Trader = .ok a) :
    MultiLiquidate.attemptAt k ctx liquidator reqs i =
      some (liquidate k c.CacheContext liquidator req.Pair a) := by
  simp only [MultiLiquidate.attemptAt, hc, hreq, MultiLiquidate.attempt, haddr]

/-- An attempt that reaches a malformed trader address makes the loop panic. -/
theorem MultiLiquidate.attempt_malformed (k : Keeper) (c : Context) (liquidator : AccAddress)
    (req : MsgMultiLiquidate_Liquidation) (e : Err)
    (haddr : k.AccAddressFromBech32 req.Trader = .error e) :
    MultiLiquidate.attempt k c liquidator req = .panicked := by
  simp only [MultiLiquidate.attempt, haddr]

theorem MultiLiquidate.failed_iff (o : Coin × Coin × Option Err) :
    MultiLiquidate.failed o = true ↔ ∃ lf ef err, o = (lf, ef, some err) := by
  obtain ⟨lf, ef, err⟩ := o
  cases err <;> simp [MultiLiquidate.failed]

/-! ## MultiLiquidate: the batch -/

/-- C3, amended: `MultiLiquidate` returns the aggregate error
`ErrAllLiquidationsFailed` exactly when every request was attempted and its
attempt returned an error; and when no attempt panics and at least one attempt
succeeded, it returns a nil error together with one response per request. -/
theorem MultiLiquidate_all_failed_iff (k : Keeper) (ctx : Context) (liquidator : AccAddress)
    (reqs : List MsgMultiLiquidate_Liquidation) :
    ((∃ resp cf, MultiLiquidate k ctx liquidator reqs =
          .done (resp, some (Err.ErrAllLiquidationsFailed reqs.length)) cf) ↔
      ∀ i, i < reqs.length → ∃ lf ef err c,
        MultiLiquidate.attemptAt k ctx liquidator reqs i =
          some (.done (lf, ef, some err) c)) ∧
    ((∀ i, i < reqs.length →
        MultiLiquidate.attemptAt k ctx liquidator reqs i ≠ some .panicked) →
      (∃ i, i < reqs.length ∧ ∃ lf ef c,
        MultiLiquidate.attemptAt k ctx liquidator reqs i = some (.done (lf, ef, none) c)) →
      ∃ resp cf, MultiLiquidate k ctx liquidator reqs = .done (resp, none) cf ∧
        resp.length = reqs.length) := by
  refine ⟨⟨?_, ?_⟩, ?_⟩
  · rintro ⟨resp, cf, h⟩
    cases hl : MultiLiquidate.loop k liquidator reqs ctx [] true with
    | panicked => simp [MultiLiquidate, hl] at h
    | done v c2 =>
      obtain ⟨r, a⟩ := v
      rw [MultiLiquidate_eq_of_loop k ctx liquidator reqs r a c2 hl] at h
      have ha : a = true := by
        cases a with
        | true => rfl
        | false => simp at h
      intro i hi
      obtain ⟨o, c, h1, h2⟩ :=
        (MultiLiquidate.loop_done_spec k liquidator reqs ctx r a c2 hl).2.2.1.mp ha i hi
      obtain ⟨lf, ef, err, rfl⟩ := (MultiLiquidate.failed_iff o).mp h2
      exact ⟨lf, ef, err, c, h1⟩
  · intro hall
    have hnp : ∀ i, i < reqs.length →
        MultiLiquidate.attemptAt k ctx liquidator reqs i ≠ some .panicked := by
      intro i hi hp
      obtain ⟨lf, ef, err, c, h1⟩ := hall i hi
      rw [h1] at hp
      cases hp
    obtain ⟨r, a, cf, hl⟩ := MultiLiquidate.loop_returns k liquidator reqs ctx hnp
    have ha : a = true := by
      apply (MultiLiquidate.loop_done_spec k liquidator reqs ctx r a cf hl).2.2.1.mpr
      intro i hi
      obtain ⟨lf, ef, err, c, h1⟩ := hall i hi
      exact ⟨(lf, ef, some err), c, h1, rfl⟩
    subst ha
    exact ⟨r, cf, by rw [MultiLiquidate_eq_of_loop k ctx liquidator reqs r true cf hl]; rfl⟩
  · rintro hnp ⟨i, hi, lf, ef, c, hsucc⟩
    obtain ⟨r, a, cf, hl⟩ := MultiLiquidate.loop_returns k liquidator reqs ctx hnp
    obtain ⟨hlen, -, hflag, -⟩ := MultiLiquidate.loop_done_spec k liquidator reqs ctx r a cf hl
    have ha : a = false := by
      cases a with
      | false => rfl
      | true =>
        obtain ⟨o, c2, h1, h2⟩ := hflag.mp rfl i hi
        rw [hsucc] at h1
        simp only [Option.some.injEq, Outcome.done.injEq] at h1
        rw [← h1.1] at h2
        simp [MultiLiquidate.failed] at h2
    subst ha
    exact ⟨r, cf, by rw [MultiLiquidate_eq_of_loop k ctx liquidator reqs r false cf hl]; rfl, hlen⟩

/-- C5, amended: when no attempt panics, `MultiLiquidate` returns one response
per request, in request order: the entry of a request whose `liquidate` succeeded
has `Success = true` and the two fee coins `liquidate` returned; the entry of
a request whose `liquidate` returned an error has `Success = false` and the
text of that error. -/
theorem MultiLiquidate_responses (k : Keeper) (ctx : Context) (liquidator : AccAddress)
    (reqs : List MsgMultiLiquidate_Liquidation)
    (hnp : ∀ i, i < reqs.length →
      MultiLiquidate.attemptAt k ctx liquidator reqs i ≠ some .panicked) :
    ∃ resp err cf, MultiLiquidate k ctx liquidator reqs = .done (resp, err) cf ∧
      resp.length = reqs.length ∧
      ∀ i c req a liquidatorFee perpEfFee cachedCtx,
        MultiLiquidate.ctxBefore k ctx liquidator reqs i = some c →
        reqs[i]? = some req →
        k.AccAddressFromBech32 req.Trader = .ok a →
        (liquidate k c.CacheContext liquidator req.Pair a =
            .done (liquidatorFee, perpEfFee, none) cachedCtx →
          resp[i]? = some
            { Success := true, Error := "",
              LiquidatorFee := liquidatorFee, PerpEfFee := perpEfFee }) ∧
        (∀ e, liquidate k c.CacheContext liquidator req.Pair a =
            .done (liquidatorFee, perpEfFee, some e) cachedCtx →
          resp[i]? = some
            { Success := false, Error := k.ErrorString e,
              LiquidatorFee := Coin.empty, PerpEfFee := Coin.empty }) := by
  obtain ⟨r, fl, cf, hl⟩ := MultiLiquidate.loop_returns k liquidator reqs ctx hnp
  obtain ⟨hlen, hresp, -, -⟩ := MultiLiquidate.loop_done_spec k liquidator reqs ctx r fl cf hl
  refine ⟨r, _, cf, MultiLiquidate_eq_of_loop k ctx liquidator reqs r fl cf hl, hlen, ?_⟩
  intro i c req a liquidatorFee perpEfFee cachedCtx hc hreq haddr
  have hi : i < reqs.length := by
    rcases Nat.lt_or_ge i reqs.length with h | h
    · exact h
    · rw [List.getElem?_eq_none h] at hreq; cases hreq
  obtain ⟨o, c2, h1, h2⟩ := hresp i hi
  rw [MultiLiquidate.attemptAt_eq_liquidate k ctx liquidator reqs i c req a hc hreq haddr] at h1
  constructor
  · intro hliq
    rw [hliq] at h1
    simp only [Option.some.injEq, Outcome.done.injEq] at h1
    rw [h2, ← h1.1]
    rfl
  · intro e hliq
    rw [hliq] at h1
    simp only [Option.some.injEq, Outcome.done.injEq] at h1
    rw [h2, ← h1.1]
    rfl

/-- C6, as the code has it: the batch is aborted only by a panic.  When no
attempt panics, `MultiLiquidate` returns one response per request, every
request is attempted, and the entry of a request has `Success = false` exactly
when its `liquidate` returned an error.  A request that is reached with a
trader address that does not decode is not captured: the call panics. -/
theorem MultiLiquidate_failures_captured (k : Keeper) (ctx : Context)
    (liquidator : AccAddress) (reqs : List MsgMultiLiquidate_Liquidation) :
    ((∀ i, i < reqs.length →
        MultiLiquidate.attemptAt k ctx liquidator reqs i ≠ some .panicked) →
      ∃ resp err cf, MultiLiquidate k ctx liquidator reqs = .done (resp, err) cf ∧
        resp.length = reqs.length ∧
        ∀ i, i < reqs.length → ∃ liquidatorFee perpEfFee e cachedCtx entry,
          MultiLiquidate.attemptAt k ctx liquidator reqs i =
            some (.done (liquidatorFee, perpEfFee, e) cachedCtx) ∧
          resp[i]? = some entry ∧ (entry.Success = false ↔ e ≠ none)) ∧
    (∀ i c req e,
      MultiLiquidate.ctxBefore k ctx liquidator reqs i = some c →
      reqs[i]? = some req →
      k.AccAddressFromBech32 req.Trader = .error e →
      MultiLiquidate k ctx liquidator reqs = .panicked) := by
  constructor
  · intro hnp
    obtain ⟨r, fl, cf, hl⟩ := MultiLiquidate.loop_returns k liquidator reqs ctx hnp
    obtain ⟨hlen, hresp, -, -⟩ := MultiLiquidate.loop_done_spec k liquidator reqs ctx r fl cf hl
    refine ⟨r, _, cf, MultiLiquidate_eq_of_loop k ctx liquidator reqs r fl cf hl, hlen, ?_⟩
    intro i hi
    obtain ⟨⟨lf, ef, e⟩, c2, h1, h2⟩ := hresp i hi
    refine ⟨lf, ef, e, c2, _, h1, h2, ?_⟩
    cases e <;> simp [MultiLiquidate.response]
  · intro i c req e hc hreq haddr
    have hi : i < reqs.length := by
      rcases Nat.lt_or_ge i reqs.length with h | h
      · exact h
      · rw [List.getElem?_eq_none h] at hreq; cases hreq
    have hp : MultiLiquidate.loop k liquidator reqs ctx [] true = .panicked := by
      apply (MultiLiquidate.loop_panicked_iff k liquidator reqs ctx).mpr
      refine ⟨i, hi, ?_⟩
      simp only [MultiLiquidate.attemptAt, hc, hreq,
        MultiLiquidate.attempt_malformed k c liquidator req e haddr]
    simp only [MultiLiquidate, hp]

/-! ## MultiLiquidate on concrete batches -/

/-- No attempt of the example batch panics. -/
theorem Demo.batch_no_panic :
    ∀ i, i < Demo.batch.length →
      MultiLiquidate.attemptAt Demo.keeper Demo.batchCtx Demo.liquidator Demo.batch i
        ≠ some .panicked := by
  intro i hi
  have h : i = 0 ∨ i = 1 := by simp [Demo.batch] at hi; omega
  rcases h with rfl | rfl <;> decide

/-- The all-failing batch returns the aggregate error; the mixed batch
returns a nil error and two responses. -/
theorem MultiLiquidate_all_failed_iff_witness :
    (∃ resp cf, MultiLiquidate Demo.keeper Demo.batchCtx Demo.liquidator Demo.failingBatch =
        .done (resp, some (Err.ErrAllLiquidationsFailed 2)) cf) ∧
    (∃ resp cf, MultiLiquidate Demo.keeper Demo.batchCtx Demo.liquidator Demo.batch =
        .done (resp, none) cf ∧ resp.length = 2) :=
  ⟨(MultiLiquidate_all_failed_iff Demo.keeper Demo.batchCtx Demo.liquidator
      Demo.failingBatch).1.mpr (by
        intro i hi
        have h : i = 0 ∨ i = 1 := by simp [Demo.failingBatch] at hi; omega
        rcases h with rfl | rfl <;> exact ⟨_, _, _, _, rfl⟩),
   (MultiLiquidate_all_failed_iff Demo.keeper Demo.batchCtx Demo.liquidator
      Demo.batch).2 Demo.batch_no_panic ⟨1, by decide, _, _, _, rfl⟩⟩

/-- The responses of the example batch. -/
theorem MultiLiquidate_responses_witness :
    ∃ resp err cf,
      MultiLiquidate Demo.keeper Demo.batchCtx Demo.liquidator Demo.batch =
        .done (resp, err) cf ∧
      resp.length = Demo.batch.length ∧
      ∀ i c req a liquidatorFee perpEfFee cachedCtx,
        MultiLiquidate.ctxBefore Demo.keeper Demo.batchCtx Demo.liquidator Demo.batch i
          = some c →
        Demo.batch[i]? = some req →
        Demo.keeper.AccAddressFromBech32 req.Trader = .ok a →
        (liquidate Demo.keeper c.CacheContext Demo.liquidator req.Pair a =
            .done (liquidatorFee, perpEfFee, none) cachedCtx →
          resp[i]? = some
            { Success := true, Error := "",
              LiquidatorFee := liquidatorFee, PerpEfFee := perpEfFee }) ∧
        (∀ e, liquidate Demo.keeper c.CacheContext Demo.liquidator req.Pair a =
            .done (liquidatorFee, perpEfFee, some e) cachedCtx →
          resp[i]? = some
            { Success := false, Error := Demo.keeper.ErrorString e,
              LiquidatorFee := Coin.empty, PerpEfFee := Coin.empty }) :=
  MultiLiquidate_responses Demo.keeper Demo.batchCtx Demo.liquidator Demo.batch
    Demo.batch_no_panic

/-- C3 as stated fails: in the batch whose first request succeeds and whose
second has a trader address that does not decode, one request succeeded, and
yet the call returns neither a nil error nor per-item results: it panics at
the second request. -/
theorem MultiLiquidate_success_then_panic :
    (∃ liquidatorFee perpEfFee cachedCtx,
      MultiLiquidate.attemptAt Demo.keeper Demo.batchCtx Demo.liquidator
          Demo.successThenMalformedBatch 0 =
        some (.done (liquidatorFee, perpEfFee, none) cachedCtx)) ∧
    MultiLiquidate Demo.keeper Demo.batchCtx Demo.liquidator Demo.successThenMalformedBatch =
      .panicked :=
  ⟨⟨_, _, _, rfl⟩, by decide⟩

/-- C5 as stated fails: the batch of length two whose first request fails and
whose second has a trader address that does not decode gets no response list,
of any length: the call panics. -/
theorem MultiLiquidate_no_responses_on_panic :
    Demo.failedThenMalformedBatch.length = 2 ∧
    MultiLiquidate Demo.keeper Demo.batchCtx Demo.liquidator Demo.failedThenMalformedBatch =
      .panicked ∧
    ¬ ∃ resp err cf,
      MultiLiquidate Demo.keeper Demo.batchCtx Demo.liquidator Demo.failedThenMalformedBatch =
        .done (resp, err) cf := by
  have hp : MultiLiquidate Demo.keeper Demo.batchCtx Demo.liquidator
      Demo.failedThenMalformedBatch = .panicked := by decide
  refine ⟨by decide, hp, ?_⟩
  rintro ⟨resp, err, cf, h⟩
  rw [hp] at h
  cases h

/-- C6 fails on the code: a batch with a malformed trader address in the
middle panics; no response is returned for any of its requests, although
the same batch without that request returns two responses. -/
theorem MultiLiquidate_malformed_trader_aborts :
    MultiLiquidate Demo.keeper Demo.batchCtx Demo.liquidator Demo.malformedBatch =
      .panicked ∧
    (MultiLiquidate Demo.keeper Demo.batchCtx Demo.liquidator Demo.batch).ctx? ≠ none := by
  constructor <;> decide

/-- The example batch is processed to the end, and the batch with the
malformed address panics at its second request. -/
theorem MultiLiquidate_failures_captured_witness :
    (∃ resp err cf,
      MultiLiquidate Demo.keeper Demo.batchCtx Demo.liquidator Demo.batch =
        .done (resp, err) cf ∧
      resp.length = Demo.batch.length ∧
      ∀ i, i < Demo.batch.length → ∃ liquidatorFee perpEfFee e cachedCtx entry,
        MultiLiquidate.attemptAt Demo.keeper Demo.batchCtx Demo.liquidator Demo.batch i =
          some (.done (liquidatorFee, perpEfFee, e) cachedCtx) ∧
        resp[i]? = some entry ∧ (entry.Success = false ↔ e ≠ none)) ∧
    MultiLiquidate Demo.keeper Demo.batchCtx Demo.liquidator Demo.malformedBatch =
      .panicked :=
  ⟨(MultiLiquidate_failures_captured Demo.keeper Demo.batchCtx Demo.liquidator
      Demo.batch).1 Demo.batch_no_panic,
   (MultiLiquidate_failures_captured Demo.keeper Demo.batchCtx Demo.liquidator
      Demo.malformedBatch).2 1 Demo.batchCtx ⟨Demo.pair, "not-bech32"⟩
      (Err.external "decoding bech32 failed") rfl rfl rfl⟩

/-! ## Rounding -/

theorem chopNonNeg_bound (d : Int) (_h : 0 ≤ d) :
    2 * (chopNonNeg d * precisionReuse - d) ≤ precisionReuse ∧
    -precisionReuse ≤ 2 * (chopNonNeg d * precisionReuse - d) := by
  unfold chopNonNeg precisionReuse fivePrecision
  simp only []
  split_ifs <;> omega

/-- Chopping 18 digits moves a value by at most half a unit. -/
theorem chopPrecisionAndRound_bound (d : Int) :
    2 * (chopPrecisionAndRound d * precisionReuse - d) ≤ precisionReuse ∧
    -precisionReuse ≤ 2 * (chopPrecisionAndRound d * precisionReuse - d) := by
  unfold chopPrecisionAndRound
  split_ifs with hneg
  · have hb := chopNonNeg_bound (-d) (by omega)
    unfold precisionReuse at hb ⊢
    omega
  · exact chopNonNeg_bound d (by omega)

/-- Halving with truncation moves twice the result by at most one. -/
theorem Dec.QuoInt64_two_bound (d : Int) :
    2 * Int.tdiv d 2 - d ≤ 1 ∧ -1 ≤ 2 * Int.tdiv d 2 - d := by
  rcases le_or_lt 0 d with h | h
  · rw [Int.tdiv_eq_ediv h (by decide)]
    omega
  · have hneg : Int.tdiv d 2 = -((-d) / 2) := by
      rw [← Int.tdiv_eq_ediv (by omega) (by decide), Int.neg_tdiv, neg_neg]
    rw [hneg]
    omega

/-! ## Full liquidation -/

/-- What a successful `executeFullLiquidation` went through: the trader
address decoded, the position was closed, a positive total bad debt was
realized, the rewards were distributed, the event was emitted, and the
response carries the rounded amounts. -/
theorem executeFullLiquidation_ok_inv (k : Keeper) (ctx : Context) (market : Market)
    (amm : AMM) (liquidator : AccAddress) (position : Position) (resp : LiquidateResp)
    (ctxOut : Context)
    (h : executeFullLiquidation k ctx market amm liquidator position = .done (.ok resp) ctxOut) :
    ∃ traderAddr positionResp ctx1 ctx2 ctx3 ev,
      k.AccAddressFromBech32 position.TraderAddress = .ok traderAddr ∧
      k.closePositionEntirely ctx market amm position Dec.Zero = (.ok positionResp, ctx1) ∧
      (if Dec.IsPositive (fullLiquidationAmounts market positionResp).totalBadDebt then
          k.realizeBadDebt ctx1 market
            (Dec.RoundInt (fullLiquidationAmounts market positionResp).totalBadDebt)
        else (none, ctx1)) = (none, ctx2) ∧
      distributeLiquidateRewards k ctx2 market resp = (none, ctx3) ∧
      positionLiquidatedEvent k ctx3 amm position.Pair traderAddr liquidator positionResp
        resp.FeeToLiquidator resp.FeeToPerpEcosystemFund resp.BadDebt = some ev ∧
      ctxOut = ctx3.EmitEvents [ev] ∧
      resp =
        { BadDebt := Dec.RoundInt (fullLiquidationAmounts market positionResp).totalBadDebt
          FeeToLiquidator :=
            Dec.RoundInt (fullLiquidationAmounts market positionResp).feeToLiquidator
          FeeToPerpEcosystemFund :=
            Dec.RoundInt (fullLiquidationAmounts market positionResp).feeToPerpEcosystemFund
          Liquidator := k.AccAddressString liquidator
          PositionResp := positionResp } := by
  unfold executeFullLiquidation at h
  cases haddr : k.AccAddressFromBech32 position.TraderAddress with
  | error e => simp [haddr] at h
  | ok traderAddr =>
    rcases hclose : k.closePositionEntirely ctx market amm position Dec.Zero with ⟨res, ctx1⟩
    cases res with
    | error e => simp [haddr, hclose] at h
    | ok positionResp =>
      simp only [haddr, hclose] at h
      rcases hreal : (if Dec.IsPositive (fullLiquidationAmounts market positionResp).totalBadDebt then
          k.realizeBadDebt ctx1 market
            (Dec.RoundInt (fullLiquidationAmounts market positionResp).totalBadDebt)
        else (none, ctx1)) with ⟨e2, ctx2⟩
      rw [hreal] at h
      cases e2 with
      | some e => simp at h
      | none =>
        simp only [] at h
        rcases hdist : distributeLiquidateRewards k ctx2 market
            { BadDebt := Dec.RoundInt (fullLiquidationAmounts market positionResp).totalBadDebt
              FeeToLiquidator :=
                Dec.RoundInt (fullLiquidationAmounts market positionResp).feeToLiquidator
              FeeToPerpEcosystemFund :=
                Dec.RoundInt (fullLiquidationAmounts market positionResp).feeToPerpEcosystemFund
              Liquidator := k.AccAddressString liquidator
              PositionResp := positionResp } with ⟨e3, ctx3⟩
        rw [hdist] at h
        cases e3 with
        | some e => simp at h
        | none =>
          simp only [] at h
          cases hev : positionLiquidatedEvent k ctx3 amm position.Pair traderAddr liquidator
              positionResp
              (Dec.RoundInt (fullLiquidationAmounts market positionResp).feeToLiquidator)
              (Dec.RoundInt (fullLiquidationAmounts market positionResp).feeToPerpEcosystemFund)
              (Dec.RoundInt (fullLiquidationAmounts market positionResp).totalBadDebt) with
          | none => rw [hev] at h; cases h
          | some ev =>
            rw [hev] at h
            simp only [Outcome.done.injEq, Except.ok.injEq] at h
            obtain ⟨hresp, hctx⟩ := h
            subst hresp
            exact ⟨traderAddr, positionResp, ctx1, ctx2, ctx3, ev, rfl, rfl, hreal, hdist, hev,
              hctx.symm, rfl⟩

/-- C8: in a full liquidation that succeeds, the liquidator fee before
rounding is `LiquidationFeeRatio.Mul(ExchangedNotionalValue).QuoInt64(2)` of
the close-position result, which lies within three quarters of `10^-18` of
the exact `LiquidationFeeRatio × ExchangedNotionalValue / 2`, and the
`FeeToLiquidator` of the response is that decimal rounded to the nearest
integer. -/
theorem executeFullLiquidation_fee (k : Keeper) (ctx : Context) (market : Market)
    (amm : AMM) (liquidator : AccAddress) (position : Position) (resp : LiquidateResp)
    (ctxOut : Context)
    (h : executeFullLiquidation k ctx market amm liquidator position = .done (.ok resp) ctxOut) :
    ∃ positionResp ctx1 feeToLiquidator,
      k.closePositionEntirely ctx market amm position Dec.Zero = (.ok positionResp, ctx1) ∧
      resp.PositionResp = positionResp ∧
      feeToLiquidator = (fullLiquidationAmounts market positionResp).feeToLiquidator ∧
      feeToLiquidator =
        Dec.QuoInt64
          (Dec.Mul market.LiquidationFeeRatio positionResp.ExchangedNotionalValue) 2 ∧
      2 * (2 * precisionReuse * feeToLiquidator
          - market.LiquidationFeeRatio * positionResp.ExchangedNotionalValue)
        ≤ 3 * precisionReuse ∧
      -(3 * precisionReuse) ≤
        2 * (2 * precisionReuse * feeToLiquidator
          - market.LiquidationFeeRatio * positionResp.ExchangedNotionalValue) ∧
      resp.FeeToLiquidator = Dec.RoundInt feeToLiquidator ∧
      2 * (resp.FeeToLiquidator * precisionReuse - feeToLiquidator) ≤ precisionReuse ∧
      -precisionReuse ≤ 2 * (resp.FeeToLiquidator * precisionReuse - feeToLiquidator) := by
  obtain ⟨traderAddr, positionResp, ctx1, ctx2, ctx3, ev, -, hclose, -, -, -, -, hresp⟩ :=
    executeFullLiquidation_ok_inv k ctx market amm liquidator position resp ctxOut h
  have hfee : (fullLiquidationAmounts market positionResp).feeToLiquidator =
      Dec.QuoInt64
        (Dec.Mul market.LiquidationFeeRatio positionResp.ExchangedNotionalValue) 2 := rfl
  have hround : resp.FeeToLiquidator =
      Dec.RoundInt (fullLiquidationAmounts market positionResp).feeToLiquidator := by
    rw [hresp]
  refine ⟨positionResp, ctx1, _, hclose, by rw [hresp], rfl, hfee, ?_, ?_, hround, ?_, ?_⟩
  · have hm := chopPrecisionAndRound_bound
      (market.LiquidationFeeRatio * positionResp.ExchangedNotionalValue)
    have hq := Dec.QuoInt64_two_bound
      (chopPrecisionAndRound (market.LiquidationFeeRatio * positionResp.ExchangedNotionalValue))
    rw [hfee]
    simp only [Dec.QuoInt64, Dec.Mul]
    generalize market.LiquidationFeeRatio * positionResp.ExchangedNotionalValue = x at hm hq ⊢
    unfold precisionReuse at hm ⊢
    omega
  · have hm := chopPrecisionAndRound_bound
      (market.LiquidationFeeRatio * positionResp.ExchangedNotionalValue)
    have hq := Dec.QuoInt64_two_bound
      (chopPrecisionAndRound (market.LiquidationFeeRatio * positionResp.ExchangedNotionalValue))
    rw [hfee]
    simp only [Dec.QuoInt64, Dec.Mul]
    generalize market.LiquidationFeeRatio * positionResp.ExchangedNotionalValue = x at hm hq ⊢
    unfold precisionReuse at hm ⊢
    omega
  · rw [hround]
    exact (chopPrecisionAndRound_bound _).1
  · rw [hround]
    exact (chopPrecisionAndRound_bound _).2

/-- The full liquidation of the example at price 0.91: notional 91, fee
`0.05 × 91 / 2 = 2.275`, reported as 2. -/
theorem executeFullLiquidation_fee_witness :
    ∃ resp ctxOut,
      executeFullLiquidation Demo.keeper Demo.fullCtx Demo.market
          (Demo.ammAt 910000000000000000) Demo.liquidator
          (Demo.longPosition "nibi1trader" 100 10) = .done (.ok resp) ctxOut ∧
      resp.FeeToLiquidator = 2 ∧
      ∃ positionResp ctx1 feeToLiquidator,
        Demo.keeper.closePositionEntirely Demo.fullCtx Demo.market
            (Demo.ammAt 910000000000000000) (Demo.longPosition "nibi1trader" 100 10)
            Dec.Zero = (.ok positionResp, ctx1) ∧
        resp.PositionResp = positionResp ∧
        feeToLiquidator = (fullLiquidationAmounts Demo.market positionResp).feeToLiquidator ∧
        feeToLiquidator =
          Dec.QuoInt64
            (Dec.Mul Demo.market.LiquidationFeeRatio positionResp.ExchangedNotionalValue) 2 ∧
        2 * (2 * precisionReuse * feeToLiquidator
            - Demo.market.LiquidationFeeRatio * positionResp.ExchangedNotionalValue)
          ≤ 3 * precisionReuse ∧
        -(3 * precisionReuse) ≤
          2 * (2 * precisionReuse * feeToLiquidator
            - Demo.market.LiquidationFeeRatio * positionResp.ExchangedNotionalValue) ∧
        resp.FeeToLiquidator = Dec.RoundInt feeToLiquidator ∧
        2 * (resp.FeeToLiquidator * precisionReuse - feeToLiquidator) ≤ precisionReuse ∧
        -precisionReuse ≤ 2 * (resp.FeeToLiquidator * precisionReuse - feeToLiquidator) :=
  ⟨_, _, rfl, by decide,
    executeFullLiquidation_fee Demo.keeper Demo.fullCtx Demo.market
      (Demo.ammAt 910000000000000000) Demo.liquidator
      (Demo.longPosition "nibi1trader" 100 10) _ _ rfl⟩

/-- C10: conservation of margin in a full liquidation, over the decimal
amounts before rounding.  For every market and close-position result, the
liquidator fee plus the ecosystem-fund fee equals the remaining margin
`|MarginToVault|` plus the shortfall `totalBadDebt − BadDebt`; the shortfall
is `max(fee − |MarginToVault|, 0)`, and the ecosystem-fund fee is
`max(|MarginToVault| − fee, 0)`. -/
theorem fullLiquidation_conservation (market : Market) (positionResp : PositionResp) :
    (fullLiquidationAmounts market positionResp).feeToLiquidator
        + (fullLiquidationAmounts market positionResp).feeToPerpEcosystemFund =
      Dec.Abs positionResp.MarginToVault
        + ((fullLiquidationAmounts market positionResp).totalBadDebt - positionResp.BadDebt) ∧
    (fullLiquidationAmounts market positionResp).totalBadDebt - positionResp.BadDebt =
      max ((fullLiquidationAmounts market positionResp).feeToLiquidator
        - Dec.Abs positionResp.MarginToVault) 0 ∧
    (fullLiquidationAmounts market positionResp).feeToPerpEcosystemFund =
      max (Dec.Abs positionResp.MarginToVault
        - (fullLiquidationAmounts market positionResp).feeToLiquidator) 0 := by
  simp only [fullLiquidationAmounts, Dec.GT, Dec.IsPositive, Dec.Add, Dec.Sub, Dec.Zero]
  generalize Dec.QuoInt64
    (Dec.Mul market.LiquidationFeeRatio positionResp.ExchangedNotionalValue) 2 = fee
  generalize Dec.Abs positionResp.MarginToVault = margin
  generalize positionResp.BadDebt = debt
  rcases le_or_lt fee margin with hle | hgt
  · have h1 : ¬ fee > margin := not_lt.mpr hle
    simp only [h1, decide_False, Bool.false_eq_true, if_false]
    rcases (sub_nonneg.mpr hle).eq_or_lt with h0 | hpos
    · rw [← h0]
      have hfm : fee = margin := by
        have := sub_eq_zero.mp h0.symm
        exact this.symm
      subst hfm
      simp
    · have h2 : margin - fee > 0 := hpos
      simp only [h2, decide_True, if_true]
      refine ⟨by ring, ?_, ?_⟩
      · rw [sub_self, max_eq_right (sub_nonpos.mpr hle)]
      · rw [max_eq_left hpos.le]
  · have h1 : fee > margin := hgt
    simp only [h1, decide_True, if_true]
    have h2 : ¬ ((0 : Int) > 0) := lt_irrefl 0
    simp only [h2, decide_False, Bool.false_eq_true, if_false]
    refine ⟨by ring, ?_, ?_⟩
    · rw [max_eq_left (sub_nonneg.mpr hgt.le)]
      ring
    · rw [max_eq_right (sub_nonpos.mpr hgt.le)]

/-- C9 fails on the code: in the example at price 0.91 the remaining margin
`|MarginToVault|` is 1, the fee is 2.275, and the liquidator is reported and
paid 2, more than the remaining margin; the shortfall is also counted as bad
debt (1.275, reported as 1). -/
theorem executeFullLiquidation_fee_exceeds_margin :
    ∃ resp ctxOut positionResp ctx1,
      executeFullLiquidation Demo.keeper Demo.fullCtx Demo.market
          (Demo.ammAt 910000000000000000) Demo.liquidator
          (Demo.longPosition "nibi1trader" 100 10) = .done (.ok resp) ctxOut ∧
      Demo.keeper.closePositionEntirely Demo.fullCtx Demo.market
          (Demo.ammAt 910000000000000000) (Demo.longPosition "nibi1trader" 100 10)
          Dec.Zero = (.ok positionResp, ctx1) ∧
      Dec.Abs positionResp.MarginToVault = Dec.New 1 ∧
      resp.FeeToLiquidator = 2 ∧
      resp.BadDebt = 1 ∧
      Dec.New resp.FeeToLiquidator > Dec.Abs positionResp.MarginToVault ∧
      Demo.balance Demo.fullCtx.store "nibi1liquidator" "unusd" = 0 ∧
      Demo.balance ctxOut.store "nibi1liquidator" "unusd" = 2 :=
  ⟨_, _, _, _, rfl, rfl, by decide, by decide, by decide, by decide, by decide, by decide⟩

/-- C9, as the code has it: the liquidator fee of a full liquidation is not
capped.  The response reports, and reward distribution is given, the whole
fee `LiquidationFeeRatio × ExchangedNotionalValue / 2` rounded, whatever the
remaining margin.  When the fee exceeds the remaining margin
`|MarginToVault|`, the shortfall is added to the bad debt and the ecosystem
fund gets nothing; otherwise the bad debt is that of the close and the
ecosystem fund gets the margin left after the fee. -/
theorem executeFullLiquidation_fee_not_capped (k : Keeper) (ctx : Context) (market : Market)
    (amm : AMM) (liquidator : AccAddress) (position : Position) (resp : LiquidateResp)
    (ctxOut : Context)
    (h : executeFullLiquidation k ctx market amm liquidator position = .done (.ok resp) ctxOut) :
    ∃ positionResp ctx1 ctx2 ctx3,
      k.closePositionEntirely ctx market amm position Dec.Zero = (.ok positionResp, ctx1) ∧
      distributeLiquidateRewards k ctx2 market resp = (none, ctx3) ∧
      resp.FeeToLiquidator =
        Dec.RoundInt
          (Dec.QuoInt64
            (Dec.Mul market.LiquidationFeeRatio positionResp.ExchangedNotionalValue) 2) ∧
      (Dec.QuoInt64 (Dec.Mul market.LiquidationFeeRatio positionResp.ExchangedNotionalValue) 2
            > Dec.Abs positionResp.MarginToVault →
        resp.BadDebt =
          Dec.RoundInt
            (positionResp.BadDebt +
              (Dec.QuoInt64
                  (Dec.Mul market.LiquidationFeeRatio positionResp.ExchangedNotionalValue) 2
                - Dec.Abs positionResp.MarginToVault)) ∧
        resp.FeeToPerpEcosystemFund = 0) ∧
      (Dec.QuoInt64 (Dec.Mul market.LiquidationFeeRatio positionResp.ExchangedNotionalValue) 2
            ≤ Dec.Abs positionResp.MarginToVault →
        resp.BadDebt = Dec.RoundInt positionResp.BadDebt ∧
        resp.FeeToPerpEcosystemFund =
          Dec.RoundInt
            (Dec.Abs positionResp.MarginToVault -
              Dec.QuoInt64
                (Dec.Mul market.LiquidationFeeRatio positionResp.ExchangedNotionalValue) 2)) := by
  obtain ⟨traderAddr, positionResp, ctx1, ctx2, ctx3, ev, -, hclose, -, hdist, -, -, hresp⟩ :=
    executeFullLiquidation_ok_inv k ctx market amm liquidator position resp ctxOut h
  refine ⟨positionResp, ctx1, ctx2, ctx3, hclose, hdist, by rw [hresp]; rfl, ?_, ?_⟩
  · intro hgt
    have hdec : Dec.GT
        (Dec.QuoInt64 (Dec.Mul market.LiquidationFeeRatio positionResp.ExchangedNotionalValue) 2)
        (Dec.Abs positionResp.MarginToVault) = true := by
      simp only [Dec.GT, decide_eq_true_eq]; exact hgt
    rw [hresp]
    simp only [fullLiquidationAmounts, hdec, if_true, Dec.Add, Dec.Sub, Dec.Zero,
      Dec.IsPositive]
    constructor
    · trivial
    · decide
  · intro hle
    have hdec : Dec.GT
        (Dec.QuoInt64 (Dec.Mul market.LiquidationFeeRatio positionResp.ExchangedNotionalValue) 2)
        (Dec.Abs positionResp.MarginToVault) = false := by
      simp only [Dec.GT, decide_eq_false_iff_not, not_lt]; exact hle
    rw [hresp]
    simp only [fullLiquidationAmounts, hdec, Bool.false_eq_true, if_false, Dec.Sub, Dec.Zero,
      Dec.IsPositive]
    refine ⟨trivial, ?_⟩
    rcases (sub_nonneg.mpr hle).eq_or_lt with h0 | hpos
    · rw [← h0]; rfl
    · have h2 : Dec.Abs positionResp.MarginToVault -
          Dec.QuoInt64
            (Dec.Mul market.LiquidationFeeRatio positionResp.ExchangedNotionalValue) 2 > 0 := hpos
      simp only [h2, decide_True, if_true]

/-- The full liquidation of the example at price 0.91, where the fee of
2.275 exceeds the remaining margin of 1. -/
theorem executeFullLiquidation_fee_not_capped_witness :
    ∃ resp ctxOut,
      executeFullLiquidation Demo.keeper Demo.fullCtx Demo.market
          (Demo.ammAt 910000000000000000) Demo.liquidator
          (Demo.longPosition "nibi1trader" 100 10) = .done (.ok resp) ctxOut ∧
      ∃ positionResp ctx1 ctx2 ctx3,
        Demo.keeper.closePositionEntirely Demo.fullCtx Demo.market
            (Demo.ammAt 910000000000000000) (Demo.longPosition "nibi1trader" 100 10)
            Dec.Zero = (.ok positionResp, ctx1) ∧
        distributeLiquidateRewards Demo.keeper ctx2 Demo.market resp = (none, ctx3) ∧
        resp.FeeToLiquidator =
          Dec.RoundInt
            (Dec.QuoInt64
              (Dec.Mul Demo.market.LiquidationFeeRatio positionResp.ExchangedNotionalValue) 2) ∧
        (Dec.QuoInt64
              (Dec.Mul Demo.market.LiquidationFeeRatio positionResp.ExchangedNotionalValue) 2
              > Dec.Abs positionResp.MarginToVault →
          resp.BadDebt =
            Dec.RoundInt
              (positionResp.BadDebt +
                (Dec.QuoInt64
                    (Dec.Mul Demo.market.LiquidationFeeRatio
                      positionResp.ExchangedNotionalValue) 2
                  - Dec.Abs positionResp.MarginToVault)) ∧
          resp.FeeToPerpEcosystemFund = 0) ∧
        (Dec.QuoInt64
              (Dec.Mul Demo.market.LiquidationFeeRatio positionResp.ExchangedNotionalValue) 2
              ≤ Dec.Abs positionResp.MarginToVault →
          resp.BadDebt = Dec.RoundInt positionResp.BadDebt ∧
          resp.FeeToPerpEcosystemFund =
            Dec.RoundInt
              (Dec.Abs positionResp.MarginToVault -
                Dec.QuoInt64
                  (Dec.Mul Demo.market.LiquidationFeeRatio
                    positionResp.ExchangedNotionalValue) 2)) :=
  ⟨_, _, rfl,
    executeFullLiquidation_fee_not_capped Demo.keeper Demo.fullCtx Demo.market
      (Demo.ammAt 910000000000000000) Demo.liquidator
      (Demo.longPosition "nibi1trader" 100 10) _ _ rfl⟩

/-! ## Partial liquidation -/

theorem mapGet_mapInsert_self {κ α : Type} [DecidableEq κ] (m : List (κ × α)) (key : κ)
    (val : α) : mapGet (mapInsert m key val) key = some val := by
  induction m with
  | nil => simp [mapInsert, mapGet]
  | cons e rest ih =>
    obtain ⟨k0, v0⟩ := e
    by_cases hk : k0 = key
    · simp [mapInsert, mapGet, hk]
    · simp [mapInsert, mapGet, hk, ih]

theorem mapGet_mapInsert_of_ne {κ α : Type} [DecidableEq κ] (m : List (κ × α)) (key other : κ)
    (val : α) (hne : key ≠ other) : mapGet (mapInsert m key val) other = mapGet m other := by
  induction m with
  | nil => simp [mapInsert, mapGet, hne]
  | cons e rest ih =>
    obtain ⟨k0, v0⟩ := e
    by_cases hk : k0 = key
    · subst hk
      simp [mapInsert, mapGet, hne]
    · by_cases ho : k0 = other
      · subst ho
        simp [mapInsert, mapGet, hk]
      · simp [mapInsert, mapGet, hk, ho, ih]

/-- What a successful `executePartialLiquidation` went through: the trader
address decoded, the AMM priced `Size_.Mul(PartialLiquidationRatio)`, the
position was decreased, the position with the fee taken off its margin was
stored, the rewards were distributed on the context that holds it, the event
was emitted, and the response carries the two rounded halves of the fee. -/
theorem executePartialLiquidation_ok_inv (k : Keeper) (ctx : Context) (market : Market)
    (amm : AMM) (liquidator : AccAddress) (currentPosition : Position) (resp : LiquidateResp)
    (ctxOut : Context)
    (h : executePartialLiquidation k ctx market amm liquidator currentPosition =
      .done (.ok resp) ctxOut) :
    ∃ traderAddr quoteReserveDelta decreased ctx1 ctx3 ev,
      k.AccAddressFromBech32 currentPosition.TraderAddress = .ok traderAddr ∧
      k.GetQuoteReserveAmt amm
          (Dec.Mul currentPosition.Size_ market.PartialLiquidationRatio)
          (if Dec.IsPositive currentPosition.Size_ then Direction.SHORT else Direction.LONG)
        = .ok quoteReserveDelta ∧
      k.decreasePosition ctx market amm currentPosition
          (k.FromQuoteReserveToAsset amm quoteReserveDelta) Dec.Zero true
        = (.ok decreased, ctx1) ∧
      distributeLiquidateRewards k
          { ctx1 with
            store :=
              { ctx1.store with
                Positions :=
                  mapInsert ctx1.store.Positions (decreased.Position.Pair, traderAddr)
                    resp.PositionResp.Position } }
          market resp = (none, ctx3) ∧
      positionLiquidatedEvent k ctx3 amm currentPosition.Pair traderAddr liquidator
        resp.PositionResp resp.FeeToLiquidator resp.FeeToPerpEcosystemFund resp.BadDebt
        = some ev ∧
      ctxOut = ctx3.EmitEvents [ev] ∧
      resp =
        { BadDebt := 0
          FeeToLiquidator :=
            Dec.RoundInt
              (Dec.QuoInt64
                (Dec.Mul (k.FromQuoteReserveToAsset amm quoteReserveDelta)
                  market.LiquidationFeeRatio) 2)
          FeeToPerpEcosystemFund :=
            Dec.RoundInt
              (Dec.Sub
                (Dec.Mul (k.FromQuoteReserveToAsset amm quoteReserveDelta)
                  market.LiquidationFeeRatio)
                (Dec.QuoInt64
                  (Dec.Mul (k.FromQuoteReserveToAsset amm quoteReserveDelta)
                    market.LiquidationFeeRatio) 2))
          Liquidator := k.AccAddressString liquidator
          PositionResp :=
            { decreased with
              Position :=
                { decreased.Position with
                  Margin :=
                    Dec.Sub decreased.Position.Margin
                      (Dec.Mul (k.FromQuoteReserveToAsset amm quoteReserveDelta)
                        market.LiquidationFeeRatio) } } } := by
  unfold executePartialLiquidation at h
  cases haddr : k.AccAddressFromBech32 currentPosition.TraderAddress with
  | error e => simp [haddr] at h
  | ok traderAddr =>
    simp only [haddr] at h
    cases hq : k.GetQuoteReserveAmt amm
        (Dec.Mul currentPosition.Size_ market.PartialLiquidationRatio)
        (if Dec.IsPositive currentPosition.Size_ then Direction.SHORT else Direction.LONG) with
    | error e => simp [hq] at h
    | ok quoteReserveDelta =>
      simp only [hq] at h
      rcases hdec : k.decreasePosition ctx market amm currentPosition
          (k.FromQuoteReserveToAsset amm quoteReserveDelta) Dec.Zero true with ⟨res, ctx1⟩
      cases res with
      | error e => simp [hdec] at h
      | ok decreased =>
        simp only [hdec] at h
        split at h
        · cases h
        · rename_i ctx3 hdist
          split at h
          · cases h
          · rename_i ev hev
            simp only [Outcome.done.injEq, Except.ok.injEq] at h
            obtain ⟨hresp, hctx⟩ := h
            subst hresp
            exact ⟨traderAddr, quoteReserveDelta, decreased, ctx1, ctx3, ev, rfl, rfl, hdec,
              hdist, hev, hctx.symm, rfl⟩

/-- C12: in a partial liquidation that succeeds, the position written under
the key of (pair of the decreased position, trader) is the position
`decreasePosition` returned with its margin reduced by
`quoteAssetDelta.Mul(LiquidationFeeRatio)` and every other field unchanged,
where `quoteAssetDelta` is the quote amount exchanged to reduce the position.
It is in the store when the rewards are distributed, and it is the stored
position afterwards when the reward transfers leave the positions alone. -/
theorem executePartialLiquidation_stored_position (k : Keeper) (ctx : Context)
    (market : Market) (amm : AMM) (liquidator : AccAddress) (currentPosition : Position)
    (resp : LiquidateResp) (ctxOut : Context)
    (h : executePartialLiquidation k ctx market amm liquidator currentPosition =
      .done (.ok resp) ctxOut) :
    ∃ traderAddr quoteReserveDelta quoteAssetDelta decreased ctx1 ctx2 ctx3 stored,
      k.AccAddressFromBech32 currentPosition.TraderAddress = .ok traderAddr ∧
      k.GetQuoteReserveAmt amm
          (Dec.Mul currentPosition.Size_ market.PartialLiquidationRatio)
          (if Dec.IsPositive currentPosition.Size_ then Direction.SHORT else Direction.LONG)
        = .ok quoteReserveDelta ∧
      quoteAssetDelta = k.FromQuoteReserveToAsset amm quoteReserveDelta ∧
      k.decreasePosition ctx market amm currentPosition quoteAssetDelta Dec.Zero true
        = (.ok decreased, ctx1) ∧
      stored =
        { decreased.Position with
          Margin :=
            decreased.Position.Margin - Dec.Mul quoteAssetDelta market.LiquidationFeeRatio } ∧
      resp.PositionResp.Position = stored ∧
      ctx2 =
        { ctx1 with
          store :=
            { ctx1.store with
              Positions :=
                mapInsert ctx1.store.Positions (decreased.Position.Pair, traderAddr) stored } } ∧
      mapGet ctx2.store.Positions (decreased.Position.Pair, traderAddr) = some stored ∧
      distributeLiquidateRewards k ctx2 market resp = (none, ctx3) ∧
      ctxOut.store = ctx3.store ∧
      (ctx3.store.Positions = ctx2.store.Positions →
        mapGet ctxOut.store.Positions (decreased.Position.Pair, traderAddr) = some stored) := by
  obtain ⟨traderAddr, quoteReserveDelta, decreased, ctx1, ctx3, ev, haddr, hq, hdec, hdist, -,
    hctx, hresp⟩ := executePartialLiquidation_ok_inv k ctx market amm liquidator
      currentPosition resp ctxOut h
  have hpos : resp.PositionResp.Position =
      { decreased.Position with
        Margin :=
          decreased.Position.Margin -
            Dec.Mul (k.FromQuoteReserveToAsset amm quoteReserveDelta)
              market.LiquidationFeeRatio } := by
    rw [hresp]; rfl
  rw [hpos] at hdist
  refine ⟨traderAddr, quoteReserveDelta, _, decreased, ctx1, _, ctx3, _, haddr, hq, rfl, hdec,
    rfl, hpos, rfl, mapGet_mapInsert_self _ _ _, hdist, by rw [hctx]; rfl, ?_⟩
  intro hframe
  rw [hctx]
  show mapGet ctx3.store.Positions _ = _
  rw [hframe]
  exact mapGet_mapInsert_self _ _ _

/-- The partial liquidation of the example at price 0.95: the stored
position has margin `10 − 47.5 × 0.05 = 7.625`. -/
theorem executePartialLiquidation_stored_position_witness :
    ∃ resp ctxOut,
      executePartialLiquidation Demo.keeper Demo.partialCtx Demo.market
          (Demo.ammAt 950000000000000000) Demo.liquidator
          (Demo.longPosition "nibi1trader" 100 10) = .done (.ok resp) ctxOut ∧
      (mapGet ctxOut.store.Positions (Demo.pair, Demo.trader)).map (fun p => p.Margin) =
        some 7625000000000000000 ∧
      ∃ traderAddr quoteReserveDelta quoteAssetDelta decreased ctx1 ctx2 ctx3 stored,
        Demo.keeper.AccAddressFromBech32 "nibi1trader" = .ok traderAddr ∧
        Demo.keeper.GetQuoteReserveAmt (Demo.ammAt 950000000000000000)
            (Dec.Mul (Demo.longPosition "nibi1trader" 100 10).Size_
              Demo.market.PartialLiquidationRatio)
            (if Dec.IsPositive (Demo.longPosition "nibi1trader" 100 10).Size_ then
              Direction.SHORT else Direction.LONG)
          = .ok quoteReserveDelta ∧
        quoteAssetDelta =
          Demo.keeper.FromQuoteReserveToAsset (Demo.ammAt 950000000000000000)
            quoteReserveDelta ∧
        Demo.keeper.decreasePosition Demo.partialCtx Demo.market
            (Demo.ammAt 950000000000000000) (Demo.longPosition "nibi1trader" 100 10)
            quoteAssetDelta Dec.Zero true
          = (.ok decreased, ctx1) ∧
        stored =
          { decreased.Position with
            Margin :=
              decreased.Position.Margin
                - Dec.Mul quoteAssetDelta Demo.market.LiquidationFeeRatio } ∧
        resp.PositionResp.Position = stored ∧
        ctx2 =
          { ctx1 with
            store :=
              { ctx1.store with
                Positions :=
                  mapInsert ctx1.store.Positions (decreased.Position.Pair, traderAddr)
                    stored } } ∧
        mapGet ctx2.store.Positions (decreased.Position.Pair, traderAddr) = some stored ∧
        distributeLiquidateRewards Demo.keeper ctx2 Demo.market resp = (none, ctx3) ∧
        ctxOut.store = ctx3.store ∧
        (ctx3.store.Positions = ctx2.store.Positions →
          mapGet ctxOut.store.Positions (decreased.Position.Pair, traderAddr) = some stored) :=
  ⟨_, _, rfl, by decide,
    executePartialLiquidation_stored_position Demo.keeper Demo.partialCtx Demo.market
      (Demo.ammAt 950000000000000000) Demo.liquidator
      (Demo.longPosition "nibi1trader" 100 10) _ _ rfl⟩

/-! ## Bad debt and rewards -/

/-- C11: in a full liquidation whose total bad debt (the bad debt of the close
plus the fee shortfall) is positive, `realizeBadDebt` runs on the context the
close left.  If it fails, the liquidation returns its error with no response
and the context is the one `realizeBadDebt` left: no reward was distributed.
If it succeeds, `distributeLiquidateRewards` runs on the context
`realizeBadDebt` left, so the rewards come after the realization. -/
theorem executeFullLiquidation_bad_debt_first (k : Keeper) (ctx : Context) (market : Market)
    (amm : AMM) (liquidator : AccAddress) (position : Position) (traderAddr : AccAddress)
    (positionResp : PositionResp) (ctx1 : Context)
    (haddr : k.AccAddressFromBech32 position.TraderAddress = .ok traderAddr)
    (hclose : k.closePositionEntirely ctx market amm position Dec.Zero = (.ok positionResp, ctx1))
    (hdebt : (fullLiquidationAmounts market positionResp).totalBadDebt > 0) :
    (∀ err ctx2,
      k.realizeBadDebt ctx1 market
          (Dec.RoundInt (fullLiquidationAmounts market positionResp).totalBadDebt)
        = (some err, ctx2) →
      executeFullLiquidation k ctx market amm liquidator position = .done (.error err) ctx2) ∧
    (∀ ctx2,
      k.realizeBadDebt ctx1 market
          (Dec.RoundInt (fullLiquidationAmounts market positionResp).totalBadDebt)
        = (none, ctx2) →
      executeFullLiquidation k ctx market amm liquidator position =
        match distributeLiquidateRewards k ctx2 market
            { BadDebt := Dec.RoundInt (fullLiquidationAmounts market positionResp).totalBadDebt
              FeeToLiquidator :=
                Dec.RoundInt (fullLiquidationAmounts market positionResp).feeToLiquidator
              FeeToPerpEcosystemFund :=
                Dec.RoundInt (fullLiquidationAmounts market positionResp).feeToPerpEcosystemFund
              Liquidator := k.AccAddressString liquidator
              PositionResp := positionResp } with
        | (some err, ctx3) => .done (.error err) ctx3
        | (none, ctx3) =>
          match positionLiquidatedEvent k ctx3 amm position.Pair traderAddr liquidator
              positionResp
              (Dec.RoundInt (fullLiquidationAmounts market positionResp).feeToLiquidator)
              (Dec.RoundInt (fullLiquidationAmounts market positionResp).feeToPerpEcosystemFund)
              (Dec.RoundInt (fullLiquidationAmounts market positionResp).totalBadDebt) with
          | none => .panicked
          | some ev =>
            .done
              (.ok
                { BadDebt :=
                    Dec.RoundInt (fullLiquidationAmounts market positionResp).totalBadDebt
                  FeeToLiquidator :=
                    Dec.RoundInt (fullLiquidationAmounts market positionResp).feeToLiquidator
                  FeeToPerpEcosystemFund :=
                    Dec.RoundInt
                      (fullLiquidationAmounts market positionResp).feeToPerpEcosystemFund
                  Liquidator := k.AccAddressString liquidator
                  PositionResp := positionResp })
              (ctx3.EmitEvents [ev])) := by
  have hpos : Dec.IsPositive (fullLiquidationAmounts market positionResp).totalBadDebt = true := by
    simp only [Dec.IsPositive, decide_eq_true_eq]; exact hdebt
  constructor
  · intro err ctx2 hreal
    simp only [executeFullLiquidation, haddr, hclose, hpos, if_true, hreal]
  · intro ctx2 hreal
    simp only [executeFullLiquidation, haddr, hclose, hpos, if_true, hreal]

/-- With an empty ecosystem fund the bad debt of the example at price 0.91
cannot be realized: the liquidation returns that error, and the balances are
the ones it started with, the liquidator's included. -/
theorem executeFullLiquidation_bad_debt_first_witness :
    ∃ ctx2,
      executeFullLiquidation Demo.keeper Demo.brokeFundCtx Demo.market
          (Demo.ammAt 910000000000000000) Demo.liquidator
          (Demo.longPosition "nibi1trader" 100 10) =
        .done (.error (Err.external "insufficient funds")) ctx2 ∧
      ctx2.store.Balances = Demo.brokeFundCtx.store.Balances ∧
      Demo.balance ctx2.store "nibi1liquidator" "unusd" = 0 :=
  ⟨_,
    (executeFullLiquidation_bad_debt_first Demo.keeper Demo.brokeFundCtx Demo.market
      (Demo.ammAt 910000000000000000) Demo.liquidator
      (Demo.longPosition "nibi1trader" 100 10) Demo.trader _ _ rfl rfl (by decide)).1
      (Err.external "insufficient funds") _ rfl,
    by decide, by decide⟩

/-- C16: reward distribution comes after the accounting and its failure aborts
the liquidation.  In the full path `distributeLiquidateRewards` runs on the
context left by the close (and the bad-debt realization); in the partial path
it runs on the context in which the position has been stored again.  When it
returns an error, the path returns that error with no response, `liquidate`
returns it with both fee coins empty, and the loop of `MultiLiquidate` records
a failed entry and goes on from the outer context it had, so that nothing of
the attempt is committed. -/
theorem distributeLiquidateRewards_failure_aborts (k : Keeper) (ctx : Context)
    (market : Market) (amm : AMM) (liquidator : AccAddress) (position : Position) :
    (∀ traderAddr positionResp ctx1 ctx2 err ctx3,
      k.AccAddressFromBech32 position.TraderAddress = .ok traderAddr →
      k.closePositionEntirely ctx market amm position Dec.Zero = (.ok positionResp, ctx1) →
      (if Dec.IsPositive (fullLiquidationAmounts market positionResp).totalBadDebt then
          k.realizeBadDebt ctx1 market
            (Dec.RoundInt (fullLiquidationAmounts market positionResp).totalBadDebt)
        else (none, ctx1)) = (none, ctx2) →
      distributeLiquidateRewards k ctx2 market
          { BadDebt := Dec.RoundInt (fullLiquidationAmounts market positionResp).totalBadDebt
            FeeToLiquidator :=
              Dec.RoundInt (fullLiquidationAmounts market positionResp).feeToLiquidator
            FeeToPerpEcosystemFund :=
              Dec.RoundInt (fullLiquidationAmounts market positionResp).feeToPerpEcosystemFund
            Liquidator := k.AccAddressString liquidator
            PositionResp := positionResp } = (some err, ctx3) →
      executeFullLiquidation k ctx market amm liquidator position = .done (.error err) ctx3) ∧
    (∀ traderAddr quoteReserveDelta decreased ctx1 err ctx3,
      k.AccAddressFromBech32 position.TraderAddress = .ok traderAddr →
      k.GetQuoteReserveAmt amm (Dec.Mul position.Size_ market.PartialLiquidationRatio)
          (if Dec.IsPositive position.Size_ then Direction.SHORT else Direction.LONG)
        = .ok quoteReserveDelta →
      k.decreasePosition ctx market amm position
          (k.FromQuoteReserveToAsset amm quoteReserveDelta) Dec.Zero true
        = (.ok decreased, ctx1) →
      distributeLiquidateRewards k
          { ctx1 with
            store :=
              { ctx1.store with
                Positions :=
                  mapInsert ctx1.store.Positions (decreased.Position.Pair, traderAddr)
                    { decreased.Position with
                      Margin :=
                        Dec.Sub decreased.Position.Margin
                          (Dec.Mul (k.FromQuoteReserveToAsset amm quoteReserveDelta)
                            market.LiquidationFeeRatio) } } }
          market
          { BadDebt := 0
            FeeToLiquidator :=
              Dec.RoundInt
                (Dec.QuoInt64
                  (Dec.Mul (k.FromQuoteReserveToAsset amm quoteReserveDelta)
                    market.LiquidationFeeRatio) 2)
            FeeToPerpEcosystemFund :=
              Dec.RoundInt
                (Dec.Sub
                  (Dec.Mul (k.FromQuoteReserveToAsset amm quoteReserveDelta)
                    market.LiquidationFeeRatio)
                  (Dec.QuoInt64
                    (Dec.Mul (k.FromQuoteReserveToAsset amm quoteReserveDelta)
                      market.LiquidationFeeRatio) 2))
            Liquidator := k.AccAddressString liquidator
            PositionResp :=
              { decreased with
                Position :=
                  { decreased.Position with
                    Margin :=
                      Dec.Sub decreased.Position.Margin
                        (Dec.Mul (k.FromQuoteReserveToAsset amm quoteReserveDelta)
                          market.LiquidationFeeRatio) } } } = (some err, ctx3) →
      executePartialLiquidation k ctx market amm liquidator position =
        .done (.error err) ctx3) ∧
    (∀ pair err ctx3,
      liquidateReturn pair (.done (.error err) ctx3) =
        .done (Coin.empty, Coin.empty, some err) ctx3) ∧
    (∀ req rest outerCtx resp allFailed liquidatorFee perpEfFee err cachedCtx,
      MultiLiquidate.attempt k outerCtx liquidator req =
        .done (liquidatorFee, perpEfFee, some err) cachedCtx →
      MultiLiquidate.loop k liquidator (req :: rest) outerCtx resp allFailed =
        MultiLiquidate.loop k liquidator rest outerCtx
          (resp ++ [{ Success := false, Error := k.ErrorString err,
                      LiquidatorFee := Coin.empty, PerpEfFee := Coin.empty }])
          allFailed) := by
  refine ⟨?_, ?_, ?_, ?_⟩
  · intro traderAddr positionResp ctx1 ctx2 err ctx3 haddr hclose hreal hdist
    simp only [executeFullLiquidation, haddr, hclose, hreal, hdist]
  · intro traderAddr quoteReserveDelta decreased ctx1 err ctx3 haddr hq hdec hdist
    simp only [executePartialLiquidation, haddr, hq, hdec, hdist]
  · intro pair err ctx3
    rfl
  · intro req rest outerCtx resp allFailed liquidatorFee perpEfFee err cachedCtx hat
    simp only [MultiLiquidate.loop, hat]

/-- With an empty vault the rewards of the partial liquidation at price 0.95
cannot be paid: the path returns the bank's error, `liquidate` returns it
with empty coins, and `MultiLiquidate` reports the item failed and leaves the
outer context as it was. -/
theorem distributeLiquidateRewards_failure_aborts_witness :
    (∃ ctx3,
      executePartialLiquidation Demo.keeper Demo.emptyVaultCtx Demo.market
          (Demo.ammAt 950000000000000000) Demo.liquidator
          (Demo.longPosition "nibi1trader" 100 10) =
        .done (.error (Err.external "insufficient funds")) ctx3) ∧
    (∃ ctx3,
      liquidate Demo.keeper Demo.emptyVaultCtx Demo.liquidator Demo.pair Demo.trader =
        .done (Coin.empty, Coin.empty, some (Err.external "insufficient funds")) ctx3) ∧
    MultiLiquidate Demo.keeper Demo.emptyVaultCtx Demo.liquidator [⟨Demo.pair, "nibi1trader"⟩] =
      .done
        ([{ Success := false, Error := "insufficient funds",
            LiquidatorFee := Coin.empty, PerpEfFee := Coin.empty }],
          some (Err.ErrAllLiquidationsFailed 1))
        Demo.emptyVaultCtx :=
  ⟨⟨_, (distributeLiquidateRewards_failure_aborts Demo.keeper Demo.emptyVaultCtx Demo.market
      (Demo.ammAt 950000000000000000) Demo.liquidator
      (Demo.longPosition "nibi1trader" 100 10)).2.1 Demo.trader _ _ _
      (Err.external "insufficient funds") _ rfl rfl rfl rfl⟩,
   ⟨_, rfl⟩,
   by decide⟩

/-! ## The split of the partial-liquidation fee -/

/-- Halving a fee with truncation and taking the rest: the two shares add up
to the fee and differ by at most one unit of `10^-18`; their roundings to
integers differ by at most one, and add up to the fee within one. -/
theorem fee_split_bounds (fee : Int) :
    Int.tdiv fee 2 + (fee - Int.tdiv fee 2) = fee ∧
    (fee - Int.tdiv fee 2) - Int.tdiv fee 2 ≤ 1 ∧
    -1 ≤ (fee - Int.tdiv fee 2) - Int.tdiv fee 2 ∧
    chopPrecisionAndRound (fee - Int.tdiv fee 2) - chopPrecisionAndRound (Int.tdiv fee 2) ≤ 1 ∧
    -1 ≤ chopPrecisionAndRound (fee - Int.tdiv fee 2)
      - chopPrecisionAndRound (Int.tdiv fee 2) ∧
    (chopPrecisionAndRound (Int.tdiv fee 2) + chopPrecisionAndRound (fee - Int.tdiv fee 2))
        * precisionReuse - fee ≤ precisionReuse ∧
    -precisionReuse ≤
      (chopPrecisionAndRound (Int.tdiv fee 2) + chopPrecisionAndRound (fee - Int.tdiv fee 2))
        * precisionReuse - fee := by
  have hq := Dec.QuoInt64_two_bound fee
  have ha := chopPrecisionAndRound_bound (Int.tdiv fee 2)
  have hb := chopPrecisionAndRound_bound (fee - Int.tdiv fee 2)
  generalize chopPrecisionAndRound (Int.tdiv fee 2) = ra at ha ⊢
  generalize chopPrecisionAndRound (fee - Int.tdiv fee 2) = rb at hb ⊢
  generalize Int.tdiv fee 2 = a at hq ha hb ⊢
  unfold precisionReuse at ha hb ⊢
  refine ⟨by omega, by omega, by omega, by omega, by omega, by omega, by omega⟩

/-- C13 fails on the code: the partial liquidation of the odd-fee example
deducts a fee of 1.000000000000000001 from the margin; its halves are 0.5 and
0.500000000000000001, reported as 0 to the liquidator and 1 to the ecosystem
fund: the reported fees are not equal and do not add up to the fee. -/
theorem executePartialLiquidation_unequal_split :
    ∃ resp ctxOut,
      executePartialLiquidation Demo.keeper Demo.oddFeeCtx Demo.market
          (Demo.ammAt 1000000000000000000) Demo.liquidator Demo.oddFeePosition =
        .done (.ok resp) ctxOut ∧
      Demo.oddFeePosition.Margin - resp.PositionResp.Position.Margin = 1000000000000000001 ∧
      resp.FeeToLiquidator = 0 ∧
      resp.FeeToPerpEcosystemFund = 1 ∧
      resp.FeeToLiquidator ≠ resp.FeeToPerpEcosystemFund ∧
      Dec.New (resp.FeeToLiquidator + resp.FeeToPerpEcosystemFund) ≠
        Demo.oddFeePosition.Margin - resp.PositionResp.Position.Margin :=
  ⟨_, _, rfl, by decide, by decide, by decide, by decide, by decide⟩

/-- C13, as the code has it: in a partial liquidation that succeeds, the fee
`quoteAssetDelta.Mul(LiquidationFeeRatio)` deducted from the margin is split
before rounding into `fee.QuoInt64(2)` for the liquidator and the rest for the
ecosystem fund.  The two decimal shares add up to the fee exactly and differ
by at most `10^-18`.  The response reports each share rounded to the nearest
integer, so the two reported fees differ by at most 1 and add up to the fee
within 1. -/
theorem executePartialLiquidation_fee_split (k : Keeper) (ctx : Context)
    (market : Market) (amm : AMM) (liquidator : AccAddress) (currentPosition : Position)
    (resp : LiquidateResp) (ctxOut : Context)
    (h : executePartialLiquidation k ctx market amm liquidator currentPosition =
      .done (.ok resp) ctxOut) :
    ∃ quoteAssetDelta decreased ctx1 liquidationFeeAmount feeToLiquidator
        feeToPerpEcosystemFund,
      k.decreasePosition ctx market amm currentPosition quoteAssetDelta Dec.Zero true
        = (.ok decreased, ctx1) ∧
      liquidationFeeAmount = Dec.Mul quoteAssetDelta market.LiquidationFeeRatio ∧
      resp.PositionResp.Position.Margin = decreased.Position.Margin - liquidationFeeAmount ∧
      feeToLiquidator = Dec.QuoInt64 liquidationFeeAmount 2 ∧
      feeToPerpEcosystemFund = liquidationFeeAmount - feeToLiquidator ∧
      feeToLiquidator + feeToPerpEcosystemFund = liquidationFeeAmount ∧
      feeToPerpEcosystemFund - feeToLiquidator ≤ 1 ∧
      -1 ≤ feeToPerpEcosystemFund - feeToLiquidator ∧
      resp.FeeToLiquidator = Dec.RoundInt feeToLiquidator ∧
      resp.FeeToPerpEcosystemFund = Dec.RoundInt feeToPerpEcosystemFund ∧
      resp.FeeToPerpEcosystemFund - resp.FeeToLiquidator ≤ 1 ∧
      -1 ≤ resp.FeeToPerpEcosystemFund - resp.FeeToLiquidator ∧
      (resp.FeeToLiquidator + resp.FeeToPerpEcosystemFund) * precisionReuse
          - liquidationFeeAmount ≤ precisionReuse ∧
      -precisionReuse ≤
        (resp.FeeToLiquidator + resp.FeeToPerpEcosystemFund) * precisionReuse
          - liquidationFeeAmount := by
  obtain ⟨traderAddr, quoteReserveDelta, decreased, ctx1, ctx3, ev, -, -, hdec, -, -, -,
    hresp⟩ := executePartialLiquidation_ok_inv k ctx market amm liquidator
      currentPosition resp ctxOut h
  obtain ⟨h1, h2, h3, h4, h5, h6, h7⟩ :=
    fee_split_bounds
      (Dec.Mul (k.FromQuoteReserveToAsset amm quoteReserveDelta) market.LiquidationFeeRatio)
  have hl : resp.FeeToLiquidator =
      chopPrecisionAndRound (Int.tdiv
        (Dec.Mul (k.FromQuoteReserveToAsset amm quoteReserveDelta)
          market.LiquidationFeeRatio) 2) := by
    rw [hresp]; rfl
  have he : resp.FeeToPerpEcosystemFund =
      chopPrecisionAndRound
        (Dec.Mul (k.FromQuoteReserveToAsset amm quoteReserveDelta) market.LiquidationFeeRatio
          - Int.tdiv
            (Dec.Mul (k.FromQuoteReserveToAsset amm quoteReserveDelta)
              market.LiquidationFeeRatio) 2) := by
    rw [hresp]; rfl
  refine ⟨_, decreased, ctx1, _, _, _, hdec, rfl, by rw [hresp]; rfl, rfl, rfl, h1, h2, h3,
    hl, he, ?_, ?_, ?_, ?_⟩
  · rw [hl, he]; exact h4
  · rw [hl, he]; exact h5
  · rw [hl, he]; exact h6
  · rw [hl, he]; exact h7

/-- The partial liquidation of the odd-fee example: shares 0.5 and
0.500000000000000001 of a fee of 1.000000000000000001. -/
theorem executePartialLiquidation_fee_split_witness :
    ∃ resp ctxOut,
      executePartialLiquidation Demo.keeper Demo.oddFeeCtx Demo.market
          (Demo.ammAt 1000000000000000000) Demo.liquidator Demo.oddFeePosition =
        .done (.ok resp) ctxOut ∧
      ∃ quoteAssetDelta decreased ctx1 liquidationFeeAmount feeToLiquidator
          feeToPerpEcosystemFund,
        Demo.keeper.decreasePosition Demo.oddFeeCtx Demo.market
            (Demo.ammAt 1000000000000000000) Demo.oddFeePosition quoteAssetDelta Dec.Zero true
          = (.ok decreased, ctx1) ∧
        liquidationFeeAmount = Dec.Mul quoteAssetDelta Demo.market.LiquidationFeeRatio ∧
        resp.PositionResp.Position.Margin = decreased.Position.Margin - liquidationFeeAmount ∧
        feeToLiquidator = Dec.QuoInt64 liquidationFeeAmount 2 ∧
        feeToPerpEcosystemFund = liquidationFeeAmount - feeToLiquidator ∧
        feeToLiquidator + feeToPerpEcosystemFund = liquidationFeeAmount ∧
        feeToPerpEcosystemFund - feeToLiquidator ≤ 1 ∧
        -1 ≤ feeToPerpEcosystemFund - feeToLiquidator ∧
        resp.FeeToLiquidator = Dec.RoundInt feeToLiquidator ∧
        resp.FeeToPerpEcosystemFund = Dec.RoundInt feeToPerpEcosystemFund ∧
        resp.FeeToPerpEcosystemFund - resp.FeeToLiquidator ≤ 1 ∧
        -1 ≤ resp.FeeToPerpEcosystemFund - resp.FeeToLiquidator ∧
        (resp.FeeToLiquidator + resp.FeeToPerpEcosystemFund) * precisionReuse
            - liquidationFeeAmount ≤ precisionReuse ∧
        -precisionReuse ≤
          (resp.FeeToLiquidator + resp.FeeToPerpEcosystemFund) * precisionReuse
            - liquidationFeeAmount :=
  ⟨_, _, rfl,
    executePartialLiquidation_fee_split Demo.keeper Demo.oddFeeCtx Demo.market
      (Demo.ammAt 1000000000000000000) Demo.liquidator Demo.oddFeePosition _ _ rfl⟩

/-! ## The margin after a partial liquidation -/

/-- An emitted `PositionLiquidatedEvent` means none of its four coins had a
negative amount. -/
theorem positionLiquidatedEvent_some (k : Keeper) (ctx : Context) (amm : AMM) (pair : Pair)
    (traderAddr liquidator : AccAddress) (positionResp : PositionResp)
    (feeToLiquidator feeToPerpEcosystemFund badDebt : SdkInt) (ev : Event)
    (h : positionLiquidatedEvent k ctx amm pair traderAddr liquidator positionResp
      feeToLiquidator feeToPerpEcosystemFund badDebt = some ev) :
    0 ≤ feeToLiquidator ∧ 0 ≤ feeToPerpEcosystemFund ∧ 0 ≤ badDebt ∧
      0 ≤ Dec.RoundInt positionResp.Position.Margin := by
  unfold positionLiquidatedEvent NewCoin at h
  refine ⟨?_, ?_, ?_, ?_⟩ <;>
  · by_contra hneg
    rw [not_le] at hneg
    simp [hneg] at h

/-- C14 fails on the code: the example position has spot margin ratio 5.09%,
at least the liquidation fee ratio of 5% and below the maintenance ratio, so
`liquidate` takes the partial path; the decrease leaves a margin of 2.6, the
fee is 2.75, and the position stored afterwards has margin −0.15. -/
theorem executePartialLiquidation_negative_margin :
    Demo.settlingKeeper.PositionNotionalSpot (Demo.ammAt 1100000000000000000)
      Demo.indebtedPosition = .ok (Dec.New 110) ∧
    Demo.settlingKeeper.MarginRatio Demo.indebtedPosition (Dec.New 110)
      Demo.fundedMarket.LatestCumulativePremiumFraction ≥ Demo.fundedMarket.LiquidationFeeRatio ∧
    liquidate Demo.settlingKeeper Demo.fundingCtx Demo.liquidator Demo.pair Demo.trader =
      liquidateReturn Demo.pair
        (executePartialLiquidation Demo.settlingKeeper Demo.fundingCtx Demo.fundedMarket
          (Demo.ammAt 1100000000000000000) Demo.liquidator Demo.indebtedPosition) ∧
    ∃ resp ctxOut,
      executePartialLiquidation Demo.settlingKeeper Demo.fundingCtx Demo.fundedMarket
          (Demo.ammAt 1100000000000000000) Demo.liquidator Demo.indebtedPosition =
        .done (.ok resp) ctxOut ∧
      (mapGet ctxOut.store.Positions (Demo.pair, Demo.trader)).map (fun p => p.Margin) =
        some (-150000000000000000) ∧
      resp.PositionResp.Position.Margin < 0 :=
  ⟨rfl, by decide, by decide, _, _, rfl, by decide, by decide⟩

/-- C14, as the code has it: a partial liquidation that succeeds reports a bad
debt of 0.  The margin of the position it stores is the margin
`decreasePosition` returned minus the fee `quoteAssetDelta.Mul(LiquidationFeeRatio)`,
with no floor: it is non-negative exactly when the margin returned covers the
fee.  What the code itself ensures is that the stored margin rounds to a
non-negative integer, that is, it is at least −0.5: otherwise the margin coin
of the event panics. -/
theorem executePartialLiquidation_margin_and_bad_debt (k : Keeper) (ctx : Context)
    (market : Market) (amm : AMM) (liquidator : AccAddress) (currentPosition : Position)
    (resp : LiquidateResp) (ctxOut : Context)
    (h : executePartialLiquidation k ctx market amm liquidator currentPosition =
      .done (.ok resp) ctxOut) :
    resp.BadDebt = 0 ∧
    ∃ quoteAssetDelta decreased ctx1,
      k.decreasePosition ctx market amm currentPosition quoteAssetDelta Dec.Zero true
        = (.ok decreased, ctx1) ∧
      resp.PositionResp.Position.Margin =
        decreased.Position.Margin - Dec.Mul quoteAssetDelta market.LiquidationFeeRatio ∧
      (0 ≤ resp.PositionResp.Position.Margin ↔
        Dec.Mul quoteAssetDelta market.LiquidationFeeRatio ≤ decreased.Position.Margin) ∧
      0 ≤ Dec.RoundInt resp.PositionResp.Position.Margin ∧
      -fivePrecision ≤ resp.PositionResp.Position.Margin := by
  obtain ⟨traderAddr, quoteReserveDelta, decreased, ctx1, ctx3, ev, -, -, hdec, -, hev, -,
    hresp⟩ := executePartialLiquidation_ok_inv k ctx market amm liquidator
      currentPosition resp ctxOut h
  have hround := (positionLiquidatedEvent_some k ctx3 amm currentPosition.Pair traderAddr
    liquidator resp.PositionResp resp.FeeToLiquidator resp.FeeToPerpEcosystemFund
    resp.BadDebt ev hev).2.2.2
  have hmargin : resp.PositionResp.Position.Margin =
      decreased.Position.Margin -
        Dec.Mul (k.FromQuoteReserveToAsset amm quoteReserveDelta)
          market.LiquidationFeeRatio := by
    rw [hresp]; rfl
  refine ⟨by rw [hresp], _, decreased, ctx1, hdec, hmargin, ?_, hround, ?_⟩
  · rw [hmargin]
    exact sub_nonneg
  · have hb := (chopPrecisionAndRound_bound resp.PositionResp.Position.Margin).1
    unfold Dec.RoundInt at hround
    generalize chopPrecisionAndRound resp.PositionResp.Position.Margin = r at hb hround
    generalize resp.PositionResp.Position.Margin = m at hb ⊢
    have hr : (0 : Int) ≤ r := hround
    unfold precisionReuse at hb
    unfold fivePrecision
    omega

/-- The partial liquidation of the example at price 0.95: no bad debt, and a
stored margin of `10 − 2.375 = 7.625`. -/
theorem executePartialLiquidation_margin_and_bad_debt_witness :
    ∃ resp ctxOut,
      executePartialLiquidation Demo.keeper Demo.partialCtx Demo.market
          (Demo.ammAt 950000000000000000) Demo.liquidator
          (Demo.longPosition "nibi1trader" 100 10) = .done (.ok resp) ctxOut ∧
      resp.PositionResp.Position.Margin = 7625000000000000000 ∧
      resp.BadDebt = 0 ∧
      ∃ quoteAssetDelta decreased ctx1,
        Demo.keeper.decreasePosition Demo.partialCtx Demo.market
            (Demo.ammAt 950000000000000000) (Demo.longPosition "nibi1trader" 100 10)
            quoteAssetDelta Dec.Zero true
          = (.ok decreased, ctx1) ∧
        resp.PositionResp.Position.Margin =
          decreased.Position.Margin - Dec.Mul quoteAssetDelta Demo.market.LiquidationFeeRatio ∧
        (0 ≤ resp.PositionResp.Position.Margin ↔
          Dec.Mul quoteAssetDelta Demo.market.LiquidationFeeRatio ≤ decreased.Position.Margin) ∧
        0 ≤ Dec.RoundInt resp.PositionResp.Position.Margin ∧
        -fivePrecision ≤ resp.PositionResp.Position.Margin :=
  ⟨_, _, rfl, by decide,
    executePartialLiquidation_margin_and_bad_debt Demo.keeper Demo.partialCtx Demo.market
      (Demo.ammAt 950000000000000000) Demo.liquidator
      (Demo.longPosition "nibi1trader" 100 10) _ _ rfl⟩

/-! ## The base amount of a partial liquidation -/

/-- Chopping is odd: the sign is taken off before rounding. -/
theorem chopPrecisionAndRound_neg (x : Int) :
    chopPrecisionAndRound (-x) = -chopPrecisionAndRound x := by
  unfold chopPrecisionAndRound
  rcases lt_trichotomy x 0 with h | h | h
  · have h1 : ¬ (-x < 0) := by omega
    simp only [h1, h, if_true, if_false, neg_neg]
  · subst h; decide
  · have h1 : -x < 0 := by omega
    have h2 : ¬ (x < 0) := by omega
    simp only [h1, h2, if_true, if_false, neg_neg]

/-- `Mul` is odd: the product with a negated factor is the negated product. -/
theorem Dec.Mul_neg_left (d d2 : Int) : Dec.Mul (-d) d2 = -Dec.Mul d d2 := by
  unfold Dec.Mul
  rw [neg_mul, chopPrecisionAndRound_neg]

/-- The only question a partial liquidation asks the AMM's
`GetQuoteReserveAmt` is the one for `Size_.Mul(PartialLiquidationRatio)` in
the direction opposite to the position: replacing the function by any other
that gives the same answer there changes nothing. -/
theorem executePartialLiquidation_base_amount (k : Keeper)
    (g : AMM → Dec → Direction → Except Err Dec) (ctx : Context) (market : Market) (amm : AMM)
    (liquidator : AccAddress) (currentPosition : Position)
    (hg : g amm (Dec.Mul currentPosition.Size_ market.PartialLiquidationRatio)
        (if Dec.IsPositive currentPosition.Size_ then Direction.SHORT else Direction.LONG) =
      k.GetQuoteReserveAmt amm (Dec.Mul currentPosition.Size_ market.PartialLiquidationRatio)
        (if Dec.IsPositive currentPosition.Size_ then Direction.SHORT else Direction.LONG)) :
    executePartialLiquidation { k with GetQuoteReserveAmt := g } ctx market amm liquidator
        currentPosition =
      executePartialLiquidation k ctx market amm liquidator currentPosition := by
  simp only [executePartialLiquidation, hg, distributeLiquidateRewards,
    positionLiquidatedEvent]

/-- For a short position the base amount is negative: it is the negated
magnitude `|Size_|.Mul(PartialLiquidationRatio)`, and the direction is LONG. -/
theorem executePartialLiquidation_short_amount (market : Market) (currentPosition : Position)
    (hshort : currentPosition.Size_ < 0) :
    (if Dec.IsPositive currentPosition.Size_ then Direction.SHORT else Direction.LONG)
      = Direction.LONG ∧
    Dec.Mul currentPosition.Size_ market.PartialLiquidationRatio =
      -Dec.Mul (Dec.Abs currentPosition.Size_) market.PartialLiquidationRatio := by
  have h1 : ¬ (currentPosition.Size_ > 0) := not_lt.mpr hshort.le
  constructor
  · simp [Dec.IsPositive, h1]
  · have habs : Dec.Abs currentPosition.Size_ = -currentPosition.Size_ := by
      simp [Dec.Abs, hshort]
    rw [habs, Dec.Mul_neg_left, neg_neg]

/-- C15 on a short position: for the short of 100 with partial liquidation
ratio 0.5 the direction is LONG, and the base amount given to the AMM is −50,
not the magnitude 50.  An AMM that prices magnitudes only refuses it, so the
partial liquidation of the short, and `liquidate` with it, returns that
error; the same liquidation of a long goes through. -/
theorem executePartialLiquidation_short_negative_amount :
    (if Dec.IsPositive Demo.shortPosition.Size_ then Direction.SHORT else Direction.LONG)
      = Direction.LONG ∧
    Dec.Mul Demo.shortPosition.Size_ Demo.market.PartialLiquidationRatio = -Dec.New 50 ∧
    Dec.Mul (Dec.Abs Demo.shortPosition.Size_) Demo.market.PartialLiquidationRatio
      = Dec.New 50 ∧
    executePartialLiquidation Demo.strictKeeper Demo.shortCtx Demo.market
        (Demo.ammAt 1040000000000000000) Demo.liquidator Demo.shortPosition =
      .done (.error (Err.external "base amount is negative")) Demo.shortCtx ∧
    liquidate Demo.strictKeeper Demo.shortCtx Demo.liquidator Demo.pair Demo.trader =
      .done (Coin.empty, Coin.empty, some (Err.external "base amount is negative"))
        Demo.shortCtx ∧
    (∃ lf ef ctxOut,
      liquidate Demo.strictKeeper Demo.partialCtx Demo.liquidator Demo.pair Demo.trader =
        .done (lf, ef, none) ctxOut) :=
  ⟨by decide, by decide, by decide, rfl, by decide, _, _, _, rfl⟩

/-! ## AfterEpochEnd: one market -/

/-- With an epoch of positive duration of at most a day, `intervalsPerDay` is
at least one. -/
theorem intervalsPerDay_pos (duration : Int) (hpos : 0 < duration) (hle : duration ≤ Hour24) :
    1 ≤ Int.tdiv Hour24 duration := by
  rw [Int.tdiv_eq_ediv (by decide) hpos.le]
  exact Int.le_ediv_of_mul_le hpos (by simpa using hle)

/-- The turn of a market that is enabled, on the firing epoch, and has index
and mark TWAPs that are not zero: the market is stored under its pair with the
premium fraction added to its cumulative premium fraction, and the funding
event is emitted. -/
theorem AfterEpochEnd.body_eligible (k : FundingKeeper) (epochIdentifier : String)
    (market : Market) (ctx : Context) (indexTwap markTwap : Dec)
    (henabled : market.Enabled = true) (hid : market.FundingRateEpochId = epochIdentifier)
    (hindex : k.GetExchangeRateTwap ctx market.Pair = .ok indexTwap) (hindex0 : indexTwap ≠ 0)
    (hmark : k.CalcTwap ctx market.Pair TwapCalcOption.SPOT Direction.DIRECTION_UNSPECIFIED
      Dec.Zero market.TwapLookbackWindow = .ok markTwap) (hmark0 : markTwap ≠ 0)
    (hpos : 0 < (k.GetEpochInfo ctx epochIdentifier).Duration)
    (hle : (k.GetEpochInfo ctx epochIdentifier).Duration ≤ Hour24) :
    ∃ ctx2, AfterEpochEnd.body k epochIdentifier market ctx = .next ctx2 ∧
      ctx2.store.Markets =
        mapInsert ctx.store.Markets market.Pair
          { market with
            LatestCumulativePremiumFraction :=
              market.LatestCumulativePremiumFraction +
                Int.tdiv (markTwap - indexTwap)
                  (Int.tdiv Hour24 (k.GetEpochInfo ctx epochIdentifier).Duration) } := by
  have hgate : (!market.Enabled || decide (epochIdentifier ≠ market.FundingRateEpochId))
      = false := by
    simp [henabled, hid]
  have hi : Dec.IsZero indexTwap = false := by simp [Dec.IsZero, hindex0]
  have hm : Dec.IsZero markTwap = false := by simp [Dec.IsZero, hmark0]
  have hd : ¬ ((k.GetEpochInfo ctx epochIdentifier).Duration = 0) := by omega
  have hn : ¬ (Int.tdiv Hour24 (k.GetEpochInfo ctx epochIdentifier).Duration = 0) := by
    have := intervalsPerDay_pos _ hpos hle
    omega
  simp only [AfterEpochEnd.body, hgate, hindex, hi, hmark, hm, hd, hn, if_false,
    Bool.false_eq_true]
  exact ⟨_, rfl, rfl⟩

/-- A turn that goes on leaves the records of the other pairs in the market
store as they were. -/
theorem AfterEpochEnd.body_frame (k : FundingKeeper) (epochIdentifier : String)
    (market : Market) (ctx ctx2 : Context) (p : Pair)
    (h : AfterEpochEnd.body k epochIdentifier market ctx = .next ctx2)
    (hne : market.Pair ≠ p) :
    mapGet ctx2.store.Markets p = mapGet ctx.store.Markets p := by
  simp only [AfterEpochEnd.body] at h
  repeat' split at h
  all_goals first
    | (simp only [AfterEpochEnd.Step.next.injEq] at h
       subst h
       first
         | rfl
         | exact mapGet_mapInsert_of_ne _ _ _ _ hne)
    | cases h

/-- A market that is enabled and on the firing epoch does not stop the loop. -/
theorem AfterEpochEnd.body_ne_stop (k : FundingKeeper) (epochIdentifier : String)
    (market : Market) (ctx : Context)
    (henabled : market.Enabled = true) (hid : market.FundingRateEpochId = epochIdentifier) :
    AfterEpochEnd.body k epochIdentifier market ctx ≠ .stop := by
  have hgate : (!market.Enabled || decide (epochIdentifier ≠ market.FundingRateEpochId))
      = false := by
    simp [henabled, hid]
  intro h
  simp only [AfterEpochEnd.body, hgate, Bool.false_eq_true, if_false] at h
  repeat' split at h
  all_goals cases h

/-- With an epoch of positive duration of at most a day no turn panics. -/
theorem AfterEpochEnd.body_ne_panicked (k : FundingKeeper) (epochIdentifier : String)
    (market : Market) (ctx : Context)
    (hpos : 0 < (k.GetEpochInfo ctx epochIdentifier).Duration)
    (hle : (k.GetEpochInfo ctx epochIdentifier).Duration ≤ Hour24) :
    AfterEpochEnd.body k epochIdentifier market ctx ≠ .panicked := by
  have hd : ¬ ((k.GetEpochInfo ctx epochIdentifier).Duration = 0) := by omega
  have hn : ¬ (Int.tdiv Hour24 (k.GetEpochInfo ctx epochIdentifier).Duration = 0) := by
    have := intervalsPerDay_pos _ hpos hle
    omega
  intro h
  simp only [AfterEpochEnd.body, hd, hn, if_false] at h
  repeat' split at h
  all_goals cases h

/-! ## AfterEpochEnd: the loop -/

/-- With an epoch of positive duration of at most a day the loop returns. -/
theorem AfterEpochEnd.loop_total (k : FundingKeeper) (epochIdentifier : String)
    (hdur : ∀ c, 0 < (k.GetEpochInfo c epochIdentifier).Duration ∧
      (k.GetEpochInfo c epochIdentifier).Duration ≤ Hour24)
    (ms : List Market) :
    ∀ ctx, ∃ ctx2, AfterEpochEnd.loop k epochIdentifier ms ctx = .done () ctx2 := by
  induction ms with
  | nil => intro ctx; exact ⟨ctx, rfl⟩
  | cons m rest ih =>
    intro ctx
    cases hb : AfterEpochEnd.body k epochIdentifier m ctx with
    | stop => exact ⟨ctx, by simp only [AfterEpochEnd.loop, hb]⟩
    | panicked =>
      exact absurd hb (AfterEpochEnd.body_ne_panicked k epochIdentifier m ctx
        (hdur ctx).1 (hdur ctx).2)
    | next c =>
      obtain ⟨ctx2, h2⟩ := ih c
      exact ⟨ctx2, by simp only [AfterEpochEnd.loop, hb, h2]⟩

/-- The loop over markets of other pairs leaves the record of a pair as it
was. -/
theorem AfterEpochEnd.loop_frame (k : FundingKeeper) (epochIdentifier : String) (p : Pair)
    (ms : List Market) :
    ∀ ctx ctx2, (∀ m, m ∈ ms → m.Pair ≠ p) →
      AfterEpochEnd.loop k epochIdentifier ms ctx = .done () ctx2 →
      mapGet ctx2.store.Markets p = mapGet ctx.store.Markets p := by
  induction ms with
  | nil =>
    intro ctx ctx2 _ h
    simp only [AfterEpochEnd.loop, Outcome.done.injEq, true_and] at h
    rw [h]
  | cons m rest ih =>
    intro ctx ctx2 hne h
    cases hb : AfterEpochEnd.body k epochIdentifier m ctx with
    | stop =>
      simp only [AfterEpochEnd.loop, hb, Outcome.done.injEq, true_and] at h
      rw [h]
    | panicked => simp only [AfterEpochEnd.loop, hb] at h; cases h
    | next c =>
      simp only [AfterEpochEnd.loop, hb] at h
      rw [ih c ctx2 (fun m2 hm2 => hne m2 (List.mem_cons_of_mem _ hm2)) h]
      exact AfterEpochEnd.body_frame k epochIdentifier m ctx c p hb (hne m (List.mem_cons_self _ _))

/-- Markets that are enabled and on the firing epoch do not keep the loop from
the markets after them, and leave the record of any other pair as it was. -/
theorem AfterEpochEnd.loop_reach (k : FundingKeeper) (epochIdentifier : String) (p : Pair)
    (hdur : ∀ c, 0 < (k.GetEpochInfo c epochIdentifier).Duration ∧
      (k.GetEpochInfo c epochIdentifier).Duration ≤ Hour24)
    (pre rest : List Market) :
    ∀ ctx, (∀ m, m ∈ pre → m.Enabled = true ∧ m.FundingRateEpochId = epochIdentifier) →
      (∀ m, m ∈ pre → m.Pair ≠ p) →
      ∃ c, AfterEpochEnd.loop k epochIdentifier (pre ++ rest) ctx =
          AfterEpochEnd.loop k epochIdentifier rest c ∧
        mapGet c.store.Markets p = mapGet ctx.store.Markets p := by
  induction pre with
  | nil => intro ctx _ _; exact ⟨ctx, rfl, rfl⟩
  | cons m pre2 ih =>
    intro ctx hgate hne
    cases hb : AfterEpochEnd.body k epochIdentifier m ctx with
    | stop =>
      exact absurd hb (AfterEpochEnd.body_ne_stop k epochIdentifier m ctx
        (hgate m (List.mem_cons_self _ _)).1 (hgate m (List.mem_cons_self _ _)).2)
    | panicked =>
      exact absurd hb (AfterEpochEnd.body_ne_panicked k epochIdentifier m ctx
        (hdur ctx).1 (hdur ctx).2)
    | next c =>
      obtain ⟨c2, h1, h2⟩ := ih c (fun m2 hm2 => hgate m2 (List.mem_cons_of_mem _ hm2))
        (fun m2 hm2 => hne m2 (List.mem_cons_of_mem _ hm2))
      refine ⟨c2, ?_, ?_⟩
      · rw [List.cons_append]
        simp only [AfterEpochEnd.loop, hb]
        exact h1
      · rw [h2]
        exact AfterEpochEnd.body_frame k epochIdentifier m ctx c p hb (hne m (List.mem_cons_self _ _))

/-- Where the code accrues funding: for a market that is enabled, on the firing
epoch, with index and mark TWAPs retrieved and not zero, which the loop
reaches (the markets before it in iteration order are enabled and on the
firing epoch) with an epoch of positive duration of at most a day,
`AfterEpochEnd` returns, and the record stored
under the market's pair is the market with
`(markTwap − indexTwap) / intervalsPerDay` added to its cumulative premium
fraction, `intervalsPerDay` being the integer quotient `24h / duration`, and
every other field unchanged. -/
theorem AfterEpochEnd_accrues (k : FundingKeeper) (ctx : Context) (epochIdentifier : String)
    (epochNumber : Nat) (market : Market) (pre post : List Market)
    (indexTwap markTwap : Dec) (duration : Int)
    (hmarkets : ctx.store.Markets.map (fun e => e.2) = pre ++ market :: post)
    (hdistinct : ∀ m, m ∈ pre ++ post → m.Pair ≠ market.Pair)
    (hreach : ∀ m, m ∈ pre → m.Enabled = true ∧ m.FundingRateEpochId = epochIdentifier)
    (henabled : market.Enabled = true)
    (hid : market.FundingRateEpochId = epochIdentifier)
    (hindex : ∀ c, k.GetExchangeRateTwap c market.Pair = .ok indexTwap)
    (hindex0 : indexTwap ≠ 0)
    (hmark : ∀ c, k.CalcTwap c market.Pair TwapCalcOption.SPOT Direction.DIRECTION_UNSPECIFIED
      Dec.Zero market.TwapLookbackWindow = .ok markTwap)
    (hmark0 : markTwap ≠ 0)
    (hdur : ∀ c, (k.GetEpochInfo c epochIdentifier).Duration = duration)
    (hpos : 0 < duration) (hle : duration ≤ Hour24) :
    ∃ ctx2, AfterEpochEnd k ctx epochIdentifier epochNumber = .done () ctx2 ∧
      mapGet ctx2.store.Markets market.Pair =
        some
          { market with
            LatestCumulativePremiumFraction :=
              market.LatestCumulativePremiumFraction +
                Int.tdiv (markTwap - indexTwap) (Int.tdiv Hour24 duration) } := by
  have hd : ∀ c, 0 < (k.GetEpochInfo c epochIdentifier).Duration ∧
      (k.GetEpochInfo c epochIdentifier).Duration ≤ Hour24 := by
    intro c; rw [hdur c]; exact ⟨hpos, hle⟩
  obtain ⟨c, hloop, -⟩ := AfterEpochEnd.loop_reach k epochIdentifier market.Pair hd pre
    (market :: post) ctx hreach
    (fun m hm => hdistinct m (List.mem_append_left _ hm))
  obtain ⟨c2, hbody, hstore⟩ := AfterEpochEnd.body_eligible k epochIdentifier market c
    indexTwap markTwap henabled hid (hindex c) hindex0 (hmark c) hmark0 (hd c).1 (hd c).2
  obtain ⟨ctx2, hrest⟩ := AfterEpochEnd.loop_total k epochIdentifier hd post c2
  refine ⟨ctx2, ?_, ?_⟩
  · unfold AfterEpochEnd
    rw [hmarkets, hloop]
    simp only [AfterEpochEnd.loop, hbody, hrest]
  · rw [AfterEpochEnd.loop_frame k epochIdentifier market.Pair post c2 ctx2
      (fun m hm => hdistinct m (List.mem_append_right _ hm)) hrest, hstore, hdur c]
    exact mapGet_mapInsert_self _ _ _

/-- The second market of the example store accrues
`(2048 − 2000) / 48 = 1` on a thirty-minute epoch. -/
theorem AfterEpochEnd_accrues_witness :
    ∃ ctx2,
      AfterEpochEnd Demo.fundingKeeper (Demo.epochCtx [Demo.market, Demo.ethMarket])
        "30 min" 1 = .done () ctx2 ∧
      mapGet ctx2.store.Markets Demo.ethPair =
        some { Demo.ethMarket with LatestCumulativePremiumFraction := Dec.New 1 } :=
  AfterEpochEnd_accrues Demo.fundingKeeper (Demo.epochCtx [Demo.market, Demo.ethMarket])
    "30 min" 1 Demo.ethMarket [Demo.market] [] (Dec.New 2000) (Dec.New 2048)
    Demo.thirtyMinutes rfl (by decide) (by decide) rfl rfl (fun _ => rfl) (by decide)
    (fun _ => rfl) (by decide) (fun _ => rfl) (by decide) (by decide)

/-- Where the code passes over a market without TWAP: a market that is enabled
and on the firing epoch, whose index TWAP or mark TWAP cannot be retrieved or
is zero, is passed over: its turn leaves the
context as it was and the loop goes on with the markets after it.  When the
loop reaches it and the epoch has a positive duration of at most a day,
`AfterEpochEnd` returns and the record stored under the market's pair is the
one that was there. -/
theorem AfterEpochEnd_skips_without_twap (k : FundingKeeper) (ctx : Context)
    (epochIdentifier : String) (epochNumber : Nat) (market : Market)
    (pre post : List Market)
    (hmarkets : ctx.store.Markets.map (fun e => e.2) = pre ++ market :: post)
    (hstored : mapGet ctx.store.Markets market.Pair = some market)
    (hdistinct : ∀ m, m ∈ pre ++ post → m.Pair ≠ market.Pair)
    (hreach : ∀ m, m ∈ pre → m.Enabled = true ∧ m.FundingRateEpochId = epochIdentifier)
    (henabled : market.Enabled = true)
    (hid : market.FundingRateEpochId = epochIdentifier)
    (hskip : ∀ c, AfterEpochEnd.TwapUnavailable k c market)
    (hdur : ∀ c, 0 < (k.GetEpochInfo c epochIdentifier).Duration ∧
      (k.GetEpochInfo c epochIdentifier).Duration ≤ Hour24) :
    (∀ c rest, AfterEpochEnd.loop k epochIdentifier (market :: rest) c =
      AfterEpochEnd.loop k epochIdentifier rest c) ∧
    ∃ ctx2, AfterEpochEnd k ctx epochIdentifier epochNumber = .done () ctx2 ∧
      mapGet ctx2.store.Markets market.Pair = some market := by
  have hgate : (!market.Enabled || decide (epochIdentifier ≠ market.FundingRateEpochId))
      = false := by
    simp [henabled, hid]
  have hbody : ∀ c, AfterEpochEnd.body k epochIdentifier market c = .next c := by
    intro c
    simp only [AfterEpochEnd.body, hgate, Bool.false_eq_true, if_false]
    rcases hskip c with ⟨err, h⟩ | h | ⟨err, h⟩ | h
    · simp only [h]
    · simp only [h]
      rfl
    · cases hi : k.GetExchangeRateTwap c market.Pair with
      | error e => rfl
      | ok indexTwap =>
        by_cases hz : Dec.IsZero indexTwap = true
        · simp only [hz, if_true]
        · simp only [hz, Bool.false_eq_true, if_false, h]
    · cases hi : k.GetExchangeRateTwap c market.Pair with
      | error e => rfl
      | ok indexTwap =>
        by_cases hz : Dec.IsZero indexTwap = true
        · simp only [hz, if_true]
        · simp only [hz, Bool.false_eq_true, if_false, h]
          rfl
  have hstep : ∀ c rest, AfterEpochEnd.loop k epochIdentifier (market :: rest) c =
      AfterEpochEnd.loop k epochIdentifier rest c := by
    intro c rest
    simp only [AfterEpochEnd.loop, hbody c]
  refine ⟨hstep, ?_⟩
  obtain ⟨c, hloop, hc⟩ := AfterEpochEnd.loop_reach k epochIdentifier market.Pair hdur pre
    (market :: post) ctx hreach
    (fun m hm => hdistinct m (List.mem_append_left _ hm))
  obtain ⟨ctx2, hrest⟩ := AfterEpochEnd.loop_total k epochIdentifier hdur post c
  refine ⟨ctx2, ?_, ?_⟩
  · unfold AfterEpochEnd
    rw [hmarkets, hloop, hstep, hrest]
  · rw [AfterEpochEnd.loop_frame k epochIdentifier market.Pair post c ctx2
      (fun m hm => hdistinct m (List.mem_append_right _ hm)) hrest, hc, hstored]

/-- The market without a price comes first in the store and is passed over:
its record stays, and the two markets after it accrue funding in the same
call. -/
theorem AfterEpochEnd_skips_without_twap_witness :
    ((∀ c rest, AfterEpochEnd.loop Demo.fundingKeeper "30 min" (Demo.unpricedMarket :: rest) c =
        AfterEpochEnd.loop Demo.fundingKeeper "30 min" rest c) ∧
      ∃ ctx2,
        AfterEpochEnd Demo.fundingKeeper
          (Demo.epochCtx [Demo.unpricedMarket, Demo.market, Demo.ethMarket]) "30 min" 1
          = .done () ctx2 ∧
        mapGet ctx2.store.Markets Demo.unpricedMarket.Pair = some Demo.unpricedMarket) ∧
    (AfterEpochEnd Demo.fundingKeeper
        (Demo.epochCtx [Demo.unpricedMarket, Demo.market, Demo.ethMarket]) "30 min" 1).ctx?.bind
        (fun c => mapGet c.store.Markets Demo.ethPair) =
      some { Demo.ethMarket with LatestCumulativePremiumFraction := Dec.New 1 } :=
  ⟨AfterEpochEnd_skips_without_twap Demo.fundingKeeper
      (Demo.epochCtx [Demo.unpricedMarket, Demo.market, Demo.ethMarket]) "30 min" 1
      Demo.unpricedMarket [] [Demo.market, Demo.ethMarket] rfl (by decide) (by decide)
      (by decide) rfl rfl (fun _ => Or.inl ⟨_, rfl⟩)
      (fun _ => (by decide : 0 < Demo.thirtyMinutes ∧ Demo.thirtyMinutes ≤ Hour24)),
   by decide⟩

/-- A market that is disabled or on another epoch ends the loop: the markets
after it are not visited and the context is returned as it is. -/
theorem AfterEpochEnd.loop_stop (k : FundingKeeper) (epochIdentifier : String)
    (market : Market) (rest : List Market) (ctx : Context)
    (hgate : market.Enabled = false ∨ market.FundingRateEpochId ≠ epochIdentifier) :
    AfterEpochEnd.loop k epochIdentifier (market :: rest) ctx = .done () ctx := by
  have hg : (!market.Enabled || decide (epochIdentifier ≠ market.FundingRateEpochId))
      = true := by
    rcases hgate with h | h
    · simp [h]
    · simp [Ne.symm h]
  simp only [AfterEpochEnd.loop, AfterEpochEnd.body, hg, if_true]

/-- C19 on the code: with a disabled market, or a market on the weekly epoch,
stored before the market of `ueth:unusd`, `AfterEpochEnd` for the epoch
`30 min` returns at the first market and leaves the context as it was; the
market of `ueth:unusd`, which is enabled, on that epoch and has TWAPs that are
not zero, is not updated.  Behind an eligible market the same market accrues
`(2048 − 2000) / 48 = 1`. -/
theorem AfterEpochEnd_stops_at_ineligible_market :
    AfterEpochEnd Demo.fundingKeeper (Demo.epochCtx [Demo.disabledMarket, Demo.ethMarket])
        "30 min" 1 =
      .done () (Demo.epochCtx [Demo.disabledMarket, Demo.ethMarket]) ∧
    AfterEpochEnd Demo.fundingKeeper (Demo.epochCtx [Demo.weeklyMarket, Demo.ethMarket])
        "30 min" 1 =
      .done () (Demo.epochCtx [Demo.weeklyMarket, Demo.ethMarket]) ∧
    mapGet (Demo.epochCtx [Demo.disabledMarket, Demo.ethMarket]).store.Markets Demo.ethPair =
      some Demo.ethMarket ∧
    Demo.ethMarket.Enabled = true ∧ Demo.ethMarket.FundingRateEpochId = "30 min" ∧
    (AfterEpochEnd Demo.fundingKeeper (Demo.epochCtx [Demo.market, Demo.ethMarket])
        "30 min" 1).ctx?.bind (fun c => mapGet c.store.Markets Demo.ethPair) =
      some { Demo.ethMarket with LatestCumulativePremiumFraction := Dec.New 1 } := by
  refine ⟨?_, ?_, ?_, ?_, ?_, ?_⟩ <;> decide

/-- C17 on the code: the markets of `ubtc:unusd` and `ueth:unusd` are enabled,
on the epoch `30 min`, and their index and mark TWAPs are retrieved and not
zero (1 and 1.01, 2000 and 2048).  With a disabled market stored before them,
`AfterEpochEnd` for `30 min` returns at that market with the context as it
was: both keep the cumulative premium fraction 0, where the claimed values are
`0 + (1.01 − 1) / 48 = 0.000208333333333333` and `0 + (2048 − 2000) / 48 = 1`,
which are the values stored when no such market comes first.  And for the
market of `ueth:unusd` on the epoch `week`, which lasts seven days,
`intervalsPerDay` is `0` and the call panics: nothing is stored. -/
theorem AfterEpochEnd_eligible_market_not_accrued :
    Demo.market.Enabled = true ∧ Demo.market.FundingRateEpochId = "30 min" ∧
    Demo.fundingKeeper.GetExchangeRateTwap
        (Demo.epochCtx [Demo.disabledUnpricedMarket, Demo.market, Demo.ethMarket])
        Demo.market.Pair = .ok (Dec.New 1) ∧
    Demo.fundingKeeper.CalcTwap
        (Demo.epochCtx [Demo.disabledUnpricedMarket, Demo.market, Demo.ethMarket])
        Demo.market.Pair TwapCalcOption.SPOT Direction.DIRECTION_UNSPECIFIED Dec.Zero
        Demo.market.TwapLookbackWindow = .ok 1010000000000000000 ∧
    AfterEpochEnd Demo.fundingKeeper
        (Demo.epochCtx [Demo.disabledUnpricedMarket, Demo.market, Demo.ethMarket])
        "30 min" 1 =
      .done () (Demo.epochCtx [Demo.disabledUnpricedMarket, Demo.market, Demo.ethMarket]) ∧
    mapGet (Demo.epochCtx [Demo.disabledUnpricedMarket, Demo.market, Demo.ethMarket]).store.Markets
        Demo.pair = some Demo.market ∧
    mapGet (Demo.epochCtx [Demo.disabledUnpricedMarket, Demo.market, Demo.ethMarket]).store.Markets
        Demo.ethPair = some Demo.ethMarket ∧
    Demo.market.LatestCumulativePremiumFraction +
        Int.tdiv (1010000000000000000 - Dec.New 1) (Int.tdiv Hour24 Demo.thirtyMinutes) =
      208333333333333 ∧
    (AfterEpochEnd Demo.fundingKeeper (Demo.epochCtx [Demo.market, Demo.ethMarket])
        "30 min" 1).ctx?.bind (fun c => mapGet c.store.Markets Demo.pair) =
      some { Demo.market with LatestCumulativePremiumFraction := 208333333333333 } ∧
    Demo.weeklyEthMarket.Enabled = true ∧ Demo.weeklyEthMarket.FundingRateEpochId = "week" ∧
    AfterEpochEnd Demo.fundingKeeper (Demo.epochCtx [Demo.weeklyEthMarket]) "week" 1 =
      .panicked := by
  refine ⟨by decide, by decide, rfl, rfl, by decide, by decide, by decide, by decide,
    by decide, by decide, by decide, by decide⟩

/-- C18 on the code: the market of `uatom:unusd` has no index price, so its
TWAP cannot be retrieved, and it comes first in the store.  When it is
disabled, `AfterEpochEnd` returns at it with the context as it was and does
not go on: the market of `ubtc:unusd` behind it, which is eligible, keeps the
cumulative premium fraction 0.  When it is enabled, it is passed over, its
record stays as it was, and the market behind it accrues
`(1.01 − 1) / 48 = 0.000208333333333333`. -/
theorem AfterEpochEnd_unpriced_market_ends_loop :
    Demo.fundingKeeper.GetExchangeRateTwap
        (Demo.epochCtx [Demo.disabledUnpricedMarket, Demo.market])
        Demo.disabledUnpricedMarket.Pair = .error (Err.external "no exchange rate") ∧
    Demo.disabledUnpricedMarket.Enabled = false ∧
    AfterEpochEnd Demo.fundingKeeper (Demo.epochCtx [Demo.disabledUnpricedMarket, Demo.market])
        "30 min" 1 =
      .done () (Demo.epochCtx [Demo.disabledUnpricedMarket, Demo.market]) ∧
    mapGet (Demo.epochCtx [Demo.disabledUnpricedMarket, Demo.market]).store.Markets Demo.pair =
      some Demo.market ∧
    Demo.market.LatestCumulativePremiumFraction = 0 ∧
    (AfterEpochEnd Demo.fundingKeeper (Demo.epochCtx [Demo.unpricedMarket, Demo.market])
        "30 min" 1).ctx?.bind (fun c => mapGet c.store.Markets Demo.unpricedMarket.Pair) =
      some Demo.unpricedMarket ∧
    (AfterEpochEnd Demo.fundingKeeper (Demo.epochCtx [Demo.unpricedMarket, Demo.market])
        "30 min" 1).ctx?.bind (fun c => mapGet c.store.Markets Demo.pair) =
      some { Demo.market with LatestCumulativePremiumFraction := 208333333333333 } := by
  refine ⟨rfl, by decide, by decide, by decide, by decide, by decide, by decide⟩

/-! ## Monotonicity of the decimal quotient -/

theorem chopNonNeg_mono (a b : Int) (_ha : 0 ≤ a) (_hab : a ≤ b) :
    chopNonNeg a ≤ chopNonNeg b := by
  unfold chopNonNeg precisionReuse fivePrecision
  simp only []
  split_ifs <;> omega

theorem chopNonNeg_nonneg (a : Int) (_ha : 0 ≤ a) : 0 ≤ chopNonNeg a := by
  unfold chopNonNeg precisionReuse fivePrecision
  simp only []
  split_ifs <;> omega

/-- Chopping with banker's rounding is monotone. -/
theorem chopPrecisionAndRound_mono (a b : Int) (hab : a ≤ b) :
    chopPrecisionAndRound a ≤ chopPrecisionAndRound b := by
  unfold chopPrecisionAndRound
  split_ifs with ha hb hb
  · have := chopNonNeg_mono (-b) (-a) (by omega) (by omega)
    omega
  · have h1 := chopNonNeg_nonneg (-a) (by omega)
    have h2 := chopNonNeg_nonneg b (by omega)
    omega
  · omega
  · exact chopNonNeg_mono a b (by omega) hab

theorem ediv_le_ediv_of_cross (a1 a2 n1 n2 : Int) (h1 : 0 < n1) (h2 : 0 < n2)
    (h : a1 * n2 ≤ a2 * n1) : a1 / n1 ≤ a2 / n2 := by
  apply Int.le_ediv_of_mul_le h2
  have hq : a1 / n1 * n1 ≤ a1 := Int.ediv_mul_le a1 (ne_of_gt h1)
  have h3 : a1 / n1 * n1 * n2 ≤ a1 * n2 := mul_le_mul_of_nonneg_right hq h2.le
  have h4 : a1 / n1 * n2 * n1 ≤ a2 * n1 := by
    calc a1 / n1 * n2 * n1 = a1 / n1 * n1 * n2 := by ring
      _ ≤ a1 * n2 := h3
      _ ≤ a2 * n1 := h
  exact le_of_mul_le_mul_right h4 h1

/-- Truncated division is monotone in the fraction it truncates. -/
theorem tdiv_le_tdiv_of_cross (a1 a2 n1 n2 : Int) (h1 : 0 < n1) (h2 : 0 < n2)
    (h : a1 * n2 ≤ a2 * n1) : Int.tdiv a1 n1 ≤ Int.tdiv a2 n2 := by
  have hneg : ∀ a n : Int, a < 0 → 0 < n → Int.tdiv a n = -((-a) / n) := by
    intro a n ha hn
    rw [← Int.tdiv_eq_ediv (by omega) hn.le, Int.neg_tdiv, neg_neg]
  rcases le_or_lt 0 a1 with ha1 | ha1
  · have ha2 : 0 ≤ a2 := by
      by_contra hc
      rw [not_le] at hc
      have h5 : a2 * n1 < 0 := mul_neg_of_neg_of_pos hc h1
      have h6 : 0 ≤ a1 * n2 := mul_nonneg ha1 h2.le
      omega
    rw [Int.tdiv_eq_ediv ha1 h1.le, Int.tdiv_eq_ediv ha2 h2.le]
    exact ediv_le_ediv_of_cross a1 a2 n1 n2 h1 h2 h
  · rcases le_or_lt 0 a2 with ha2 | ha2
    · rw [hneg a1 n1 ha1 h1, Int.tdiv_eq_ediv ha2 h2.le]
      have h5 : 0 ≤ (-a1) / n1 := Int.ediv_nonneg (by omega) h1.le
      have h6 : 0 ≤ a2 / n2 := Int.ediv_nonneg ha2 h2.le
      omega
    · rw [hneg a1 n1 ha1 h1, hneg a2 n2 ha2 h2]
      have h5 := ediv_le_ediv_of_cross (-a2) (-a1) n2 n1 h2 h1 (by
        rw [neg_mul, neg_mul]; omega)
      omega

/-- `Quo` is monotone in the fraction it represents. -/
theorem Dec.Quo_le_Quo_of_cross (a1 a2 n1 n2 : Int) (h1 : 0 < n1) (h2 : 0 < n2)
    (h : a1 * n2 ≤ a2 * n1) : Dec.Quo a1 n1 ≤ Dec.Quo a2 n2 := by
  unfold Dec.Quo
  apply chopPrecisionAndRound_mono
  apply tdiv_le_tdiv_of_cross _ _ _ _ h1 h2
  have hp : (0 : Int) ≤ precisionReuse * precisionReuse := by decide
  calc a1 * precisionReuse * precisionReuse * n2
      = a1 * n2 * (precisionReuse * precisionReuse) := by ring
    _ ≤ a2 * n1 * (precisionReuse * precisionReuse) := mul_le_mul_of_nonneg_right h hp
    _ = a2 * precisionReuse * precisionReuse * n1 := by ring

/-! ## The larger notional and the margin ratio -/

/-- C20 fails for a short position: the short of 100 with margin 10 has margin
ratio 10% at the spot notional 100, above the maintenance ratio of 6.25%, and
4.76% at `max(100, 105) = 105`, below it.  The larger notional lowers the
ratio of a short, and `liquidate` goes on to liquidate a position that is
healthy on spot alone. -/
theorem MarginRatio_max_lowers_short :
    MarginRatio Demo.shortPosition (max (Dec.New 100) (Dec.New 105)) 0 <
      MarginRatio Demo.shortPosition (Dec.New 100) 0 ∧
    MarginRatio Demo.shortPosition (Dec.New 100) 0 = 100000000000000000 ∧
    MarginRatio Demo.shortPosition (max (Dec.New 100) (Dec.New 105)) 0 = 47619047619047619 ∧
    MarginRatio Demo.shortPosition (Dec.New 100) 0 ≥ Demo.market.MaintenanceMarginRatio ∧
    MarginRatio Demo.shortPosition (max (Dec.New 100) (Dec.New 105)) 0 <
      Demo.market.MaintenanceMarginRatio ∧
    Demo.twapKeeper.PositionNotionalSpot (Demo.ammAt 1000000000000000000) Demo.shortPosition
      = .ok (Dec.New 100) ∧
    ∃ liquidatorFee ecosystemFundFee ctxOut,
      liquidate Demo.twapKeeper Demo.twapCtx Demo.liquidator Demo.pair Demo.trader =
        .done (liquidatorFee, ecosystemFundFee, none) ctxOut :=
  ⟨by decide, by decide, by decide, by decide, by decide, rfl, _, _, _, rfl⟩

/-- C20, as the formula has it: for a positive spot notional, evaluating the margin
ratio `(margin + unrealizedPnL − fundingPayment) / notional` at
`max(spot, twap)` instead of the spot notional does not lower the ratio of a
long position whose margin less the funding payment is at most its open
notional, and does not raise the ratio of a short position whose margin plus
open notional covers the funding payment. -/
theorem MarginRatio_max_notional (position : Position)
    (spotNotional twapNotional cumulativePremiumFraction : Dec)
    (hspot : 0 < spotNotional) :
    (position.Size_ > 0 →
      position.Margin - FundingPayment position cumulativePremiumFraction
        ≤ position.OpenNotional →
      MarginRatio position (max spotNotional twapNotional) cumulativePremiumFraction ≥
        MarginRatio position spotNotional cumulativePremiumFraction) ∧
    (position.Size_ < 0 →
      0 ≤ position.Margin + position.OpenNotional
        - FundingPayment position cumulativePremiumFraction →
      MarginRatio position (max spotNotional twapNotional) cumulativePremiumFraction ≤
        MarginRatio position spotNotional cumulativePremiumFraction) := by
  have hmax : 0 < max spotNotional twapNotional := lt_max_of_lt_left hspot
  have hle : spotNotional ≤ max spotNotional twapNotional := le_max_left _ _
  generalize max spotNotional twapNotional = maxNotional at hmax hle
  generalize hf : FundingPayment position cumulativePremiumFraction = funding
  constructor
  · intro hlong hlev
    have hp : Dec.IsPositive position.Size_ = true := by
      simp only [Dec.IsPositive, decide_eq_true_eq]; exact hlong
    simp only [MarginRatio, UnrealizedPnl, hp, if_true, Dec.Add, Dec.Sub, hf]
    apply Dec.Quo_le_Quo_of_cross _ _ _ _ hspot hmax
    have hc : position.Margin - position.OpenNotional - funding ≤ 0 := by linarith
    nlinarith [mul_nonneg_of_nonpos_of_nonpos hc (sub_nonpos.mpr hle)]
  · intro hshort hcover
    have hp : Dec.IsPositive position.Size_ = false := by
      simp only [Dec.IsPositive, decide_eq_false_iff_not, not_lt]; exact hshort.le
    simp only [MarginRatio, UnrealizedPnl, hp, Bool.false_eq_true, if_false, Dec.Add, Dec.Sub,
      hf]
    apply Dec.Quo_le_Quo_of_cross _ _ _ _ hmax hspot
    nlinarith [mul_nonneg hcover (sub_nonneg.mpr hle)]

/-- The long of 100 with margin 10: its margin ratio at `max(95, 96)` is at
least the one at the spot notional 95; and the short of 100 with margin 10:
its margin ratio at `max(100, 105)` is at most the one at 100. -/
theorem MarginRatio_max_notional_witness :
    MarginRatio (Demo.longPosition "nibi1trader" 100 10) (max (Dec.New 95) (Dec.New 96)) 0 ≥
      MarginRatio (Demo.longPosition "nibi1trader" 100 10) (Dec.New 95) 0 ∧
    MarginRatio Demo.shortPosition (max (Dec.New 100) (Dec.New 105)) 0 ≤
      MarginRatio Demo.shortPosition (Dec.New 100) 0 :=
  ⟨(MarginRatio_max_notional (Demo.longPosition "nibi1trader" 100 10) (Dec.New 95)
      (Dec.New 96) 0 (by decide)).1 (by decide) (by decide),
   (MarginRatio_max_notional Demo.shortPosition (Dec.New 100) (Dec.New 105) 0
      (by decide)).2 (by decide) (by decide)⟩

/-! ## The divisions of AfterEpochEnd -/

/-- The turn of an eligible market with TWAPs that are not zero, in an epoch
of positive duration, panics exactly when the epoch is longer than a day:
`intervalsPerDay` is then zero and `QuoInt64` divides by it. -/
theorem AfterEpochEnd.body_panicked_iff (k : FundingKeeper) (epochIdentifier : String)
    (market : Market) (ctx : Context) (indexTwap markTwap : Dec)
    (henabled : market.Enabled = true) (hid : market.FundingRateEpochId = epochIdentifier)
    (hindex : k.GetExchangeRateTwap ctx market.Pair = .ok indexTwap) (hindex0 : indexTwap ≠ 0)
    (hmark : k.CalcTwap ctx market.Pair TwapCalcOption.SPOT Direction.DIRECTION_UNSPECIFIED
      Dec.Zero market.TwapLookbackWindow = .ok markTwap) (hmark0 : markTwap ≠ 0)
    (hpos : 0 < (k.GetEpochInfo ctx epochIdentifier).Duration) :
    AfterEpochEnd.body k epochIdentifier market ctx = .panicked ↔
      Hour24 < (k.GetEpochInfo ctx epochIdentifier).Duration := by
  have hquo : Int.tdiv Hour24 (k.GetEpochInfo ctx epochIdentifier).Duration = 0 ↔
      Hour24 < (k.GetEpochInfo ctx epochIdentifier).Duration := by
    rw [Int.tdiv_eq_ediv (by decide) hpos.le]
    constructor
    · intro h0
      by_contra hle
      have := Int.le_ediv_of_mul_le hpos (show 1 * _ ≤ Hour24 by omega)
      omega
    · intro hlt
      exact Int.ediv_eq_zero_of_lt (by decide) hlt
  have hd : (k.GetEpochInfo ctx epochIdentifier).Duration ≠ 0 := by omega
  have hi : Dec.IsZero indexTwap = false := by simp [Dec.IsZero, hindex0]
  have hm : Dec.IsZero markTwap = false := by simp [Dec.IsZero, hmark0]
  simp only [AfterEpochEnd.body, henabled, hid, hindex, hmark, hi, hm, hd, Bool.not_true,
    ne_eq, not_true_eq_false, decide_False, Bool.or_self, Bool.false_eq_true, if_false]
  by_cases h0 : Int.tdiv Hour24 (k.GetEpochInfo ctx epochIdentifier).Duration = 0
  · simp only [h0, if_true, true_iff]
    exact hquo.1 h0
  · simp only [h0, if_false]
    constructor
    · intro h; cases h
    · intro h; exact absurd (hquo.2 h) h0

/-- C27 on the code: the market of the example configured on the epoch `week`
is enabled and on the firing epoch, its index TWAP is 1 and its mark TWAP is
1.01, and the epoch lasts seven days, a positive duration.  `intervalsPerDay`
is `24h / 168h = 0`, and `AfterEpochEnd` panics on the division of the premium
by it. -/
theorem AfterEpochEnd_panics_on_long_epoch :
    Demo.weeklyMarket.Enabled = true ∧ Demo.weeklyMarket.FundingRateEpochId = "week" ∧
    Demo.fundingKeeper.GetExchangeRateTwap (Demo.epochCtx [Demo.weeklyMarket])
        Demo.weeklyMarket.Pair = .ok (Dec.New 1) ∧
    Demo.fundingKeeper.CalcTwap (Demo.epochCtx [Demo.weeklyMarket]) Demo.weeklyMarket.Pair
        TwapCalcOption.SPOT Direction.DIRECTION_UNSPECIFIED Dec.Zero
        Demo.weeklyMarket.TwapLookbackWindow = .ok 1010000000000000000 ∧
    (Demo.fundingKeeper.GetEpochInfo (Demo.epochCtx [Demo.weeklyMarket]) "week").Duration =
      7 * Hour24 ∧
    0 < 7 * Hour24 ∧
    Int.tdiv Hour24 (7 * Hour24) = 0 ∧
    AfterEpochEnd Demo.fundingKeeper (Demo.epochCtx [Demo.weeklyMarket]) "week" 1 =
      .panicked := by
  refine ⟨by decide, by decide, rfl, rfl, by decide, by decide, by decide, by decide⟩

/-! ## The empty batch -/

/-- C28: `MultiLiquidate` on an empty request list returns the empty response
list together with `ErrAllLiquidationsFailed` (for zero liquidations) and the
context it was given. -/
theorem MultiLiquidate_empty (k : Keeper) (ctx : Context) (liquidator : AccAddress) :
    MultiLiquidate k ctx liquidator [] =
      .done ([], some (Err.ErrAllLiquidationsFailed 0)) ctx := by
  simp only [MultiLiquidate, MultiLiquidate.loop, if_true, List.length_nil]

/-! ## The amount of bad debt that is realized -/

/-- Rounding a positive decimal to an integer gives a non-negative integer,
which is positive exactly when the decimal is above one half. -/
theorem chopPrecisionAndRound_pos (d : Int) (hd : 0 < d) :
    0 ≤ chopPrecisionAndRound d ∧ (0 < chopPrecisionAndRound d ↔ fivePrecision < d) := by
  unfold chopPrecisionAndRound chopNonNeg precisionReuse fivePrecision
  simp only []
  split_ifs <;> omega

/-- Rounding a decimal that is not positive gives an integer that is not
positive. -/
theorem chopPrecisionAndRound_nonpos (d : Int) (hd : d ≤ 0) : chopPrecisionAndRound d ≤ 0 := by
  have hb := (chopPrecisionAndRound_bound d).1
  unfold precisionReuse at hb
  omega

/-- C29, amended: in a full liquidation whose close succeeded, with `d` the
total bad debt as a decimal.  When `d > 0` the realization is called with
`d.RoundInt()`, which is not negative and is positive exactly when `d > 0.5`:
an error of `realizeBadDebt` at that amount is the result of the liquidation.
When `d ≤ 0` the liquidation does not depend on `realizeBadDebt` at all.  A
response that is returned reports `BadDebt = d.RoundInt()`, and when that is
positive the realization was called with it and succeeded. -/
theorem executeFullLiquidation_realized_amount (k : Keeper) (ctx : Context) (market : Market)
    (amm : AMM) (liquidator : AccAddress) (position : Position) (traderAddr : AccAddress)
    (positionResp : PositionResp) (ctx1 : Context)
    (haddr : k.AccAddressFromBech32 position.TraderAddress = .ok traderAddr)
    (hclose : k.closePositionEntirely ctx market amm position Dec.Zero = (.ok positionResp, ctx1)) :
    (0 < (fullLiquidationAmounts market positionResp).totalBadDebt →
      0 ≤ Dec.RoundInt (fullLiquidationAmounts market positionResp).totalBadDebt ∧
      (0 < Dec.RoundInt (fullLiquidationAmounts market positionResp).totalBadDebt ↔
        fivePrecision < (fullLiquidationAmounts market positionResp).totalBadDebt) ∧
      ∀ err ctx2,
        k.realizeBadDebt ctx1 market
            (Dec.RoundInt (fullLiquidationAmounts market positionResp).totalBadDebt)
          = (some err, ctx2) →
        executeFullLiquidation k ctx market amm liquidator position = .done (.error err) ctx2) ∧
    ((fullLiquidationAmounts market positionResp).totalBadDebt ≤ 0 →
      ∀ f,
        executeFullLiquidation { k with realizeBadDebt := f } ctx market amm liquidator position =
          executeFullLiquidation k ctx market amm liquidator position) ∧
    (∀ resp ctxOut,
      executeFullLiquidation k ctx market amm liquidator position = .done (.ok resp) ctxOut →
      resp.BadDebt = Dec.RoundInt (fullLiquidationAmounts market positionResp).totalBadDebt ∧
      (0 < resp.BadDebt →
        0 < (fullLiquidationAmounts market positionResp).totalBadDebt ∧
        ∃ ctx2, k.realizeBadDebt ctx1 market resp.BadDebt = (none, ctx2))) := by
  refine ⟨?_, ?_, ?_⟩
  · intro hd
    have hpos : Dec.IsPositive (fullLiquidationAmounts market positionResp).totalBadDebt = true := by
      simp only [Dec.IsPositive, decide_eq_true_eq]; exact hd
    have hr := chopPrecisionAndRound_pos _ hd
    refine ⟨hr.1, hr.2, ?_⟩
    intro err ctx2 hreal
    simp only [executeFullLiquidation, haddr, hclose, hpos, if_true, hreal]
  · intro hd f
    have hpos : Dec.IsPositive (fullLiquidationAmounts market positionResp).totalBadDebt = false := by
      simp only [Dec.IsPositive, decide_eq_false_iff_not, not_lt]; exact hd
    simp only [executeFullLiquidation, distributeLiquidateRewards, positionLiquidatedEvent,
      haddr, hclose, hpos, Bool.false_eq_true, if_false]
  · intro resp ctxOut h
    obtain ⟨traderAddr2, positionResp2, ctx1b, ctx2, ctx3, ev, _, hclose2, hreal, _, _, _, hresp⟩ :=
      executeFullLiquidation_ok_inv k ctx market amm liquidator position resp ctxOut h
    rw [hclose] at hclose2
    simp only [Prod.mk.injEq, Except.ok.injEq] at hclose2
    obtain ⟨hp, hc⟩ := hclose2
    subst hp
    subst hc
    have hbd : resp.BadDebt =
        Dec.RoundInt (fullLiquidationAmounts market positionResp).totalBadDebt := by
      rw [hresp]
    refine ⟨hbd, ?_⟩
    intro hpos
    have hd : 0 < (fullLiquidationAmounts market positionResp).totalBadDebt := by
      by_contra hle
      have := chopPrecisionAndRound_nonpos
        (fullLiquidationAmounts market positionResp).totalBadDebt (not_lt.mp hle)
      rw [hbd] at hpos
      have hpos2 : (0 : Int) < chopPrecisionAndRound
          (fullLiquidationAmounts market positionResp).totalBadDebt := hpos
      omega
    have hip : Dec.IsPositive (fullLiquidationAmounts market positionResp).totalBadDebt = true := by
      simp only [Dec.IsPositive, decide_eq_true_eq]; exact hd
    rw [hip] at hreal
    simp only [if_true] at hreal
    exact ⟨hd, ctx2, by rw [hbd]; exact hreal⟩

/-- At price 0.91 the total bad debt is 1.275: the response reports a bad
debt of 1, the amount the realization was called with. -/
theorem executeFullLiquidation_realized_amount_witness :
    ∃ resp ctxOut positionResp,
      executeFullLiquidation Demo.keeper Demo.fullCtx Demo.market
          (Demo.ammAt 910000000000000000) Demo.liquidator
          (Demo.longPosition "nibi1trader" 100 10) = .done (.ok resp) ctxOut ∧
      (fullLiquidationAmounts Demo.market positionResp).totalBadDebt = 1275000000000000000 ∧
      resp.BadDebt = Dec.RoundInt (fullLiquidationAmounts Demo.market positionResp).totalBadDebt ∧
      resp.BadDebt = 1 :=
  ⟨_, _, _, rfl, by decide,
    ((executeFullLiquidation_realized_amount Demo.keeper Demo.fullCtx Demo.market
      (Demo.ammAt 910000000000000000) Demo.liquidator
      (Demo.longPosition "nibi1trader" 100 10) Demo.trader _ _ rfl rfl).2.2 _ _ rfl).1,
    by decide⟩

/-- C29 as stated fails: at price 0.92 the remaining margin is 2 and the
liquidator fee is 2.3, so the total bad debt is 0.3, which is positive and
rounds to 0.  The liquidation succeeds and reports `BadDebt = 0`, and yet the
realization is called, with the amount 0: with a realization that refuses
every amount the same liquidation fails with its error. -/
theorem executeFullLiquidation_zero_debt_realized :
    ∃ positionResp ctx1,
      Demo.keeper.closePositionEntirely Demo.smallDebtCtx Demo.market
          (Demo.ammAt 920000000000000000) (Demo.longPosition "nibi1trader" 100 10) Dec.Zero =
        (.ok positionResp, ctx1) ∧
      (fullLiquidationAmounts Demo.market positionResp).totalBadDebt = 300000000000000000 ∧
      Dec.RoundInt (fullLiquidationAmounts Demo.market positionResp).totalBadDebt = 0 ∧
      (∃ resp ctxOut,
        executeFullLiquidation Demo.keeper Demo.smallDebtCtx Demo.market
            (Demo.ammAt 920000000000000000) Demo.liquidator
            (Demo.longPosition "nibi1trader" 100 10) = .done (.ok resp) ctxOut ∧
        resp.BadDebt = 0) ∧
      executeFullLiquidation Demo.refusingKeeper Demo.smallDebtCtx Demo.market
          (Demo.ammAt 920000000000000000) Demo.liquidator
          (Demo.longPosition "nibi1trader" 100 10) =
        .done (.error (Err.external "bad debt refused")) ctx1 :=
  ⟨_, _, rfl, by decide, by decide, ⟨_, _, rfl, by decide⟩, rfl⟩

/-! ## The transfers of distributeLiquidateRewards -/

/-- C30: `distributeLiquidateRewards` first validates the response and decodes
the liquidator's address; when either fails it returns that error on the
context it was given, whatever the bank and `Withdraw` would do.  When both
pass: with neither fee positive it returns nil on the context it was given,
whatever the bank and `Withdraw` would do; the ecosystem-fund fee is sent from
the vault to the ecosystem fund exactly when it is positive, and when that
transfer fails its error is the result, whatever `Withdraw` would do; the
liquidator fee is withdrawn for the liquidator, on the context the first
transfer left, exactly when it is positive, and the result of the withdrawal
is the result. -/
theorem distributeLiquidateRewards_transfers (k : Keeper) (ctx : Context) (market : Market)
    (liquidateResp : LiquidateResp) :
    (∀ err, k.Validate liquidateResp = some err →
      ∀ s w,
        distributeLiquidateRewards { k with SendCoinsFromModuleToModule := s, Withdraw := w }
          ctx market liquidateResp = (some err, ctx)) ∧
    (∀ err, k.Validate liquidateResp = none →
      k.AccAddressFromBech32 liquidateResp.Liquidator = .error err →
      ∀ s w,
        distributeLiquidateRewards { k with SendCoinsFromModuleToModule := s, Withdraw := w }
          ctx market liquidateResp = (some err, ctx)) ∧
    (∀ liquidator, k.Validate liquidateResp = none →
      k.AccAddressFromBech32 liquidateResp.Liquidator = .ok liquidator →
      (¬ 0 < liquidateResp.FeeToPerpEcosystemFund → ¬ 0 < liquidateResp.FeeToLiquidator →
        ∀ s w,
          distributeLiquidateRewards { k with SendCoinsFromModuleToModule := s, Withdraw := w }
            ctx market liquidateResp = (none, ctx)) ∧
      (¬ 0 < liquidateResp.FeeToPerpEcosystemFund → 0 < liquidateResp.FeeToLiquidator →
        ∀ s,
          distributeLiquidateRewards { k with SendCoinsFromModuleToModule := s }
            ctx market liquidateResp =
          k.Withdraw ctx market liquidator liquidateResp.FeeToLiquidator) ∧
      (0 < liquidateResp.FeeToPerpEcosystemFund →
        ∀ err ctx1,
          k.SendCoinsFromModuleToModule ctx VaultModuleAccount PerpEFModuleAccount
              [⟨market.Pair.QuoteDenom, some liquidateResp.FeeToPerpEcosystemFund⟩]
            = (some err, ctx1) →
          ∀ w,
            distributeLiquidateRewards { k with Withdraw := w } ctx market liquidateResp =
              (some err, ctx1)) ∧
      (0 < liquidateResp.FeeToPerpEcosystemFund →
        ∀ ctx1,
          k.SendCoinsFromModuleToModule ctx VaultModuleAccount PerpEFModuleAccount
              [⟨market.Pair.QuoteDenom, some liquidateResp.FeeToPerpEcosystemFund⟩]
            = (none, ctx1) →
          (¬ 0 < liquidateResp.FeeToLiquidator →
            ∀ w,
              distributeLiquidateRewards { k with Withdraw := w } ctx market liquidateResp =
                (none, ctx1)) ∧
          (0 < liquidateResp.FeeToLiquidator →
            distributeLiquidateRewards k ctx market liquidateResp =
              k.Withdraw ctx1 market liquidator liquidateResp.FeeToLiquidator))) := by
  have hid : ∀ r : Option Err × Context,
      (match r with
        | (some err, ctx) => (some err, ctx)
        | (none, ctx) => ((none : Option Err), ctx)) = r := by
    rintro ⟨_ | _, _⟩ <;> rfl
  refine ⟨?_, ?_, ?_⟩
  · intro err hv s w
    simp only [distributeLiquidateRewards, hv]
  · intro err hv ha s w
    simp only [distributeLiquidateRewards, hv, ha]
  · intro liquidator hv ha
    refine ⟨?_, ?_, ?_, ?_⟩
    · intro hef hl s w
      simp only [distributeLiquidateRewards, hv, ha, SdkInt.IsPositive, gt_iff_lt, hef, hl,
        decide_False, Bool.false_eq_true, if_false]
    · intro hef hl s
      simp only [distributeLiquidateRewards, hv, ha, SdkInt.IsPositive, gt_iff_lt, hef, hl,
        decide_False, decide_True, Bool.false_eq_true, if_false, if_true]
      exact hid _
    · intro hef err ctx1 hsend w
      simp only [distributeLiquidateRewards, hv, ha, SdkInt.IsPositive, gt_iff_lt, hef,
        decide_True, if_true, hsend]
    · intro hef ctx1 hsend
      constructor
      · intro hl w
        simp only [distributeLiquidateRewards, hv, ha, SdkInt.IsPositive, gt_iff_lt, hef, hl,
          decide_True, decide_False, Bool.false_eq_true, if_false, if_true, hsend]
      · intro hl
        simp only [distributeLiquidateRewards, hv, ha, SdkInt.IsPositive, gt_iff_lt, hef, hl,
          decide_True, if_true, hsend]
        exact hid _

/-! ## Square roots -/

/-- The integer square root of a square is its non-negative root. -/
theorem MustSqrtBigInt_mul_self (k : Int) (hk : 0 ≤ k) : MustSqrtBigInt (k * k) = some k := by
  obtain ⟨j, rfl⟩ := Int.eq_ofNat_of_zero_le hk
  have hnn : ¬ ((j : Int) * (j : Int) < 0) := not_lt.mpr (mul_self_nonneg _)
  have hto : ((j : Int) * (j : Int)).toNat = j * j := by
    rw [← Int.natCast_mul, Int.toNat_natCast]
  simp only [MustSqrtBigInt, hnn, if_false, hto, Nat.sqrt_eq]

/-- C21: on a non-negative integer `MustSqrtBigInt` returns, and what it
returns is the floor of the square root: `r ≥ 0` and `r² ≤ n < (r+1)²`.  So
when `n` is the square of a non-negative `k`, it returns `k`. -/
theorem MustSqrtBigInt_floor (n : Int) (hn : 0 ≤ n) :
    ∃ r, MustSqrtBigInt n = some r ∧ 0 ≤ r ∧ r * r ≤ n ∧ n < (r + 1) * (r + 1) ∧
      ∀ k, 0 ≤ k → k * k = n → r = k := by
  obtain ⟨m, rfl⟩ := Int.eq_ofNat_of_zero_le hn
  refine ⟨(Nat.sqrt m : Int), ?_, ?_, ?_, ?_, ?_⟩
  · have hnn : ¬ ((m : Int) < 0) := not_lt.mpr (Int.natCast_nonneg m)
    simp only [MustSqrtBigInt, hnn, if_false, Int.toNat_natCast]
  · exact Int.natCast_nonneg _
  · exact_mod_cast Nat.sqrt_le m
  · exact_mod_cast Nat.lt_succ_sqrt m
  · intro k hk hkk
    have h1 := MustSqrtBigInt_mul_self k hk
    rw [hkk] at h1
    have hnn : ¬ ((m : Int) < 0) := not_lt.mpr (Int.natCast_nonneg m)
    simp only [MustSqrtBigInt, hnn, if_false, Int.toNat_natCast, Option.some.injEq] at h1
    exact h1

/-- The cases of `TestSqrtBigInt`: 1, 4, 250000, 4819136400,
`4819136400·10^32` and `9·10^100` have the roots 1, 2, 500, 69420,
`69420·10^16` and `3·10^50`. -/
theorem MustSqrtBigInt_floor_witness :
    MustSqrtBigInt 1 = some 1 ∧ MustSqrtBigInt 4 = some 2 ∧
    MustSqrtBigInt 250000 = some 500 ∧ MustSqrtBigInt 4819136400 = some 69420 ∧
    MustSqrtBigInt (4819136400 * 10 ^ 32) = some (69420 * 10 ^ 16) ∧
    MustSqrtBigInt (9 * 10 ^ 100) = some (3 * 10 ^ 50) := by
  have h : ∀ n k : Int, 0 ≤ n → 0 ≤ k → k * k = n → MustSqrtBigInt n = some k := by
    intro n k hn hk hkk
    obtain ⟨r, h1, _, _, _, h5⟩ := MustSqrtBigInt_floor n hn
    rw [h5 k hk hkk] at h1
    exact h1
  refine ⟨h _ _ ?_ ?_ ?_, h _ _ ?_ ?_ ?_, h _ _ ?_ ?_ ?_, h _ _ ?_ ?_ ?_, h _ _ ?_ ?_ ?_,
    h _ _ ?_ ?_ ?_⟩ <;> norm_num

/-- The product of a decimal with itself, when the exact square has 18
fractional digits, is that square. -/
theorem Dec.Mul_self_exact (r : Int) (hexact : (r * r) % precisionReuse = 0) :
    Dec.Mul r r * precisionReuse = r * r := by
  have hnn : ¬ (r * r < 0) := not_lt.mpr (mul_self_nonneg r)
  have hchop : Dec.Mul r r = (r * r) / precisionReuse := by
    simp only [Dec.Mul, chopPrecisionAndRound, hnn, if_false, chopNonNeg, hexact, if_true]
  rw [hchop]
  exact Int.ediv_mul_cancel (Int.dvd_of_emod_eq_zero hexact)

/-- C22: for a non-negative decimal `r` whose exact square has 18 fractional
digits, `r.Mul(r)` is that square and `MustSqrtDec` of it returns `r`. -/
theorem MustSqrtDec_square (r : Dec) (hr : 0 ≤ r) (hexact : (r * r) % precisionReuse = 0) :
    Dec.Mul r r * precisionReuse = r * r ∧ MustSqrtDec (Dec.Mul r r) = some r := by
  have hsq := Dec.Mul_self_exact r hexact
  refine ⟨hsq, ?_⟩
  unfold MustSqrtDec
  rw [hsq]
  exact MustSqrtBigInt_mul_self r hr

/-- The cases of `TestSqrtDec` between 0 and 1 and two of the others: the
roots of 0.81, 0.25, `10^-12`, 4 and 4819136400 are 0.9, 0.5, `10^-6`, 2 and
69420. -/
theorem MustSqrtDec_square_witness :
    MustSqrtDec 810000000000000000 = some 900000000000000000 ∧
    MustSqrtDec 250000000000000000 = some 500000000000000000 ∧
    MustSqrtDec 1000000 = some 1000000000000 ∧
    MustSqrtDec (Dec.New 4) = some (Dec.New 2) ∧
    MustSqrtDec (Dec.New 4819136400) = some (Dec.New 69420) :=
  ⟨(MustSqrtDec_square 900000000000000000 (by decide) (by decide)).2,
    (MustSqrtDec_square 500000000000000000 (by decide) (by decide)).2,
    (MustSqrtDec_square 1000000000000 (by decide) (by decide)).2,
    (MustSqrtDec_square (Dec.New 2) (by decide) (by decide)).2,
    (MustSqrtDec_square (Dec.New 69420) (by decide) (by decide)).2⟩

/-! ## Signs in decimal arithmetic -/

theorem chopPrecisionAndRound_nonneg (d : Int) (hd : 0 ≤ d) : 0 ≤ chopPrecisionAndRound d := by
  have h := chopPrecisionAndRound_mono 0 d hd
  have h0 : chopPrecisionAndRound 0 = 0 := by decide
  omega

/-- The product of two non-negative decimals is non-negative. -/
theorem Dec.Mul_nonneg (d d2 : Int) (hd : 0 ≤ d) (hd2 : 0 ≤ d2) : 0 ≤ Dec.Mul d d2 :=
  chopPrecisionAndRound_nonneg _ (mul_nonneg hd hd2)

/-- The quotient of a non-negative decimal by a positive one is non-negative. -/
theorem Dec.Quo_nonneg (d d2 : Int) (hd : 0 ≤ d) (hd2 : 0 < d2) : 0 ≤ Dec.Quo d d2 := by
  have h := Dec.Quo_le_Quo_of_cross 0 d d2 d2 hd2 hd2 (by nlinarith)
  have h0 : Dec.Quo 0 d2 = 0 := by
    simp only [Dec.Quo, zero_mul, Int.zero_tdiv]
    decide
  rw [h0] at h
  exact h

/-- The decimal square root of a non-negative decimal is defined. -/
theorem MustSqrtDec_isSome (d : Int) (hd : 0 ≤ d) : ∃ s, MustSqrtDec d = some s := by
  have hnn : ¬ (d * precisionReuse < 0) :=
    not_lt.mpr (mul_nonneg hd (by decide))
  exact ⟨(Nat.sqrt (d * precisionReuse).toNat : Int),
    by simp only [MustSqrtDec, MustSqrtBigInt, hnn, if_false]⟩

/-! ## The swap engine: zero amounts -/

/-- C23: a swap of a zero amount, in either function, for every pool,
direction, limit and fluctuation flag, succeeds with output zero, returns the
pool it was given and leaves the state, the pools and the reserve snapshots,
as it was; so the reserves and the bias are unchanged. -/
theorem SwapQuoteForBase_zero_amount (ctx : Amm.Context) (market : Amm.Market) (dir : Direction)
    (limit : Dec) (skipFluctuationLimitCheck : Bool) :
    Amm.SwapQuoteForBase ctx market dir Dec.Zero limit skipFluctuationLimitCheck =
      some (.ok (market, Dec.Zero), ctx) ∧
    Amm.SwapBaseForQuote ctx market dir Dec.Zero limit skipFluctuationLimitCheck =
      some (.ok (market, Dec.Zero), ctx) := by
  constructor
  · simp only [Amm.SwapQuoteForBase, Dec.IsZero, Dec.Zero, decide_True, if_true]
  · simp only [Amm.SwapBaseForQuote, Dec.IsZero, Dec.Zero, decide_True, if_true]

/-! ## The swap engine: the curve -/

/-- The fluctuation check reads the pair, the reserves, the peg multiplier
and the fluctuation limit of the pool, and nothing else of it. -/
theorem Amm.checkFluctuationLimitRatio_congr (ctx : Amm.Context) (m1 m2 : Amm.Market)
    (hpair : m1.Pair = m2.Pair) (hq : m1.QuoteReserve = m2.QuoteReserve)
    (hb : m1.BaseReserve = m2.BaseReserve) (hpeg : m1.PegMultiplier = m2.PegMultiplier)
    (hflr : m1.Config.FluctuationLimitRatio = m2.Config.FluctuationLimitRatio) :
    Amm.checkFluctuationLimitRatio ctx m1 = Amm.checkFluctuationLimitRatio ctx m2 := by
  simp only [Amm.checkFluctuationLimitRatio, hpair, hq, hb, hpeg, hflr]

/-- What `storeSwap` does with a pool of positive reserves that passes the
fluctuation check or skips it. -/
theorem Amm.storeSwap_ok (ctx : Amm.Context) (market : Amm.Market) (amountOut : Dec)
    (skipFluctuationLimitCheck : Bool)
    (hq : 0 < market.QuoteReserve) (hb : 0 < market.BaseReserve)
    (hfluct : skipFluctuationLimitCheck = true ∨
      Amm.checkFluctuationLimitRatio ctx market = some none) :
    ∃ sqrtDepth,
      MustSqrtDec (Dec.Mul market.QuoteReserve market.BaseReserve) = some sqrtDepth ∧
      Amm.storeSwap ctx market amountOut skipFluctuationLimitCheck =
        some (.ok ({ market with SqrtDepth := sqrtDepth }, amountOut),
          { ctx with
            Pools := mapInsert ctx.Pools market.Pair { market with SqrtDepth := sqrtDepth }
            ReserveSnapshots :=
              mapInsert ctx.ReserveSnapshots (market.Pair, ctx.BlockTimeMs)
                { Pair := market.Pair
                  BaseReserve := market.BaseReserve
                  QuoteReserve := market.QuoteReserve
                  PegMultiplier := market.PegMultiplier
                  TimestampMs := ctx.BlockTimeMs } }) := by
  obtain ⟨s, hs⟩ := MustSqrtDec_isSome _ (Dec.Mul_nonneg _ _ hq.le hb.le)
  refine ⟨s, hs, ?_⟩
  have hcheck : (if skipFluctuationLimitCheck = true then some none
      else Amm.checkFluctuationLimitRatio ctx { market with SqrtDepth := s }) = some none := by
    rcases hfluct with h | h
    · simp only [h, if_true]
    · split_ifs
      · rfl
      · rw [Amm.checkFluctuationLimitRatio_congr ctx { market with SqrtDepth := s } market
          rfl rfl rfl rfl rfl]
        exact h
  simp only [Amm.storeSwap, hs, hcheck]

/-- C24: `SwapQuoteForBase` on a pool with positive quote reserve `q`, base
reserve `b` and peg multiplier `p`, for a positive quote amount `a` that
passes the limits: the quote reserve does not reach zero, the quote delta
`a/p` is within `TradeLimitRatio` of `q`, the base reserve does not reach
zero, the output meets the user limit, and the pool with the new reserves
passes the fluctuation check or the check is skipped.  The swap succeeds; the
pool it returns and stores under the pair has the quote reserve
`q' = q + a/p` on `LONG` and `q − a/p` on `SHORT`, the base reserve
`q·b / q'` and the square root of their product as depth, the amount it
returns is `|b − q·b/q'|`, and a snapshot of the new reserves is written under
the block time. -/
theorem SwapQuoteForBase_constant_product (ctx : Amm.Context) (market : Amm.Market)
    (dir : Direction) (quoteAmount baseLimit : Dec) (skipFluctuationLimitCheck : Bool)
    (quoteReserveAfter baseReserveAfter : Dec)
    (hq : 0 < market.QuoteReserve) (hp : 0 < market.PegMultiplier) (ha : 0 < quoteAmount)
    (hqa : quoteReserveAfter =
      if dir = Direction.LONG then
        market.QuoteReserve + Dec.Quo quoteAmount market.PegMultiplier
      else market.QuoteReserve - Dec.Quo quoteAmount market.PegMultiplier)
    (hba : baseReserveAfter =
      Dec.Quo (Dec.Mul market.QuoteReserve market.BaseReserve) quoteReserveAfter)
    (hqpos : 0 < quoteReserveAfter) (hbpos : 0 < baseReserveAfter)
    (htrade : Dec.Quo (Dec.Quo quoteAmount market.PegMultiplier) market.QuoteReserve ≤
      market.Config.TradeLimitRatio)
    (huser : Amm.failsUserLimit dir (Dec.Abs (market.BaseReserve - baseReserveAfter))
      baseLimit = false)
    (hfluct : skipFluctuationLimitCheck = true ∨
      Amm.checkFluctuationLimitRatio ctx
        { market with QuoteReserve := quoteReserveAfter, BaseReserve := baseReserveAfter }
        = some none) :
    ∃ updated ctxOut,
      Amm.SwapQuoteForBase ctx market dir quoteAmount baseLimit skipFluctuationLimitCheck =
        some (.ok (updated, Dec.Abs (market.BaseReserve - baseReserveAfter)), ctxOut) ∧
      updated.QuoteReserve = quoteReserveAfter ∧
      updated.BaseReserve = baseReserveAfter ∧
      MustSqrtDec (Dec.Mul quoteReserveAfter baseReserveAfter) = some updated.SqrtDepth ∧
      updated.Pair = market.Pair ∧ updated.PegMultiplier = market.PegMultiplier ∧
      updated.Config = market.Config ∧
      mapGet ctxOut.Pools market.Pair = some updated ∧
      mapGet ctxOut.ReserveSnapshots (market.Pair, ctx.BlockTimeMs) =
        some
          { Pair := market.Pair
            BaseReserve := baseReserveAfter
            QuoteReserve := quoteReserveAfter
            PegMultiplier := market.PegMultiplier
            TimestampMs := ctx.BlockTimeMs } := by
  have hz : Dec.IsZero quoteAmount = false := by
    simp only [Dec.IsZero, decide_eq_false_iff_not]; exact ha.ne'
  have hp0 : ¬ (market.PegMultiplier = 0) := hp.ne'
  have hq0 : ¬ (market.QuoteReserve = 0) := hq.ne'
  have hqa2 : (if dir = Direction.LONG then
        Dec.Add market.QuoteReserve (Dec.Quo quoteAmount market.PegMultiplier)
      else Dec.Sub market.QuoteReserve (Dec.Quo quoteAmount market.PegMultiplier)) =
      quoteReserveAfter := by
    rw [hqa]; rfl
  have hqle : ¬ (quoteReserveAfter ≤ 0) := not_le.mpr hqpos
  have hble : ¬ (baseReserveAfter ≤ 0) := not_le.mpr hbpos
  have hgt : Dec.GT (Dec.Quo (Dec.Quo quoteAmount market.PegMultiplier) market.QuoteReserve)
      market.Config.TradeLimitRatio = false := by
    simp only [Dec.GT, gt_iff_lt, decide_eq_false_iff_not, not_lt]; exact htrade
  obtain ⟨s, hs, hstore⟩ := Amm.storeSwap_ok ctx
    { market with
      QuoteReserve := quoteReserveAfter
      BaseReserve := baseReserveAfter
      TotalLong :=
        if dir = Direction.LONG then
          Dec.Add market.TotalLong (Dec.Abs (Dec.Sub market.BaseReserve baseReserveAfter))
        else market.TotalLong
      TotalShort :=
        if dir = Direction.LONG then market.TotalShort
        else Dec.Add market.TotalShort (Dec.Abs (Dec.Sub market.BaseReserve baseReserveAfter)) }
    (Dec.Abs (Dec.Sub market.BaseReserve baseReserveAfter)) skipFluctuationLimitCheck
    hqpos hbpos
    (by
      rcases hfluct with h | h
      · exact Or.inl h
      · right
        rw [← h]
        exact Amm.checkFluctuationLimitRatio_congr ctx _ _ rfl rfl rfl rfl rfl)
  have hu : Amm.failsUserLimit dir (Dec.Abs (Dec.Sub market.BaseReserve baseReserveAfter))
      baseLimit = false := huser
  have hswap :
      Amm.SwapQuoteForBase ctx market dir quoteAmount baseLimit skipFluctuationLimitCheck =
        Amm.storeSwap ctx
          { market with
            QuoteReserve := quoteReserveAfter
            BaseReserve := baseReserveAfter
            TotalLong :=
              if dir = Direction.LONG then
                Dec.Add market.TotalLong
                  (Dec.Abs (Dec.Sub market.BaseReserve baseReserveAfter))
              else market.TotalLong
            TotalShort :=
              if dir = Direction.LONG then market.TotalShort
              else
                Dec.Add market.TotalShort
                  (Dec.Abs (Dec.Sub market.BaseReserve baseReserveAfter)) }
          (Dec.Abs (Dec.Sub market.BaseReserve baseReserveAfter))
          skipFluctuationLimitCheck := by
    simp only [Amm.SwapQuoteForBase, hz, Bool.false_eq_true, if_false, hp0, hqa2, hqle, hq0,
      hgt, ← hba, hble, hu]
  rw [hstore] at hswap
  exact ⟨_, _, hswap, rfl, rfl, hs, rfl, rfl, rfl, mapGet_mapInsert_self _ _ _,
    mapGet_mapInsert_self _ _ _⟩

/-- The case `normal swap add` of `TestSwapQuoteForBase`: reserves of ten
million each, peg multiplier 2, `LONG` with 100000 and limit 49504.  The quote
reserve becomes 10050000, the base reserve 9950248.756218905472636816, and the
amount returned is 49751.243781094527363184. -/
theorem SwapQuoteForBase_constant_product_witness :
    ∃ updated ctxOut,
      Amm.SwapQuoteForBase Demo.poolCtx Demo.pool Direction.LONG (Dec.New 100000)
          (Dec.New 49504) false =
        some (.ok (updated, 49751243781094527363184), ctxOut) ∧
      updated.QuoteReserve = Dec.New 10050000 ∧
      updated.BaseReserve = 9950248756218905472636816 ∧
      mapGet ctxOut.Pools Demo.pair = some updated := by
  obtain ⟨updated, ctxOut, h1, h2, h3, _, _, _, _, h8, _⟩ :=
    SwapQuoteForBase_constant_product Demo.poolCtx Demo.pool Direction.LONG (Dec.New 100000)
      (Dec.New 49504) false (Dec.New 10050000) 9950248756218905472636816
      (by decide) (by decide) (by decide) (by decide) (by decide) (by decide) (by decide)
      (by decide) (by decide) (Or.inr (by decide))
  exact ⟨updated, ctxOut, h1, h2, h3, h8⟩

/-! ## The swap engine: the trade-size limit -/

/-- C25: on a pool with positive reserves and peg multiplier, for a positive
amount.  A swap that adds to a reserve (`LONG`) an amount whose fraction of
that reserve is above `TradeLimitRatio` fails with `ErrOverTradingLimit`: the
quote delta `a/p` against the quote reserve in `SwapQuoteForBase`, the base
amount against the base reserve in `SwapBaseForQuote`.  A swap that removes
(`SHORT`) at least the whole reserve fails with `ErrQuoteReserveAtZero` in
`SwapQuoteForBase` and with `ErrBaseReserveAtZero` in `SwapBaseForQuote`.  In
all four cases the state is the one the swap was given. -/
theorem swap_trade_limit_errors (ctx : Amm.Context) (market : Amm.Market)
    (amount limit : Dec) (skipFluctuationLimitCheck : Bool)
    (hq : 0 < market.QuoteReserve) (hb : 0 < market.BaseReserve)
    (hp : 0 < market.PegMultiplier) (ha : 0 < amount) :
    (Dec.Quo (Dec.Quo amount market.PegMultiplier) market.QuoteReserve >
        market.Config.TradeLimitRatio →
      Amm.SwapQuoteForBase ctx market Direction.LONG amount limit skipFluctuationLimitCheck =
        some (.error Amm.Err.ErrOverTradingLimit, ctx)) ∧
    (market.QuoteReserve ≤ Dec.Quo amount market.PegMultiplier →
      Amm.SwapQuoteForBase ctx market Direction.SHORT amount limit skipFluctuationLimitCheck =
        some (.error Amm.Err.ErrQuoteReserveAtZero, ctx)) ∧
    (Dec.Quo amount market.BaseReserve > market.Config.TradeLimitRatio →
      Amm.SwapBaseForQuote ctx market Direction.LONG amount limit skipFluctuationLimitCheck =
        some (.error Amm.Err.ErrOverTradingLimit, ctx)) ∧
    (market.BaseReserve ≤ amount →
      Amm.SwapBaseForQuote ctx market Direction.SHORT amount limit skipFluctuationLimitCheck =
        some (.error Amm.Err.ErrBaseReserveAtZero, ctx)) := by
  have hz : Dec.IsZero amount = false := by
    simp only [Dec.IsZero, decide_eq_false_iff_not]; exact ha.ne'
  have hp0 : ¬ (market.PegMultiplier = 0) := hp.ne'
  have hq0 : ¬ (market.QuoteReserve = 0) := hq.ne'
  have hb0 : ¬ (market.BaseReserve = 0) := hb.ne'
  have hdelta : (0 : Int) ≤ Dec.Quo amount market.PegMultiplier :=
    Dec.Quo_nonneg amount market.PegMultiplier ha.le hp
  have hqi : (0 : Int) < market.QuoteReserve := hq
  have hbi : (0 : Int) < market.BaseReserve := hb
  have hai : (0 : Int) < amount := ha
  refine ⟨?_, ?_, ?_, ?_⟩
  · intro hover
    have hadd : ¬ (Dec.Add market.QuoteReserve (Dec.Quo amount market.PegMultiplier) ≤ 0) := by
      exact not_le.mpr (add_pos_of_pos_of_nonneg hqi hdelta)
    have hgt : Dec.GT (Dec.Quo (Dec.Quo amount market.PegMultiplier) market.QuoteReserve)
        market.Config.TradeLimitRatio = true := by
      simp only [Dec.GT, decide_eq_true_eq]; exact hover
    simp only [Amm.SwapQuoteForBase, hz, Bool.false_eq_true, if_false, hp0, if_true, hadd, hq0,
      hgt]
  · intro hall
    have hsub : Dec.Sub market.QuoteReserve (Dec.Quo amount market.PegMultiplier) ≤ 0 := by
      exact sub_nonpos.mpr hall
    have hdir : ¬ (Direction.SHORT = Direction.LONG) := by decide
    simp only [Amm.SwapQuoteForBase, hz, Bool.false_eq_true, if_false, hp0, hdir, hsub, if_true]
  · intro hover
    have hadd : ¬ (Dec.Add market.BaseReserve amount ≤ 0) := by
      exact not_le.mpr (add_pos hbi hai)
    have hgt : Dec.GT (Dec.Quo amount market.BaseReserve) market.Config.TradeLimitRatio
        = true := by
      simp only [Dec.GT, decide_eq_true_eq]; exact hover
    simp only [Amm.SwapBaseForQuote, hz, Bool.false_eq_true, if_false, if_true, hadd, hb0, hgt]
  · intro hall
    have hsub : Dec.Sub market.BaseReserve amount ≤ 0 := by
      exact sub_nonpos.mpr hall
    have hdir : ¬ (Direction.SHORT = Direction.LONG) := by decide
    simp only [Amm.SwapBaseForQuote, hz, Bool.false_eq_true, if_false, hdir, hsub, if_true]

/-- The four trade-limit cases of the swap tests with the amount 21000001 on
reserves of ten million each, peg multiplier 2 and trade limit 0.9: adding
fails with `ErrOverTradingLimit`, removing with the reserve-at-zero error of
the function. -/
theorem swap_trade_limit_errors_witness :
    Amm.SwapQuoteForBase Demo.poolCtx Demo.pool Direction.LONG (Dec.New 21000001) Dec.Zero
        false = some (.error Amm.Err.ErrOverTradingLimit, Demo.poolCtx) ∧
    Amm.SwapQuoteForBase Demo.poolCtx Demo.pool Direction.SHORT (Dec.New 21000001) Dec.Zero
        false = some (.error Amm.Err.ErrQuoteReserveAtZero, Demo.poolCtx) ∧
    Amm.SwapBaseForQuote Demo.poolCtx Demo.pool Direction.LONG (Dec.New 21000001) Dec.Zero
        false = some (.error Amm.Err.ErrOverTradingLimit, Demo.poolCtx) ∧
    Amm.SwapBaseForQuote Demo.poolCtx Demo.pool Direction.SHORT (Dec.New 21000001) Dec.Zero
        false = some (.error Amm.Err.ErrBaseReserveAtZero, Demo.poolCtx) :=
  have h := swap_trade_limit_errors Demo.poolCtx Demo.pool (Dec.New 21000001) Dec.Zero false
    (by decide) (by decide) (by decide) (by decide)
  ⟨h.1 (by decide), h.2.1 (by decide), h.2.2.1 (by decide), h.2.2.2 (by decide)⟩

/-! ## The fluctuation limit -/

/-- The snapshot `latestSnapshot` returns is one of the snapshots, and it is
of the pair asked for. -/
theorem Amm.latestSnapshot_mem (snapshots : List ((Pair × Int) × Amm.ReserveSnapshot))
    (pair : Pair) (b : (Pair × Int) × Amm.ReserveSnapshot)
    (h : Amm.latestSnapshot snapshots pair = some b) : b ∈ snapshots ∧ b.1.1 = pair := by
  induction snapshots generalizing b with
  | nil => simp [Amm.latestSnapshot] at h
  | cons e rest ih =>
    by_cases he : e.1.1 = pair
    · cases hr : Amm.latestSnapshot rest pair with
      | none =>
        simp only [Amm.latestSnapshot, he, if_true, hr, Option.some.injEq] at h
        subst h
        exact ⟨List.mem_cons_self _ _, he⟩
      | some b2 =>
        simp only [Amm.latestSnapshot, he, if_true, hr] at h
        by_cases hlt : e.1.2 < b2.1.2
        · simp only [hlt, if_true, Option.some.injEq] at h
          subst h
          exact ⟨List.mem_cons_of_mem _ (ih b2 hr).1, (ih b2 hr).2⟩
        · simp only [hlt, if_false, Option.some.injEq] at h
          subst h
          exact ⟨List.mem_cons_self _ _, he⟩
    · simp only [Amm.latestSnapshot, he, if_false] at h
      exact ⟨List.mem_cons_of_mem _ (ih b h).1, (ih b h).2⟩

/-- A pair without snapshots has no latest snapshot. -/
theorem Amm.latestSnapshot_none (snapshots : List ((Pair × Int) × Amm.ReserveSnapshot))
    (pair : Pair) (h : ∀ e ∈ snapshots, e.1.1 ≠ pair) :
    Amm.latestSnapshot snapshots pair = none := by
  induction snapshots with
  | nil => rfl
  | cons e rest ih =>
    have he : ¬ (e.1.1 = pair) := h e (List.mem_cons_self _ _)
    simp only [Amm.latestSnapshot, he, if_false]
    exact ih (fun x hx => h x (List.mem_cons_of_mem _ hx))

/-- The snapshots of other pairs do not matter to `latestSnapshot`. -/
theorem Amm.latestSnapshot_filter (snapshots : List ((Pair × Int) × Amm.ReserveSnapshot))
    (pair : Pair) :
    Amm.latestSnapshot (snapshots.filter (fun e => decide (e.1.1 = pair))) pair =
      Amm.latestSnapshot snapshots pair := by
  induction snapshots with
  | nil => rfl
  | cons e rest ih =>
    by_cases he : e.1.1 = pair
    · have hd : decide (e.1.1 = pair) = true := decide_eq_true he
      simp only [List.filter_cons, hd, if_true, Amm.latestSnapshot, he, ih]
    · simp only [List.filter_cons, he, decide_False, Bool.false_eq_true, if_false,
        Amm.latestSnapshot, ih]

/-- The snapshot of the pair that is later than every other snapshot of the
pair is the one `latestSnapshot` returns. -/
theorem Amm.latestSnapshot_most_recent (snapshots : List ((Pair × Int) × Amm.ReserveSnapshot))
    (pair : Pair) (b : (Pair × Int) × Amm.ReserveSnapshot)
    (hmem : b ∈ snapshots) (hpair : b.1.1 = pair)
    (hmax : ∀ e ∈ snapshots, e.1.1 = pair → e = b ∨ e.1.2 < b.1.2) :
    Amm.latestSnapshot snapshots pair = some b := by
  induction snapshots with
  | nil => cases hmem
  | cons e rest ih =>
    by_cases he : e.1.1 = pair
    · rcases hmax e (List.mem_cons_self _ _) he with heq | hlt
      · subst heq
        cases hr : Amm.latestSnapshot rest pair with
        | none => simp only [Amm.latestSnapshot, he, if_true, hr]
        | some b2 =>
          obtain ⟨hb2mem, hb2pair⟩ := Amm.latestSnapshot_mem rest pair b2 hr
          have hnot : ¬ (e.1.2 < b2.1.2) := by
            rcases hmax b2 (List.mem_cons_of_mem _ hb2mem) hb2pair with h1 | h1
            · rw [h1]; exact lt_irrefl _
            · exact not_lt.mpr h1.le
          simp only [Amm.latestSnapshot, he, if_true, hr, hnot, if_false]
      · have hbrest : b ∈ rest := by
          rcases List.mem_cons.mp hmem with h1 | h1
          · rw [h1] at hlt; exact absurd hlt (lt_irrefl _)
          · exact h1
        have hih := ih hbrest (fun x hx => hmax x (List.mem_cons_of_mem _ hx))
        simp only [Amm.latestSnapshot, he, if_true, hih, hlt]
    · have hbrest : b ∈ rest := by
        rcases List.mem_cons.mp hmem with h1 | h1
        · rw [h1] at hpair; exact absurd hpair he
        · exact h1
      simp only [Amm.latestSnapshot, he, if_false]
      exact ih hbrest (fun x hx => hmax x (List.mem_cons_of_mem _ hx))

/-- C26, amended: `checkFluctuationLimitRatio` passes when
`FluctuationLimitRatio` is zero and when the pair has no snapshot.  It does
not depend on the snapshots of other pairs.  Otherwise, with the most recent
snapshot of the pair, also when that is the only one, and prices that are
defined, it fails with `ErrOverFluctuationLimit` exactly when the deviation of
the pool's price from the snapshot's price, relative to the snapshot's price,
is above the ratio, and passes if not. -/
theorem checkFluctuationLimitRatio_latest_snapshot (ctx : Amm.Context) (market : Amm.Market) :
    (market.Config.FluctuationLimitRatio = 0 →
      Amm.checkFluctuationLimitRatio ctx market = some none) ∧
    ((∀ e ∈ ctx.ReserveSnapshots, e.1.1 ≠ market.Pair) →
      Amm.checkFluctuationLimitRatio ctx market = some none) ∧
    Amm.checkFluctuationLimitRatio
        { ctx with
          ReserveSnapshots :=
            ctx.ReserveSnapshots.filter (fun e => decide (e.1.1 = market.Pair)) } market =
      Amm.checkFluctuationLimitRatio ctx market ∧
    (∀ latest price snapshotPrice,
      market.Config.FluctuationLimitRatio ≠ 0 →
      latest ∈ ctx.ReserveSnapshots → latest.1.1 = market.Pair →
      (∀ e ∈ ctx.ReserveSnapshots, e.1.1 = market.Pair → e = latest ∨ e.1.2 < latest.1.2) →
      Amm.GetMarkPrice market.QuoteReserve market.BaseReserve market.PegMultiplier =
        some price →
      Amm.GetMarkPrice latest.2.QuoteReserve latest.2.BaseReserve latest.2.PegMultiplier =
        some snapshotPrice →
      snapshotPrice ≠ 0 →
      Amm.checkFluctuationLimitRatio ctx market =
        if Dec.Quo (Dec.Abs (price - snapshotPrice)) snapshotPrice >
            market.Config.FluctuationLimitRatio then
          some (some Amm.Err.ErrOverFluctuationLimit)
        else some none) := by
  refine ⟨?_, ?_, ?_, ?_⟩
  · intro h0
    simp only [Amm.checkFluctuationLimitRatio, Dec.IsZero, h0, decide_True, if_true]
  · intro hnone
    simp only [Amm.checkFluctuationLimitRatio,
      Amm.latestSnapshot_none ctx.ReserveSnapshots market.Pair hnone]
    split_ifs <;> rfl
  · simp only [Amm.checkFluctuationLimitRatio, Amm.latestSnapshot_filter]
  · intro latest price snapshotPrice hflr hmem hpair hmax hprice hsnap hsnap0
    have hz : Dec.IsZero market.Config.FluctuationLimitRatio = false := by
      simp only [Dec.IsZero, decide_eq_false_iff_not]; exact hflr
    have hlatest := Amm.latestSnapshot_most_recent ctx.ReserveSnapshots market.Pair latest
      hmem hpair hmax
    obtain ⟨key, snapshot⟩ := latest
    simp only [Amm.checkFluctuationLimitRatio, hz, Bool.false_eq_true, if_false, hlatest,
      hprice, hsnap, hsnap0, Dec.GT, Dec.Sub, decide_eq_true_eq]

/-- The second case of `TestCheckFluctuationLimitRatio`: the snapshots of
times 0 and 1 have the price 1, the pool with reserves 1100 and 900 has the
price 1.222222222222222222, and with the limit 0.001 the check fails against
the snapshot of time 1. -/
theorem checkFluctuationLimitRatio_latest_snapshot_witness :
    Amm.checkFluctuationLimitRatio
        (Demo.snapshotCtx
          [Demo.snapshotOf (Demo.plainPool Demo.pair 1000 1000 0) 0,
           Demo.snapshotOf (Demo.plainPool Demo.pair 1000 1000 0) 1])
        (Demo.plainPool Demo.pair 1100 900 1000000000000000) =
      some (some Amm.Err.ErrOverFluctuationLimit) :=
  ((checkFluctuationLimitRatio_latest_snapshot
      (Demo.snapshotCtx
        [Demo.snapshotOf (Demo.plainPool Demo.pair 1000 1000 0) 0,
         Demo.snapshotOf (Demo.plainPool Demo.pair 1000 1000 0) 1])
      (Demo.plainPool Demo.pair 1100 900 1000000000000000)).2.2.2
    (Demo.snapshotOf (Demo.plainPool Demo.pair 1000 1000 0) 1)
    1222222222222222222 (Dec.New 1)
    (by decide) (by decide) (by decide) (by decide) (by decide) (by decide) (by decide)).trans
    (by decide)

/-- C26 as stated fails for a pair with only one snapshot.  With the single
snapshot of reserves 1000 and 1000 and a fluctuation limit of 0.001, the pool
with reserves 1100 and 900 fails the check, as it does in the test with two
such snapshots.  And the first swap on the created pool of the swap tests,
`LONG` with one million, whose pair has one snapshot, fails with
`ErrOverFluctuationLimit`, as `TestSwapQuoteForBase` expects. -/
theorem checkFluctuationLimitRatio_single_snapshot :
    (Demo.snapshotCtx
      [Demo.snapshotOf (Demo.plainPool Demo.pair 1000 1000 0) 0]).ReserveSnapshots.length = 1 ∧
    Amm.checkFluctuationLimitRatio
        (Demo.snapshotCtx [Demo.snapshotOf (Demo.plainPool Demo.pair 1000 1000 0) 0])
        (Demo.plainPool Demo.pair 1100 900 1000000000000000) =
      some (some Amm.Err.ErrOverFluctuationLimit) ∧
    Demo.poolCtx.ReserveSnapshots.length = 1 ∧
    Amm.SwapQuoteForBase Demo.poolCtx Demo.pool Direction.LONG (Dec.New 1000000)
        (Dec.New 454544) false =
      some (.error Amm.Err.ErrOverFluctuationLimit, Demo.poolCtx) :=
  ⟨by decide, by decide, by decide, rfl⟩

/-- The five cases of `TestCheckFluctuationLimitRatio`, in the order of the
test: two snapshots equal to the pool; two snapshots and a pool that moved;
one snapshot equal to the pool; a zero limit; snapshots of another pair
around the one snapshot of the pair. -/
theorem Amm.checkFluctuationLimitRatio_tests :
    Amm.checkFluctuationLimitRatio
        (Demo.snapshotCtx
          [Demo.snapshotOf (Demo.plainPool Demo.pair 1000 1000 0) 0,
           Demo.snapshotOf (Demo.plainPool Demo.pair 1000 1000 0) 1])
        (Demo.plainPool Demo.pair 1000 1000 1000000000000000) = some none ∧
    Amm.checkFluctuationLimitRatio
        (Demo.snapshotCtx
          [Demo.snapshotOf (Demo.plainPool Demo.pair 1000 1000 0) 0,
           Demo.snapshotOf (Demo.plainPool Demo.pair 1000 1000 0) 1])
        (Demo.plainPool Demo.pair 1100 900 1000000000000000) =
      some (some Amm.Err.ErrOverFluctuationLimit) ∧
    Amm.checkFluctuationLimitRatio
        (Demo.snapshotCtx [Demo.snapshotOf (Demo.plainPool Demo.pair 1000 1000 0) 0])
        (Demo.plainPool Demo.pair 1000 1000 1000000000000000) = some none ∧
    Amm.checkFluctuationLimitRatio
        (Demo.snapshotCtx
          [Demo.snapshotOf (Demo.plainPool Demo.pair 1000 1000 0) 0,
           Demo.snapshotOf (Demo.plainPool Demo.pair 1000 1000 0) 1])
        (Demo.plainPool Demo.pair 1100 900 0) = some none ∧
    Amm.checkFluctuationLimitRatio
        (Demo.snapshotCtx
          [Demo.snapshotOf (Demo.plainPool Demo.ethPair 5000 1000 0) 0,
           Demo.snapshotOf (Demo.plainPool Demo.pair 1000 1000 0) 0,
           Demo.snapshotOf (Demo.plainPool Demo.ethPair 5000 1000 0) 1])
        (Demo.plainPool Demo.pair 1000 1000 1000000000000000) = some none := by
  refine ⟨?_, ?_, ?_, ?_, ?_⟩ <;> decide

/-! ## The swap tests -/

/-- The cases of `TestSwapQuoteForBase`, in the order of the test, on the pool
of the test after its creation: for each case the error the test expects, or
the quote reserve, the base reserve and the bias of the stored pool and the
amount returned. -/
theorem Amm.SwapQuoteForBase_tests :
    Demo.swapSummary
        (Amm.SwapQuoteForBase Demo.poolCtx Demo.pool Direction.LONG (Dec.New 0) (Dec.New 10) false) =
      some (.ok (Dec.New 10000000, Dec.New 10000000, 0, 0)) ∧
    Demo.swapSummary
        (Amm.SwapQuoteForBase Demo.poolCtx Demo.pool Direction.LONG (Dec.New 100000) (Dec.New 49504) false) =
      some (.ok (Dec.New 10050000, 9950248756218905472636816, 49751243781094527363184, 49751243781094527363184)) ∧
    Demo.swapSummary
        (Amm.SwapQuoteForBase Demo.poolCtx Demo.pool Direction.SHORT (Dec.New 100000) (Dec.New 50506) false) =
      some (.ok (Dec.New 9950000, 10050251256281407035175879, -50251256281407035175879, 50251256281407035175879)) ∧
    Demo.swapSummary
        (Amm.SwapQuoteForBase Demo.poolCtx Demo.pool Direction.LONG (Dec.New 500000) (Dec.New 454500) false) =
      some (.error Amm.Err.ErrAssetFailsUserLimit) ∧
    Demo.swapSummary
        (Amm.SwapQuoteForBase Demo.poolCtx Demo.pool Direction.SHORT (Dec.New 1000000) (Dec.New 454500) false) =
      some (.error Amm.Err.ErrAssetFailsUserLimit) ∧
    Demo.swapSummary
        (Amm.SwapQuoteForBase Demo.poolCtx Demo.pool Direction.SHORT (Dec.New 21000001) (Dec.Zero) false) =
      some (.error Amm.Err.ErrQuoteReserveAtZero) ∧
    Demo.swapSummary
        (Amm.SwapQuoteForBase Demo.poolCtx Demo.pool Direction.LONG (Dec.New 21000001) (Dec.Zero) false) =
      some (.error Amm.Err.ErrOverTradingLimit) ∧
    Demo.swapSummary
        (Amm.SwapQuoteForBase Demo.poolCtx Demo.pool Direction.LONG (Dec.New 1000000) (Dec.New 454544) false) =
      some (.error Amm.Err.ErrOverFluctuationLimit) ∧
    Demo.swapSummary
        (Amm.SwapQuoteForBase Demo.poolCtx Demo.pool Direction.SHORT (Dec.New 2000000) (Dec.New 1555556) false) =
      some (.error Amm.Err.ErrOverFluctuationLimit) ∧
    Demo.swapSummary
        (Amm.SwapQuoteForBase Demo.poolCtx Demo.pool Direction.LONG (Dec.New 1000000) (Dec.New 454544) true) =
      some (.ok (Dec.New 10500000, 9523809523809523809523810, 476190476190476190476190, 476190476190476190476190)) ∧
    Demo.swapSummary
        (Amm.SwapQuoteForBase Demo.poolCtx Demo.pool Direction.SHORT (Dec.New 1000000) (Dec.New 555556) true) =
      some (.ok (Dec.New 9500000, 10526315789473684210526316, -526315789473684210526316, 526315789473684210526316)) :=
  ⟨rfl, rfl, rfl, rfl, rfl, rfl, rfl, rfl, rfl, rfl, rfl⟩

/-- The cases of `TestSwapBaseForQuote`, in the order of the test, likewise. -/
theorem Amm.SwapBaseForQuote_tests :
    Demo.swapSummary
        (Amm.SwapBaseForQuote Demo.poolCtx Demo.pool Direction.LONG (Dec.Zero) (Dec.Zero) false) =
      some (.ok (Dec.New 10000000, Dec.New 10000000, 0, 0)) ∧
    Demo.swapSummary
        (Amm.SwapBaseForQuote Demo.poolCtx Demo.pool Direction.LONG (Dec.New 100000) (Dec.New 198000) false) =
      some (.ok (9900990099009900990099010, Dec.New 10100000, -(Dec.New 100000), 198019801980198019801980)) ∧
    Demo.swapSummary
        (Amm.SwapBaseForQuote Demo.poolCtx Demo.pool Direction.SHORT (Dec.New 100000) (Dec.New 204082) false) =
      some (.ok (10101010101010101010101010, Dec.New 9900000, Dec.New 100000, 202020202020202020202020)) ∧
    Demo.swapSummary
        (Amm.SwapBaseForQuote Demo.poolCtx Demo.pool Direction.LONG (Dec.New 100000) (Dec.New 198079) false) =
      some (.error Amm.Err.ErrAssetFailsUserLimit) ∧
    Demo.swapSummary
        (Amm.SwapBaseForQuote Demo.poolCtx Demo.pool Direction.SHORT (Dec.New 100000) (Dec.New 201081) false) =
      some (.error Amm.Err.ErrAssetFailsUserLimit) ∧
    Demo.swapSummary
        (Amm.SwapBaseForQuote Demo.poolCtx Demo.pool Direction.SHORT (Dec.New 10500001) (Dec.Zero) false) =
      some (.error Amm.Err.ErrBaseReserveAtZero) ∧
    Demo.swapSummary
        (Amm.SwapBaseForQuote Demo.poolCtx Demo.pool Direction.LONG (Dec.New 10500001) (Dec.Zero) false) =
      some (.error Amm.Err.ErrOverTradingLimit) ∧
    Demo.swapSummary
        (Amm.SwapBaseForQuote Demo.poolCtx Demo.pool Direction.LONG (Dec.New 1000000) (Dec.New 1666666) false) =
      some (.error Amm.Err.ErrOverFluctuationLimit) ∧
    Demo.swapSummary
        (Amm.SwapBaseForQuote Demo.poolCtx Demo.pool Direction.SHORT (Dec.New 1000000) (Dec.New 2500001) false) =
      some (.error Amm.Err.ErrOverFluctuationLimit) ∧
    Demo.swapSummary
        (Amm.SwapBaseForQuote Demo.poolCtx Demo.pool Direction.LONG (Dec.New 1000000) (Dec.New 1666666) true) =
      some (.ok (9090909090909090909090909, Dec.New 11000000, -(Dec.New 1000000), 1818181818181818181818182)) ∧
    Demo.swapSummary
        (Amm.SwapBaseForQuote Demo.poolCtx Demo.pool Direction.SHORT (Dec.New 1000000) (Dec.New 2500001) true) =
      some (.ok (11111111111111111111111111, Dec.New 9000000, Dec.New 1000000, 2222222222222222222222222)) :=
  ⟨rfl, rfl, rfl, rfl, rfl, rfl, rfl, rfl, rfl, rfl, rfl⟩

/-- With both fees zero the keeper of the examples moves nothing and returns
nil.  With an ecosystem-fund fee of 3 and an empty vault the transfer to the
ecosystem fund fails, and its error is the result whatever `Withdraw` is, so
the liquidator fee of 2 is not withdrawn. -/
theorem distributeLiquidateRewards_transfers_witness :
    distributeLiquidateRewards Demo.keeper Demo.fullCtx Demo.market (Demo.feeResp 0 0) =
      (none, Demo.fullCtx) ∧
    ∀ w,
      distributeLiquidateRewards { Demo.keeper with Withdraw := w } Demo.emptyVaultCtx
          Demo.market (Demo.feeResp 2 3) =
        (some (Err.external "insufficient funds"), Demo.emptyVaultCtx) :=
  ⟨((distributeLiquidateRewards_transfers Demo.keeper Demo.fullCtx Demo.market
      (Demo.feeResp 0 0)).2.2 Demo.liquidator rfl rfl).1 (by decide) (by decide)
      Demo.keeper.SendCoinsFromModuleToModule Demo.keeper.Withdraw,
    ((distributeLiquidateRewards_transfers Demo.keeper Demo.emptyVaultCtx Demo.market
      (Demo.feeResp 2 3)).2.2 Demo.liquidator rfl rfl).2.2.1 (by decide)
      (Err.external "insufficient funds") Demo.emptyVaultCtx rfl⟩

/-! ## Reward distribution on concrete fees -/

/-- With both fees zero nothing moves; with a liquidator fee of 2 and an
ecosystem-fund fee of 3 the vault pays both; with an empty vault the transfer
to the ecosystem fund fails and the liquidator receives nothing. -/
theorem distributeLiquidateRewards_examples :
    distributeLiquidateRewards Demo.keeper Demo.fullCtx Demo.market (Demo.feeResp 0 0) =
      (none, Demo.fullCtx) ∧
    (distributeLiquidateRewards Demo.keeper Demo.fullCtx Demo.market (Demo.feeResp 2 3)).1 =
      none ∧
    Demo.balance
        (distributeLiquidateRewards Demo.keeper Demo.fullCtx Demo.market
          (Demo.feeResp 2 3)).2.store VaultModuleAccount "unusd" = 995 ∧
    Demo.balance
        (distributeLiquidateRewards Demo.keeper Demo.fullCtx Demo.market
          (Demo.feeResp 2 3)).2.store PerpEFModuleAccount "unusd" = 1003 ∧
    Demo.balance
        (distributeLiquidateRewards Demo.keeper Demo.fullCtx Demo.market
          (Demo.feeResp 2 3)).2.store "nibi1liquidator" "unusd" = 2 ∧
    distributeLiquidateRewards Demo.keeper Demo.emptyVaultCtx Demo.market (Demo.feeResp 2 3) =
      (some (Err.external "insufficient funds"), Demo.emptyVaultCtx) := by
  refine ⟨by decide, by decide, by decide, by decide, by decide, by decide⟩

end Nibiru
